import Mathlib

/-!
# Jagadale Farms lending ledger: accrual, record lifecycle, summary, auth gate

A shallow embedding of

* `src/backend/models/LendingRecord.js` (setters, schema validators and the `pre('save')`
  hook),
* `src/backend/routes/lending.js` (list, summary, create, update, delete, download),
* `src/backend/middleware/auth.js` (the bearer-token gate),
* `src/backend/routes/auth.js` (register, login, verify) and `src/backend/routes/users.js`
  (list, create, update, delete, get),
* the interest previews of `src/frontend/src/App.jsx`,
  `src/frontend/src/components/EditRecordForm.jsx` and
  `src/frontend/src/components/Forms/LendingRecordForm.jsx`, and the text search of the
  record table of `App.jsx`.

Conventions of the embedding.

* A JavaScript `Number` is a rational (`ℚ`). The accrual of the `pre('save')` hook is given
  twice. `accrualInterest` and `preSave` read the operators of the source as exact operations;
  they carry the statements that do not depend on rounding (worked examples whose intermediate
  results are Numbers, signs, orders, what an update leaves untouched). `accrualInterestDouble`
  and `preSaveDouble` round the result of every operator to the nearest binary64 value
  (`roundToDouble`), as the engine does; they carry the statement of the stored values, and
  store what the exact hook stores on the records of the worked examples
  (`preSaveDouble_eq_preSave_examples`). A result beyond the largest finite Number is outside
  the embedding.
* A JavaScript `Date` is its time value, an integer count of milliseconds since the epoch.
* The document store is the list of its documents; `_id` and `createdBy` are natural numbers.
  Where a route compares the text of an id (`DELETE /api/users/:id`), the text of an id and the
  cast of a text to an id are parameters.
* A request field is `Field.missing` (`undefined`), `Field.malformed` (present, rejected by the
  `isISO8601` / `isEmail` validator) or `Field.value v` (present, well formed, parsed to `v`);
  a date text that `isISO8601` accepts and `new Date` cannot read is outside the embedding.
  A numeric field is a `NumericField`, which also records what the comparisons of a custom
  validator make of a value that `isNumeric` rejects.
* A string is a list of Unicode scalar values. `isLength` of express-validator counts a
  character once (`String.length`); the `length` of JavaScript, which `maxlength` of the schema
  compares, counts UTF-16 code units (`utf16Length`). `trim` removes the white space of
  ECMAScript (`isJsWhitespace`).
* The calls into `jsonwebtoken` and `bcryptjs` are parameters of the definitions that make
  them.
-/

namespace JagadaleFarms

/-! ## Numbers and dates -/

/-- The function `Math.ceil`. -/
def mathCeil (x : ℚ) : ℤ := ⌈x⌉

/-- The function `Math.round`: the nearest integer, a tie going towards plus infinity. -/
def mathRound (x : ℚ) : ℤ := ⌊x + 1 / 2⌋

/-- The literal `1000 * 60 * 60 * 24`, milliseconds in a day. -/
def msPerDay : ℤ := 1000 * 60 * 60 * 24

/-- Days between the epoch and the civil date `y-m-d` of the proleptic Gregorian calendar. -/
def daysFromCivil (y m d : ℤ) : ℤ :=
  let y1 := if m ≤ 2 then y - 1 else y
  let era := y1 / 400
  let yoe := y1 - era * 400
  let mp := (m + 9) % 12
  let doy := (153 * mp + 2) / 5 + d - 1
  let doe := yoe * 365 + yoe / 4 - yoe / 100 + doy
  era * 146097 + doe - 719468

/-- The time value of `new Date('YYYY-MM-DD')`: midnight UTC of that day. -/
def dateUTC (y m d : ℤ) : ℤ := daysFromCivil y m d * msPerDay

/-- Rounding to the nearest integer with a tie going away from zero, as the specification
words the rounding rule. -/
def roundHalfAwayFromZero (x : ℚ) : ℤ :=
  if 0 ≤ x then ⌊x + 1 / 2⌋ else ⌈x - 1 / 2⌉

/-- The integer nearest to `t`, a tie going to the even one: the rounding of the significand
in IEEE-754 round-to-nearest. -/
def roundNearestEven (t : ℚ) : ℤ :=
  if t - ⌊t⌋ < 1 / 2 then ⌊t⌋
  else if 1 / 2 < t - ⌊t⌋ then ⌊t⌋ + 1
  else if ⌊t⌋ % 2 = 0 then ⌊t⌋ else ⌊t⌋ + 1

/-- The binary exponent at which a binary64 value next to `x` is written: the integer part of
the logarithm of `|x|` to base 2, and `-1022` below the normal range. -/
def doubleExponent (x : ℚ) : ℤ := max (Int.log 2 |x|) (-1022)

/-- The Number that an arithmetic operator of JavaScript returns when its exact result is `x`:
the binary64 value nearest to `x`, a tie going to the even significand. The significand has 53
bits, so the values next to `x` are the multiples of `2 ^ (doubleExponent x - 52)`. -/
def roundToDouble (x : ℚ) : ℚ :=
  if x = 0 then 0
  else (roundNearestEven (x / (2 : ℚ) ^ (doubleExponent x - 52)) : ℚ)
    * (2 : ℚ) ^ (doubleExponent x - 52)

/-! ## The LendingRecord model -/

/-- A document of the `LendingRecord` collection (timestamps left out). -/
structure LendingRecord where
  id : Nat
  name : String
  amount : ℚ
  rateOfInterest : ℚ
  startDate : ℤ
  renewalDate : ℤ
  interest : ℚ
  total : ℚ
  status : String
  notes : Option String
  createdBy : Nat
  deriving DecidableEq

/-- The `enum` of the `status` path. -/
def statusEnum : List String := ["Active", "Completed", "Overdue"]

/-- The characters that `String.prototype.trim` removes, which are also the white space of a
regular expression: the `WhiteSpace` and `LineTerminator` code points of ECMAScript (tab to
carriage return, space, no-break space, the space separators of Unicode, the line and paragraph
separators and the byte order mark). -/
def isJsWhitespace (c : Char) : Bool :=
  (decide (0x0009 ≤ c.toNat) && decide (c.toNat ≤ 0x000D)) ||
  c.toNat == 0x0020 || c.toNat == 0x00A0 || c.toNat == 0x1680 ||
  (decide (0x2000 ≤ c.toNat) && decide (c.toNat ≤ 0x200A)) ||
  c.toNat == 0x2028 || c.toNat == 0x2029 || c.toNat == 0x202F || c.toNat == 0x205F ||
  c.toNat == 0x3000 || c.toNat == 0xFEFF

/-- The method `trim` on the characters of a string. -/
def trimChars (cs : List Char) : List Char :=
  ((cs.dropWhile isJsWhitespace).reverse.dropWhile isJsWhitespace).reverse

/-- The `trim` setter of the schema and the `trim()` sanitizer of express-validator. -/
def jsTrim (s : String) : String := String.mk (trimChars s.data)

/-- The property `length` of a JavaScript string: the number of its UTF-16 code units, two for
a character outside the basic plane. -/
def utf16Length (s : String) : Nat :=
  (s.data.map (fun c => if c.toNat < 0x10000 then 1 else 2)).sum

/-- The setters of the schema, which run when a document is built or a path is assigned:
`trim` on `name`. -/
def applySetters (r : LendingRecord) : LendingRecord := { r with name := jsTrim r.name }

/-- The schema validators that run when a document is saved: `required`, `maxlength`,
`min`, `max` and `enum` of the schema. `required` refuses the empty string, `maxlength`
compares the `length` of the string. -/
def schemaValid (r : LendingRecord) : Bool :=
  decide (r.name ≠ "") && decide (utf16Length r.name ≤ 100) &&
  decide (0 ≤ r.amount) &&
  decide (0 ≤ r.rateOfInterest) && decide (r.rateOfInterest ≤ 100) &&
  decide (r.status ∈ statusEnum) &&
  (match r.notes with
   | none => true
   | some n => decide (utf16Length n ≤ 500))

/-- Line 57 of the model: `Math.ceil((renewalDate - startDate) / (1000 * 60 * 60 * 24))`. -/
def accrualDays (startDate renewalDate : ℤ) : ℤ :=
  mathCeil (((renewalDate - startDate : ℤ) : ℚ) / ((msPerDay : ℤ) : ℚ))

/-- Lines 58-59 of the model: `years = days / 365`,
`Math.round((amount * rateOfInterest * years) / 100)`. -/
def accrualInterest (amount rate : ℚ) (startDate renewalDate : ℤ) : ℤ :=
  let days := accrualDays startDate renewalDate
  let years : ℚ := (days : ℚ) / 365
  mathRound ((amount * rate * years) / 100)

/-- The `pre('save')` hook: sets `interest` and `total` from the other fields. -/
def preSave (r : LendingRecord) : LendingRecord :=
  let interest : ℚ := (accrualInterest r.amount r.rateOfInterest r.startDate r.renewalDate : ℤ)
  { r with interest := interest, total := r.amount + interest }

/-- The call `new LendingRecord(r).save()`: the setters run when the document is built,
validation runs first in `save` and throws on failure, then the `pre('save')` hook runs and the
document is written. -/
def save (r : LendingRecord) : Except String LendingRecord :=
  if schemaValid (applySetters r) then .ok (preSave (applySetters r))
  else .error "ValidationError"

/-- Line 57 of the model in double precision: the difference of the two time values and its
quotient by the literal are each rounded to the nearest Number, then `Math.ceil` is taken. -/
def accrualDaysDouble (startDate renewalDate : ℤ) : ℤ :=
  mathCeil (roundToDouble
    (roundToDouble ((renewalDate - startDate : ℤ) : ℚ) / ((msPerDay : ℤ) : ℚ)))

/-- Lines 58-59 of the model in double precision: `days / 365`, `amount * rateOfInterest`, the
product with `years` and the quotient by 100 are each rounded to the nearest Number, in the
order in which the source evaluates them, then `Math.round` is taken. -/
def accrualInterestDouble (amount rate : ℚ) (startDate renewalDate : ℤ) : ℤ :=
  let days := accrualDaysDouble startDate renewalDate
  let years : ℚ := roundToDouble ((days : ℚ) / 365)
  mathRound (roundToDouble (roundToDouble (roundToDouble (amount * rate) * years) / 100))

/-- The `pre('save')` hook in double precision; line 60 rounds the sum to the nearest
Number. -/
def preSaveDouble (r : LendingRecord) : LendingRecord :=
  let interest : ℚ :=
    (accrualInterestDouble r.amount r.rateOfInterest r.startDate r.renewalDate : ℤ)
  { r with interest := interest, total := roundToDouble (r.amount + interest) }

/-- The call `new LendingRecord(r).save()` with the hook in double precision. -/
def saveDouble (r : LendingRecord) : Except String LendingRecord :=
  if schemaValid (applySetters r) then .ok (preSaveDouble (applySetters r))
  else .error "ValidationError"

/-- The quotient of the accrual in the words of the specification:
`amount × rate × (days / 365) / 100` with `days = ceil((renewal - start) / 86,400,000)`, in
exact arithmetic. -/
def specQuotient (amount rate : ℚ) (startDate renewalDate : ℤ) : ℚ :=
  amount * rate
    * (((⌈((renewalDate - startDate : ℤ) : ℚ) / 86400000⌉ : ℤ) : ℚ) / 365) / 100

/-- The interest in the words of the specification: the exact quotient rounded to the nearest
integer, a half going away from zero. -/
def specInterest (amount rate : ℚ) (startDate renewalDate : ℤ) : ℤ :=
  roundHalfAwayFromZero (specQuotient amount rate startDate renewalDate)

/-! ## Requests and responses of the lending routes -/

/-- A field of a JSON request body. -/
inductive Field (α : Type) where
  | missing
  | malformed
  | value (v : α)
  deriving DecidableEq

/-- A numeric field of a JSON request body: `missing` (`undefined`), `rejected coerced`
(present and refused by `isNumeric`, where `coerced` is the number that the comparison
operators of JavaScript make of the value, `none` when they make `NaN` of it) or `value v`
(accepted by `isNumeric`, the number `v`). The empty string and `null` are
`rejected (some 0)`, a text such as `abc` is `rejected none`. -/
inductive NumericField where
  | missing
  | rejected (coerced : Option ℚ)
  | value (v : ℚ)
  deriving DecidableEq

/-- One entry of `errors.array()`. -/
structure ValidationError where
  param : String
  msg : String
  deriving DecidableEq

/-- The status code and JSON body of a response of a lending route. -/
structure Response where
  status : Nat
  message : String
  errors : List ValidationError
  record : Option LendingRecord
  deriving DecidableEq

/-- The `LendingRecord` collection. -/
abbrev Store := List LendingRecord

/-- A fresh `_id`: one that no stored document has. -/
def freshId (db : Store) : Nat := (db.map (fun r => r.id)).foldr max 0 + 1

/-- The response `res.status(code).json({ message })`. -/
def plainResponse (code : Nat) (message : String) : Response :=
  { status := code, message := message, errors := [], record := none }

/-- Body of `POST /`. `name` and `notes` are `none` when `undefined`. -/
structure CreateBody where
  name : Option String
  amount : NumericField
  rateOfInterest : NumericField
  startDate : Field ℤ
  renewalDate : Field ℤ
  notes : Option String

/-- The validator `isLength({ min, max })` on a field that may be `undefined`, which is
validated as the empty string. -/
def isLengthOk (min max : Nat) (s : Option String) : Bool :=
  decide (min ≤ (s.getD "").length) && decide ((s.getD "").length ≤ max)

/-- The custom validator of the `amount` chain of `POST /`, lines 142-146, on a value that
the comparisons read as the number `v`. -/
def amountCustomErrors (v : ℚ) : List ValidationError :=
  if v ≤ 0 then [⟨"amount", "Amount must be greater than 0"⟩]
  else if v > 10000000 then [⟨"amount", "Amount cannot exceed 1 crore"⟩]
  else []

/-- The `amount` chain of `POST /`: `isNumeric()`, then the custom validator; both run. A
value that `isNumeric` refuses is reported by it, and by the custom validator as well when the
comparisons make a number out of range of it; on `undefined` and on `NaN` both comparisons are
false. -/
def createAmountErrors : NumericField → List ValidationError
  | .value v => amountCustomErrors v
  | .rejected (some v) => ⟨"amount", "Invalid value"⟩ :: amountCustomErrors v
  | _ => [⟨"amount", "Invalid value"⟩]

/-- The custom validator of the `rateOfInterest` chain of `POST /`, lines 147-151. -/
def rateCustomErrors (v : ℚ) : List ValidationError :=
  if v < 0 then [⟨"rateOfInterest", "Interest rate cannot be negative"⟩]
  else if v > 100 then [⟨"rateOfInterest", "Interest rate cannot exceed 100%"⟩]
  else []

/-- The `rateOfInterest` chain of `POST /`: `isNumeric()`, then the custom validator. -/
def createRateErrors : NumericField → List ValidationError
  | .value v => rateCustomErrors v
  | .rejected (some v) => ⟨"rateOfInterest", "Invalid value"⟩ :: rateCustomErrors v
  | _ => [⟨"rateOfInterest", "Invalid value"⟩]

/-- An `isISO8601()` chain on a required field. -/
def requiredDateErrors (param msg : String) : Field ℤ → List ValidationError
  | .value _ => []
  | _ => [⟨param, msg⟩]

/-- The validation chains of `POST /`, lines 141-154, in order; every chain runs. -/
def validateCreate (b : CreateBody) : List ValidationError :=
  (if isLengthOk 1 100 b.name then []
   else [⟨"name", "Name is required and must be less than 100 characters"⟩]) ++
  createAmountErrors b.amount ++
  createRateErrors b.rateOfInterest ++
  requiredDateErrors "startDate" "Please provide a valid start date" b.startDate ++
  requiredDateErrors "renewalDate" "Please provide a valid renewal date" b.renewalDate ++
  (match b.notes with
   | none => []
   | some n =>
       if n.length ≤ 500 then [] else [⟨"notes", "Notes cannot exceed 500 characters"⟩])

/-- The expression `notes || ''`. -/
def notesOrEmpty (notes : Option String) : String := notes.getD ""

/-- The handler of `POST /` (lines 155-201), run at server time `now` for the authenticated
user `userId`. Returns the response and the collection afterwards. The last branch of the
match is never taken: a body without validation errors carries the four values. -/
def createRecord (now : ℤ) (userId : Nat) (b : CreateBody) (db : Store) : Response × Store :=
  let errors := validateCreate b
  if errors ≠ [] then
    ({ status := 400, message := "Validation failed", errors := errors, record := none }, db)
  else
    match b.amount, b.rateOfInterest, b.startDate, b.renewalDate with
    | .value amount, .value rate, .value start, .value renewal =>
        if start ≥ renewal then
          (plainResponse 400 "Renewal date must be after start date", db)
        else if start < now - 24 * 60 * 60 * 1000 then
          (plainResponse 400 "Start date cannot be in the past", db)
        else
          let record : LendingRecord :=
            { id := freshId db, name := jsTrim (b.name.getD ""), amount := amount,
              rateOfInterest := rate, startDate := start, renewalDate := renewal,
              interest := 0, total := 0, status := "Active",
              notes := some (notesOrEmpty b.notes), createdBy := userId }
          match save record with
          | .ok saved =>
              ({ status := 201, message := "Lending record created successfully",
                 errors := [], record := some saved }, db ++ [saved])
          | .error _ => (plainResponse 500 "Server error while creating record", db)
    | _, _, _, _ => (plainResponse 500 "Server error while creating record", db)

/-- Body of `PUT /:id`: every field is optional. -/
structure UpdateBody where
  name : Option String
  amount : NumericField
  rateOfInterest : NumericField
  startDate : Field ℤ
  renewalDate : Field ℤ
  status : Option String
  notes : Option String

/-- An `optional()` chain with `isNumeric()` and a boolean custom validator; both run on a
value that is present. A value that `isNumeric` refuses is reported by it, and a second time by
the custom validator unless the comparisons make a number of it that the validator accepts
(on `NaN` every comparison is false). -/
def optionalNumericErrors (param : String) (ok : ℚ → Bool) :
    NumericField → List ValidationError
  | .missing => []
  | .rejected none => [⟨param, "Invalid value"⟩, ⟨param, "Invalid value"⟩]
  | .rejected (some v) =>
      ⟨param, "Invalid value"⟩ :: (if ok v then [] else [⟨param, "Invalid value"⟩])
  | .value v => if ok v then [] else [⟨param, "Invalid value"⟩]

/-- An `optional().isISO8601()` chain. -/
def optionalDateErrors (param : String) : Field ℤ → List ValidationError
  | .malformed => [⟨param, "Invalid value"⟩]
  | _ => []

/-- The validation chains of `PUT /:id`, lines 206-212. -/
def validateUpdate (b : UpdateBody) : List ValidationError :=
  (match b.name with
   | none => []
   | some n => if isLengthOk 1 100 (some n) then [] else [⟨"name", "Invalid value"⟩]) ++
  optionalNumericErrors "amount" (fun v => decide (v > 0)) b.amount ++
  optionalNumericErrors "rateOfInterest" (fun v => decide (v ≥ 0) && decide (v ≤ 100))
    b.rateOfInterest ++
  optionalDateErrors "startDate" b.startDate ++
  optionalDateErrors "renewalDate" b.renewalDate ++
  (match b.status with
   | none => []
   | some st => if st ∈ statusEnum then [] else [⟨"status", "Invalid value"⟩]) ++
  (match b.notes with
   | none => []
   | some n => if n.length ≤ 500 then [] else [⟨"notes", "Invalid value"⟩])

/-- The object `updateData` of `PUT /:id`: the paths to `$set`. -/
structure UpdateData where
  name : Option String
  amount : Option ℚ
  rateOfInterest : Option ℚ
  startDate : Option ℤ
  renewalDate : Option ℤ
  status : Option String
  notes : Option String

/-- Lines 226-232: which fields of the body go into `updateData`. `name`, `amount`, the
dates and `status` are taken when truthy, `rateOfInterest` and `notes` when not `undefined`. -/
def buildUpdateData (b : UpdateBody) : UpdateData :=
  { name := match b.name with
      | some n => if jsTrim n ≠ "" then some (jsTrim n) else none
      | none => none
    amount := match b.amount with
      | .value v => if v ≠ 0 then some v else none
      | _ => none
    rateOfInterest := match b.rateOfInterest with
      | .value v => some v
      | _ => none
    startDate := match b.startDate with
      | .value d => some d
      | _ => none
    renewalDate := match b.renewalDate with
      | .value d => some d
      | _ => none
    status := match b.status with
      | some st => if st ≠ "" then some st else none
      | none => none
    notes := b.notes }

/-- The update validators that `runValidators: true` runs on the paths being set; `maxlength`
compares the `length` of the string. -/
def updateValidatorsOk (u : UpdateData) : Bool :=
  (match u.name with
   | none => true
   | some n => decide (n ≠ "") && decide (utf16Length n ≤ 100)) &&
  (match u.amount with
   | none => true
   | some a => decide (0 ≤ a)) &&
  (match u.rateOfInterest with
   | none => true
   | some r => decide (0 ≤ r) && decide (r ≤ 100)) &&
  (match u.status with
   | none => true
   | some st => decide (st ∈ statusEnum)) &&
  (match u.notes with
   | none => true
   | some n => decide (utf16Length n ≤ 500))

/-- The `$set` of `updateData` on one document: the paths present are overwritten, every other
path of the document, `interest` and `total` among them, is left as stored. -/
def applyUpdate (u : UpdateData) (r : LendingRecord) : LendingRecord :=
  { r with
    name := u.name.getD r.name
    amount := u.amount.getD r.amount
    rateOfInterest := u.rateOfInterest.getD r.rateOfInterest
    startDate := u.startDate.getD r.startDate
    renewalDate := u.renewalDate.getD r.renewalDate
    status := u.status.getD r.status
    notes := match u.notes with
      | some n => some n
      | none => r.notes }

/-- The first stored document with the given `_id`. -/
def findById (db : Store) (id : Nat) : Option LendingRecord :=
  db.find? (fun r => r.id == id)

/-- The collection after the first document with the given `_id` is replaced by `f` of it. -/
def updateFirst (id : Nat) (f : LendingRecord → LendingRecord) : Store → Store
  | [] => []
  | r :: rest => if r.id == id then f r :: rest else r :: updateFirst id f rest

/-- The call `LendingRecord.findByIdAndUpdate(id, updateData, { new: true,
runValidators: true })`: an update query, which runs the update validators and no `save`
middleware. The result is the updated document (`none` when no document has the id) and the
collection afterwards. -/
def findByIdAndUpdate (id : Nat) (u : UpdateData) (db : Store) :
    Except String (Option LendingRecord × Store) :=
  if updateValidatorsOk u then
    match findById db id with
    | none => .ok (none, db)
    | some r => .ok (some (applyUpdate u r), updateFirst id (applyUpdate u) db)
  else .error "ValidationError"

/-- The handler of `PUT /:id` (lines 213-259). -/
def updateRecord (id : Nat) (b : UpdateBody) (db : Store) : Response × Store :=
  let errors := validateUpdate b
  if errors ≠ [] then
    ({ status := 400, message := "Validation failed", errors := errors, record := none }, db)
  else
    let updateData := buildUpdateData b
    let datesRejected : Bool :=
      match updateData.startDate, updateData.renewalDate with
      | some s, some e => decide (e ≤ s)
      | _, _ => false
    if datesRejected then
      (plainResponse 400 "Renewal date must be after start date", db)
    else
      match findByIdAndUpdate id updateData db with
      | .error _ => (plainResponse 500 "Server error while updating record", db)
      | .ok (none, _) => (plainResponse 404 "Record not found", db)
      | .ok (some record, db1) =>
          ({ status := 200, message := "Record updated successfully", errors := [],
             record := some record }, db1)

/-- The collection after the first document with the given `_id` is removed. -/
def removeFirst (id : Nat) : Store → Store
  | [] => []
  | r :: rest => if r.id == id then rest else r :: removeFirst id rest

/-- The handler of `DELETE /:id` (lines 262-275). -/
def deleteRecord (id : Nat) (db : Store) : Response × Store :=
  match findById db id with
  | none => (plainResponse 404 "Record not found", db)
  | some _ => (plainResponse 200 "Record deleted successfully", removeFirst id db)

/-- A write request to the lending routes, as it reaches the handler of an authenticated
caller. -/
inductive WriteRequest where
  | create (now : ℤ) (userId : Nat) (body : CreateBody)
  | update (id : Nat) (body : UpdateBody)
  | delete (id : Nat)

/-- One write request served on a collection. -/
def serve (db : Store) : WriteRequest → Response × Store
  | .create now userId body => createRecord now userId body db
  | .update id body => updateRecord id body db
  | .delete id => deleteRecord id db

/-- A sequence of write requests served one after the other, from the given collection. -/
def serveAll (db : Store) (reqs : List WriteRequest) : Store :=
  reqs.foldl (fun d q => (serve d q).2) db

/-- The derived fields of a stored record agree with its current input fields. -/
def accrualConsistent (r : LendingRecord) : Prop :=
  r.interest = (accrualInterest r.amount r.rateOfInterest r.startDate r.renewalDate : ℤ) ∧
  r.total = r.amount + r.interest

instance (r : LendingRecord) : Decidable (accrualConsistent r) := by
  unfold accrualConsistent; infer_instance

/-! ## The dashboard summary -/

/-- A `$match` stage. -/
def matchStage (p : LendingRecord → Bool) (docs : List LendingRecord) : List LendingRecord :=
  docs.filter p

/-- The stage `{ $group: { _id: null, total: { $sum: field } } }`: no output document when
there is no input document, else one document carrying the accumulated sum. -/
def groupSumStage (field : LendingRecord → ℚ) : List LendingRecord → List ℚ
  | [] => []
  | d :: ds => [(d :: ds).foldl (fun acc r => acc + field r) 0]

/-- The expression `result[0]?.total || 0`. -/
def firstTotalOrZero (result : List ℚ) : ℚ :=
  match result.head? with
  | some t => if t ≠ 0 then t else 0
  | none => 0

/-- The predicate `status: { $ne: 'Completed' }`. -/
def notCompleted (r : LendingRecord) : Bool := r.status != "Completed"

/-- The predicate `renewalDate: { $gte: now, $lte: upper }, status: { $ne: 'Completed' }`. -/
def renewsWithin (now upper : ℤ) (r : LendingRecord) : Bool :=
  decide (now ≤ r.renewalDate) && decide (r.renewalDate ≤ upper) && notCompleted r

/-- The stage `{ $group: { _id: '$status', count: { $sum: 1 } } }`. -/
def statusCountsStage (docs : List LendingRecord) : List (String × Nat) :=
  ((docs.map (fun r => r.status)).eraseDups).map
    (fun st => (st, (docs.filter (fun r => r.status == st)).length))

/-- The expression `statusMap[key] || 0` on the reduced `statusCounts`. -/
def statusMapOrZero (counts : List (String × Nat)) (key : String) : Nat :=
  match counts.find? (fun p => p.1 == key) with
  | some p => p.2
  | none => 0

/-- The JSON body of `GET /summary`. -/
structure Summary where
  totalAmountLended : ℚ
  totalInterestExpected : ℚ
  interestNext1Month : ℚ
  interestNext6Months : ℚ
  interestNext1Year : ℚ
  activeRecords : Nat
  completedRecords : Nat
  overdueRecords : Nat
  totalRecords : Nat

/-- The handler of `GET /summary` (lines 64-136), run at server time `now`. -/
def summary (now : ℤ) (db : Store) : Summary :=
  let totalAmount := groupSumStage (fun r => r.amount) (matchStage notCompleted db)
  let totalInterest := groupSumStage (fun r => r.interest) (matchStage notCompleted db)
  let oneMonth := now + 30 * 24 * 60 * 60 * 1000
  let sixMonths := now + 180 * 24 * 60 * 60 * 1000
  let oneYear := now + 365 * 24 * 60 * 60 * 1000
  let interestNext1Month :=
    groupSumStage (fun r => r.interest) (matchStage (renewsWithin now oneMonth) db)
  let interestNext6Months :=
    groupSumStage (fun r => r.interest) (matchStage (renewsWithin now sixMonths) db)
  let interestNext1Year :=
    groupSumStage (fun r => r.interest) (matchStage (renewsWithin now oneYear) db)
  let statusCounts := statusCountsStage db
  { totalAmountLended := firstTotalOrZero totalAmount
    totalInterestExpected := firstTotalOrZero totalInterest
    interestNext1Month := firstTotalOrZero interestNext1Month
    interestNext6Months := firstTotalOrZero interestNext6Months
    interestNext1Year := firstTotalOrZero interestNext1Year
    activeRecords := statusMapOrZero statusCounts "Active"
    completedRecords := statusMapOrZero statusCounts "Completed"
    overdueRecords := statusMapOrZero statusCounts "Overdue"
    totalRecords := (statusCounts.map (fun p => p.2)).foldl (fun acc c => acc + c) 0 }

/-- The records counted in a windowed sum, in the words of the specification: not
`Completed`, and `renewalDate` in the closed interval from `now` to `now + days` days. -/
def inWindow (now days : ℤ) (r : LendingRecord) : Bool :=
  decide (r.status ≠ "Completed") &&
  decide (now ≤ r.renewalDate) && decide (r.renewalDate ≤ now + days * 86400000)

/-! ## The auth middleware -/

/-- Modelled from the spec: `src/backend/models/User.js` is not among the sources. A user has
an id, a unique username, email and phone, a password hash, a status (`Active` or `Inactive`)
and an admin flag; the routes also name the password-reset fields. -/
structure User where
  id : Nat
  username : String
  email : String
  phone : String
  password : String
  status : String
  isAdmin : Bool
  resetPasswordOTP : Option String
  resetPasswordOTPExpire : Option ℤ
  resetPasswordAttempts : Nat
  deriving DecidableEq

/-- The payload of a verified token. `userId` is `none` when the payload has no usable
`userId`. -/
structure Decoded where
  userId : Option Nat
  email : Option String
  isAdmin : Option Bool
  deriving DecidableEq

/-- The method `String.prototype.replace(pattern, '')` with a string pattern: the first
occurrence of the pattern is removed. -/
def removeFirstOccurrence (pat : List Char) : List Char → List Char
  | [] => []
  | c :: cs =>
      if pat.isPrefixOf (c :: cs) then (c :: cs).drop pat.length
      else c :: removeFirstOccurrence pat cs

/-- The expression `req.header('Authorization')?.replace('Bearer ', '')`. -/
def bearerToken (authorization : Option String) : Option String :=
  authorization.map (fun h => String.mk (removeFirstOccurrence "Bearer ".data h.data))

/-- The query `User.findById(id)`: `null` when the id is `undefined` or matches no user. -/
def findUserById (users : List User) : Option Nat → Option User
  | none => none
  | some i => users.find? (fun u => u.id == i)

/-- What the middleware does with a request: call `next()` with `req.user` set, or answer. -/
inductive AuthOutcome where
  | next (reqUser : Decoded)
  | respond (status : Nat) (message : String)
  deriving DecidableEq

/-- The auth middleware (`middleware/auth.js`). `jwtVerify secret token` stands for
`jwt.verify(token, secret)`, `none` when it throws; `jwtSecret` is `process.env.JWT_SECRET`. -/
def authMiddleware (jwtVerify : Option String → String → Option Decoded)
    (jwtSecret : Option String) (users : List User) (authorization : Option String) :
    AuthOutcome :=
  match bearerToken authorization with
  | none => .respond 401 "No token, authorization denied"
  | some token =>
      if token = "" then .respond 401 "No token, authorization denied"
      else
        match jwtVerify jwtSecret token with
        | none => .respond 401 "Token is not valid"
        | some decoded =>
            match findUserById users decoded.userId with
            | none => .respond 401 "Token is not valid"
            | some user =>
                if user.status ≠ "Active" then .respond 401 "Token is not valid"
                else .next decoded

/-- A route registered as `[auth, handler]`: the handler runs only when the middleware calls
`next()`, otherwise the response of the middleware is the response of the route. -/
def protectedRoute (outcome : AuthOutcome) (handler : Decoded → Response) : Response :=
  match outcome with
  | .next reqUser => handler reqUser
  | .respond status message => plainResponse status message

/-! ## The login route -/

/-- The fallback `process.env.JWT_SECRET || 'your-secret-key'` of `routes/auth.js`: an unset
or empty variable gives the literal. -/
def jwtSecretOrDefault (jwtSecret : Option String) : String :=
  match jwtSecret with
  | some k => if k ≠ "" then k else "your-secret-key"
  | none => "your-secret-key"

/-- The `user` object of the login, register and verify responses. -/
structure PublicUser where
  id : Nat
  username : String
  email : String
  phone : String
  status : String
  isAdmin : Bool
  deriving DecidableEq

/-- The status code and JSON body of a response of `routes/auth.js`. -/
structure AuthResponse where
  status : Nat
  message : String
  errors : List ValidationError
  token : Option String
  user : Option PublicUser
  deriving DecidableEq

/-- The response `res.status(code).json({ message })` of `routes/auth.js`. -/
def authPlain (code : Nat) (message : String) : AuthResponse :=
  { status := code, message := message, errors := [], token := none, user := none }

/-- Body of `POST /login`. `email` is a value when it passes `isEmail()`, and is then the
normalized address; `password` is `none` when `undefined`. -/
structure LoginBody where
  email : Field String
  password : Option String

/-- The validation chains of `POST /login`, lines 81-82. -/
def validateLogin (b : LoginBody) : List ValidationError :=
  (match b.email with
   | .value _ => []
   | _ => [⟨"email", "Please provide a valid email"⟩]) ++
  (if (b.password.getD "") ≠ "" then [] else [⟨"password", "Password is required"⟩])

/-- The fields of a user that the auth routes put in a response. -/
def publicFields (u : User) : PublicUser :=
  { id := u.id, username := u.username, email := u.email, phone := u.phone,
    status := u.status, isAdmin := u.isAdmin }

/-- The handler of `POST /login` (lines 83-151). `jwtSign payload secret` stands for
`jwt.sign(payload, secret, { expiresIn: '24h' })` and `bcryptCompare password hash` for
`bcrypt.compare(password, hash)`. The last branch of the match is never taken. -/
def loginRoute (jwtSign : Decoded → String → String) (bcryptCompare : String → String → Bool)
    (jwtSecret : Option String) (users : List User) (b : LoginBody) : AuthResponse :=
  let errors := validateLogin b
  if errors ≠ [] then
    { status := 400, message := "Validation failed", errors := errors, token := none,
      user := none }
  else
    match b.email, b.password with
    | .value email, some password =>
        match users.find? (fun u => u.email == email) with
        | none => authPlain 401 "Invalid email or password"
        | some user =>
            if user.status ≠ "Active" then
              authPlain 401 "Account is inactive. Please contact administrator."
            else if bcryptCompare password user.password = false then
              authPlain 401 "Invalid email or password"
            else
              let token := jwtSign
                { userId := some user.id, email := some user.email,
                  isAdmin := some user.isAdmin }
                (jwtSecretOrDefault jwtSecret)
              { status := 200, message := "Login successful", errors := [],
                token := some token, user := some (publicFields user) }
    | _, _ => authPlain 500 "Server error during login"

/-- The header `Authorization: Bearer <token>` that the client sends with a token. -/
def bearerHeader (token : String) : Option String := some ("Bearer " ++ token)

/-! ## The delete-user route -/

/-- The handler of `DELETE /:id` of `routes/users.js` (lines 164-182), for the caller
`reqUser` that the auth middleware let through. `idParam` is the text of the route parameter.
`idText i` is the text that the payload of a token carries for the id `i` (`jwt.sign` writes
`user._id` as 24 lower-case hexadecimal digits), and line 167 compares the two texts with
`===`. `castId` is the cast of a text to an id that `findByIdAndDelete` makes, `none` when
the text is no id and the query throws. -/
def deleteUser (idText : Nat → String) (castId : String → Option Nat) (reqUser : Decoded)
    (idParam : String) (users : List User) : Response × List User :=
  if some idParam = reqUser.userId.map idText then
    (plainResponse 400 "Cannot delete your own account", users)
  else
    match castId idParam with
    | none => (plainResponse 500 "Server error while deleting user", users)
    | some id =>
        match users.find? (fun u => u.id == id) with
        | none => (plainResponse 404 "User not found", users)
        | some _ =>
            (plainResponse 200 "User deleted successfully",
             users.eraseP (fun u => u.id == id))

/-! ## The previews of the frontend forms -/

/-- The object `{ days, interest, total }` of a preview. -/
structure Preview where
  days : ℤ
  interest : ℚ
  total : ℚ
  deriving DecidableEq

/-- The preview effect of `AddRecordForm` (`App.jsx`, lines 301-319): the new value of
`previewData`, given the old one. A form field is `none` when it is empty. -/
def addRecordFormPreview (prev : Option Preview) (amount rate : Option ℚ)
    (startDate renewalDate : Option ℤ) : Option Preview :=
  match amount, rate, startDate, renewalDate with
  | some amount, some rate, some start, some renewal =>
      if amount > 0 ∧ rate ≥ 0 ∧ renewal > start then
        let days := mathCeil (((renewal - start : ℤ) : ℚ) / ((1000 * 60 * 60 * 24 : ℤ) : ℚ))
        let years : ℚ := (days : ℚ) / 365
        let interest : ℚ := (mathRound ((amount * rate * years) / 100) : ℤ)
        let total := amount + interest
        some { days := days, interest := interest, total := total }
      else prev
  | _, _, _, _ => none

/-- The preview effect of `EditRecordForm` (`EditRecordForm.jsx`, lines 30-48). -/
def editRecordFormPreview (prev : Option Preview) (amount rate : Option ℚ)
    (startDate renewalDate : Option ℤ) : Option Preview :=
  match amount, rate, startDate, renewalDate with
  | some amount, some rate, some start, some renewal =>
      if amount > 0 ∧ rate ≥ 0 ∧ renewal > start then
        let days := mathCeil (((renewal - start : ℤ) : ℚ) / ((1000 * 60 * 60 * 24 : ℤ) : ℚ))
        let years : ℚ := (days : ℚ) / 365
        let interest : ℚ := (mathRound ((amount * rate * years) / 100) : ℤ)
        let total := amount + interest
        some { days := days, interest := interest, total := total }
      else prev
  | _, _, _, _ => none

/-- The function `calculatePreview` of `LendingRecordForm.jsx` (lines 69-82). A watched value
is `none` when it is falsy. -/
def calculatePreview (amount rateOfInterest : Option ℚ) (startDate renewalDate : Option ℤ) :
    Preview :=
  match amount, rateOfInterest, startDate, renewalDate with
  | some amount, some rateOfInterest, some startDate, some renewalDate =>
      let days :=
        mathCeil (((renewalDate - startDate : ℤ) : ℚ) / ((1000 * 60 * 60 * 24 : ℤ) : ℚ))
      let years : ℚ := (days : ℚ) / 365
      let interest : ℚ := (amount * rateOfInterest * years) / 100
      let total := amount + interest
      { interest := interest, total := total, days := days }
  | _, _, _, _ => { interest := 0, total := 0, days := 0 }

/-! ## The invariants of a create request, in the words of the specification -/

/-- The field-level invariants of the data model that a create request can violate, by the
name of the field. -/
def violatesField (b : CreateBody) (field : String) : Prop :=
  (field = "name" ∧ ¬ (1 ≤ (b.name.getD "").length ∧ (b.name.getD "").length ≤ 100)) ∨
  (field = "amount" ∧ ¬ ∃ v, b.amount = .value v ∧ 0 < v ∧ v ≤ 10000000) ∨
  (field = "rateOfInterest" ∧ ¬ ∃ v, b.rateOfInterest = .value v ∧ 0 ≤ v ∧ v ≤ 100) ∨
  (field = "startDate" ∧ ¬ ∃ d, b.startDate = .value d) ∨
  (field = "renewalDate" ∧ ¬ ∃ d, b.renewalDate = .value d) ∨
  (field = "notes" ∧ ∃ n, b.notes = some n ∧ 500 < n.length)

/-- The date-order invariant is violated: both dates are well formed and `renewalDate` is not
after `startDate`. -/
def violatesDateOrder (b : CreateBody) : Prop :=
  ∃ s e, b.startDate = .value s ∧ b.renewalDate = .value e ∧ e ≤ s

/-! ## The list route -/

/-- The query string of `GET /`. A parameter is `none` when absent; a date bound is
`Field.missing` when absent or empty, `Field.malformed` when `new Date` cannot read it. -/
structure ListQuery where
  page : Option Nat
  limit : Option Nat
  search : Option String
  sortBy : Option String
  sortOrder : Option String
  status : Option String
  startDate : Field ℤ
  endDate : Field ℤ

/-- The object `query` of lines 22-39: the conditions of the `find`. -/
structure ListFilter where
  nameRegex : Option String
  status : Option String
  startGte : Option (Field ℤ)
  startLte : Option (Field ℤ)

/-- Lines 22-39: a condition is added for each parameter that is truthy; the date conditions
only when one of the bounds is given. -/
def buildListFilter (q : ListQuery) : ListFilter :=
  { nameRegex := if q.search.getD "" ≠ "" then some (q.search.getD "") else none
    status := if q.status.getD "" ≠ "" then some (q.status.getD "") else none
    startGte := match q.startDate with
      | .missing => none
      | d => some d
    startLte := match q.endDate with
      | .missing => none
      | d => some d }

/-- A bound of the date range that the query cannot cast to a date. -/
def badBound : Option (Field ℤ) → Bool
  | some (.value _) => false
  | none => false
  | _ => true

/-- One document against the conditions of the filter. `nameTest` is the compiled
`{ $regex: search, $options: 'i' }`, when the filter has one. -/
def filterMatches (nameTest : Option (String → Bool)) (f : ListFilter)
    (r : LendingRecord) : Bool :=
  (match nameTest with
   | none => true
   | some test => test r.name) &&
  (match f.status with
   | none => true
   | some st => r.status == st) &&
  (match f.startGte with
   | some (.value d) => decide (d ≤ r.startDate)
   | _ => true) &&
  (match f.startLte with
   | some (.value d) => decide (r.startDate ≤ d)
   | _ => true)

/-- The documents that `LendingRecord.find(query)` and `countDocuments(query)` select.
`regexI pattern` stands for the regular expression `pattern` compiled with the option `i`,
`none` when the pattern is not a regular expression; the query then fails, as it does on a
bound that is not a date. -/
def listMatching (regexI : String → Option (String → Bool)) (q : ListQuery) (db : Store) :
    Option (List LendingRecord) :=
  let f := buildListFilter q
  if badBound f.startGte || badBound f.startLte then none
  else
    match f.nameRegex with
    | none => some (db.filter (filterMatches none f))
    | some pattern =>
        match regexI pattern with
        | none => none
        | some test => some (db.filter (filterMatches (some test) f))

/-- The JSON body of a successful `GET /`. `totalPages` is `none` when `Math.ceil(total /
limit)` is not a finite number, which JSON writes as `null`. -/
structure ListBody where
  records : List LendingRecord
  totalPages : Option ℤ
  currentPage : Nat
  total : Nat
  hasNextPage : Bool
  hasPrevPage : Bool

/-- The handler of `GET /` (lines 9-61). `sortStage sortBy descending` stands for the sort of
the database on the key `sortBy`. A failing query is answered 500. A `limit` of 0 is no
limit for the database; a negative `skip` is refused by it. -/
def listRecords (regexI : String → Option (String → Bool))
    (sortStage : String → Bool → List LendingRecord → List LendingRecord)
    (q : ListQuery) (db : Store) : Except Response ListBody :=
  let page := q.page.getD 1
  let limit := q.limit.getD 10
  let sortBy := q.sortBy.getD "createdAt"
  let sortOrder := q.sortOrder.getD "desc"
  match listMatching regexI q db with
  | none => .error (plainResponse 500 "Server error")
  | some matching =>
      let skip : ℤ := ((page : ℤ) - 1) * (limit : ℤ)
      if skip < 0 then .error (plainResponse 500 "Server error")
      else
        let sorted := sortStage sortBy (decide (sortOrder = "desc")) matching
        let records :=
          if limit = 0 then sorted.drop skip.toNat else (sorted.drop skip.toNat).take limit
        let total := matching.length
        .ok { records := records
              totalPages :=
                if limit = 0 then none else some (mathCeil ((total : ℚ) / (limit : ℚ)))
              currentPage := page
              total := total
              hasNextPage :=
                if limit = 0 then decide (0 < total)
                else decide ((page : ℤ) < mathCeil ((total : ℚ) / (limit : ℚ)))
              hasPrevPage := decide (page > 1) }

/-- The records of the page that a list request returns, none when the request fails. -/
def pageRecords (regexI : String → Option (String → Bool))
    (sortStage : String → Bool → List LendingRecord → List LendingRecord)
    (q : ListQuery) (db : Store) : List LendingRecord :=
  match listRecords regexI sortStage q db with
  | .ok body => body.records
  | .error _ => []

/-- The first list occurs in the second as a run of consecutive elements. -/
def occursIn (needle : List Char) : List Char → Bool
  | [] => needle.isPrefixOf []
  | c :: cs => needle.isPrefixOf (c :: cs) || occursIn needle cs

/-- The name contains the search text as a literal substring, ignoring case: the matching
rule in the words of the specification. -/
def containsIgnoreCase (name search : String) : Bool :=
  occursIn (search.data.map Char.toLower) (name.data.map Char.toLower)

/-- The text search of the record table of `App.jsx` (lines 823-826), which filters the
records that the list route returned by the same search term:
`record.name.toLowerCase().includes(searchTerm.toLowerCase())` when the term is not empty.
`toLowerCase` is taken on the letters of ASCII. -/
def clientTextSearch (searchTerm : String) (r : LendingRecord) : Bool :=
  if searchTerm ≠ "" then
    occursIn (searchTerm.data.map Char.toLower) (r.name.data.map Char.toLower)
  else true

/-! ## The download route -/

/-- The method `Array.prototype.join` with a separator of one character, on the characters of
the parts. -/
def joinChars (sep : Char) : List (List Char) → List Char
  | [] => []
  | [x] => x
  | x :: y :: rest => x ++ sep :: joinChars sep (y :: rest)

/-- The header row of the CSV export (line 309). -/
def csvHeader : List String :=
  ["Name", "Amount", "Rate (%)", "Start Date", "Renewal Date", "Interest", "Total", "Status",
   "Notes"]

/-- The row of one record (lines 310-320). `showNumber` stands for the conversion of a number
to a string and `isoDay` for `toISOString().split('T')[0]`. -/
def csvCells (showNumber : ℚ → String) (isoDay : ℤ → String) (r : LendingRecord) :
    List String :=
  [r.name, showNumber r.amount, showNumber r.rateOfInterest, isoDay r.startDate,
   isoDay r.renewalDate, showNumber r.interest, showNumber r.total, r.status,
   notesOrEmpty r.notes]

/-- One row joined with commas (line 321). -/
def csvLine (cells : List String) : List Char := joinChars ',' (cells.map String.data)

/-- The CSV text (lines 308-321): the header row and the rows of the records, each joined
with commas, joined with newlines. -/
def csvText (showNumber : ℚ → String) (isoDay : ℤ → String) (records : List LendingRecord) :
    String :=
  String.mk (joinChars '\n'
    (csvLine csvHeader :: records.map (fun r => csvLine (csvCells showNumber isoDay r))))

/-- The response of `POST /download`. -/
inductive DownloadResponse where
  | failure (status : Nat) (message : String)
  | csv (text : String)
  | json (message : String) (records : List LendingRecord)
  deriving DecidableEq

/-- The handler of `POST /download` (lines 295-339). `recordIds` is `none` when the body has
none. -/
def downloadRecords (showNumber : ℚ → String) (isoDay : ℤ → String)
    (recordIds : Option (List Nat)) (format : Option String) (db : Store) :
    DownloadResponse :=
  match recordIds with
  | none => .failure 400 "No records selected for download"
  | some ids =>
      if ids.length = 0 then .failure 400 "No records selected for download"
      else
        let records := db.filter (fun r => decide (r.id ∈ ids))
        if format.getD "json" = "csv" then .csv (csvText showNumber isoDay records)
        else .json "Records retrieved successfully" records

/-- The reading of a CSV text: its pieces between occurrences of the separator. -/
def splitOnChar (sep : Char) : List Char → List (List Char)
  | [] => [[]]
  | c :: cs =>
      if c = sep then [] :: splitOnChar sep cs
      else
        match splitOnChar sep cs with
        | [] => [[c]]
        | seg :: segs => (c :: seg) :: segs

/-! ## The user routes, register and verify -/

/-- A user object in a response body. A path of the document that the body does not carry is
`none`. -/
structure UserView where
  id : Nat
  username : String
  email : String
  phone : String
  status : String
  isAdmin : Bool
  password : Option String
  resetPasswordOTP : Option String
  resetPasswordOTPExpire : Option ℤ
  resetPasswordAttempts : Option Nat
  deriving DecidableEq

/-- The projection `.select('-password -resetPasswordOTP -resetPasswordOTPExpire
-resetPasswordAttempts')` of `routes/users.js`. -/
def selectPublic (u : User) : UserView :=
  { id := u.id, username := u.username, email := u.email, phone := u.phone,
    status := u.status, isAdmin := u.isAdmin, password := none, resetPasswordOTP := none,
    resetPasswordOTPExpire := none, resetPasswordAttempts := none }

/-- The JSON of the object literal `{ id, username, email, phone, status, isAdmin }` of
`routes/auth.js`. -/
def PublicUser.view (u : PublicUser) : UserView :=
  { id := u.id, username := u.username, email := u.email, phone := u.phone,
    status := u.status, isAdmin := u.isAdmin, password := none, resetPasswordOTP := none,
    resetPasswordOTPExpire := none, resetPasswordAttempts := none }

/-- The status code and JSON body of a response of `routes/users.js`. -/
structure UserResponse where
  status : Nat
  message : String
  errors : List ValidationError
  user : Option UserView
  deriving DecidableEq

/-- The response `res.status(code).json({ message })` of `routes/users.js`. -/
def userPlain (code : Nat) (message : String) : UserResponse :=
  { status := code, message := message, errors := [], user := none }

/-- The pattern `/^[6-9]\d{9}$/` of the phone chains. -/
def phoneOk (phone : String) : Bool :=
  match phone.data with
  | [] => false
  | c :: cs =>
      decide ('6' ≤ c ∧ c ≤ '9') && decide (cs.length = 9) &&
      cs.all (fun d => decide ('0' ≤ d ∧ d ≤ '9'))

/-- The status values of a user. -/
def userStatusEnum : List String := ["Active", "Inactive"]

/-- A fresh `_id` for a user: one that no stored user has. -/
def freshUserId (users : List User) : Nat := (users.map (fun u => u.id)).foldr max 0 + 1

/-- Modelled from the spec: `User.save()` of `models/User.js`, which is not among the sources.
The document gets a fresh id and the hash of its password and is appended to the collection,
unless the validators of the schema, `schemaOk`, refuse it; `save` then throws. -/
def saveUser (hashPassword : String → String) (schemaOk : User → Bool) (u : User)
    (users : List User) : Option (User × List User) :=
  if schemaOk u then
    let stored := { u with id := freshUserId users, password := hashPassword u.password }
    some (stored, users ++ [stored])
  else none

/-- The query `User.findOne({ $or: [{ email }, { username }, { phone }] })`. -/
def findDuplicate (users : List User) (email username phone : String) : Option User :=
  users.find? (fun u => u.email == email || u.username == username || u.phone == phone)

/-- Body of `POST /` of `routes/users.js` and of `POST /register`. -/
structure CreateUserBody where
  username : Option String
  email : Field String
  phone : Option String
  password : Option String
  status : Option String

/-- The validation chains of `POST /` of `routes/users.js`, lines 44-48. -/
def validateCreateUser (b : CreateUserBody) : List ValidationError :=
  (if isLengthOk 3 30 b.username then []
   else [⟨"username", "Username must be 3-30 characters"⟩]) ++
  (match b.email with
   | .value _ => []
   | _ => [⟨"email", "Please provide a valid email"⟩]) ++
  (if phoneOk (b.phone.getD "") then []
   else [⟨"phone", "Please provide a valid 10-digit phone number"⟩]) ++
  (if 6 ≤ (b.password.getD "").length then []
   else [⟨"password", "Password must be at least 6 characters"⟩]) ++
  (match b.status with
   | none => []
   | some st =>
       if st ∈ userStatusEnum then []
       else [⟨"status", "Status must be Active or Inactive"⟩])

/-- The handler of `POST /` of `routes/users.js` (lines 49-93). -/
def createUser (hashPassword : String → String) (schemaOk : User → Bool)
    (b : CreateUserBody) (users : List User) : UserResponse × List User :=
  let errors := validateCreateUser b
  if errors ≠ [] then
    ({ status := 400, message := "Validation failed", errors := errors, user := none }, users)
  else
    match b.email with
    | .value email =>
        let username := jsTrim (b.username.getD "")
        let phone := b.phone.getD ""
        match findDuplicate users email username phone with
        | some _ =>
            (userPlain 400 "User already exists with this email, username, or phone number",
             users)
        | none =>
            let user : User :=
              { id := 0, username := username, email := email, phone := phone,
                password := b.password.getD "", status := b.status.getD "Active",
                isAdmin := false, resetPasswordOTP := none, resetPasswordOTPExpire := none,
                resetPasswordAttempts := 0 }
            match saveUser hashPassword schemaOk user users with
            | none => (userPlain 500 "Server error while creating user", users)
            | some (stored, users1) =>
                ({ status := 201, message := "User created successfully", errors := [],
                   user := (users1.find? (fun u => u.id == stored.id)).map selectPublic },
                 users1)
    | _ => (userPlain 500 "Server error while creating user", users)

/-- The validation chains of `POST /register`, lines 16-19. -/
def validateRegister (b : CreateUserBody) : List ValidationError :=
  (if isLengthOk 3 30 b.username then [] else [⟨"username", "Invalid value"⟩]) ++
  (match b.email with
   | .value _ => []
   | _ => [⟨"email", "Invalid value"⟩]) ++
  (if phoneOk (b.phone.getD "") then [] else [⟨"phone", "Invalid value"⟩]) ++
  (if 6 ≤ (b.password.getD "").length then [] else [⟨"password", "Invalid value"⟩])

/-- The handler of `POST /register` (lines 20-77); the `status` of the body is not read. -/
def registerRoute (jwtSign : Decoded → String → String) (hashPassword : String → String)
    (schemaOk : User → Bool) (jwtSecret : Option String) (b : CreateUserBody)
    (users : List User) : AuthResponse × List User :=
  let errors := validateRegister b
  if errors ≠ [] then
    ({ status := 400, message := "Validation failed", errors := errors, token := none,
       user := none }, users)
  else
    match b.email with
    | .value email =>
        let username := jsTrim (b.username.getD "")
        let phone := b.phone.getD ""
        match findDuplicate users email username phone with
        | some _ =>
            (authPlain 400 "User already exists with this email, username, or phone number",
             users)
        | none =>
            let user : User :=
              { id := 0, username := username, email := email, phone := phone,
                password := b.password.getD "", status := "Active", isAdmin := false,
                resetPasswordOTP := none, resetPasswordOTPExpire := none,
                resetPasswordAttempts := 0 }
            match saveUser hashPassword schemaOk user users with
            | none => (authPlain 500 "Server error during registration", users)
            | some (stored, users1) =>
                let token := jwtSign { userId := some stored.id, email := none, isAdmin := none }
                  (jwtSecretOrDefault jwtSecret)
                ({ status := 201, message := "User registered successfully", errors := [],
                   token := some token, user := some (publicFields stored) }, users1)
    | _ => (authPlain 500 "Server error during registration", users)

/-- Body of `PUT /:id` of `routes/users.js`: every field is optional. -/
structure UpdateUserBody where
  username : Option String
  email : Field String
  phone : Option String
  password : Option String
  status : Option String

/-- The validation chains of `PUT /:id` of `routes/users.js`, lines 98-102. -/
def validateUpdateUser (b : UpdateUserBody) : List ValidationError :=
  (match b.username with
   | none => []
   | some n => if isLengthOk 3 30 (some n) then [] else [⟨"username", "Invalid value"⟩]) ++
  (match b.email with
   | .malformed => [⟨"email", "Invalid value"⟩]
   | _ => []) ++
  (match b.phone with
   | none => []
   | some ph => if phoneOk ph then [] else [⟨"phone", "Invalid value"⟩]) ++
  (match b.password with
   | none => []
   | some pw => if 6 ≤ pw.length then [] else [⟨"password", "Invalid value"⟩]) ++
  (match b.status with
   | none => []
   | some st => if st ∈ userStatusEnum then [] else [⟨"status", "Invalid value"⟩])

/-- The object `updateData` of `PUT /:id` of `routes/users.js`. -/
structure UserUpdateData where
  username : Option String
  email : Option String
  phone : Option String
  password : Option String
  status : Option String

/-- A string of the body when it is truthy. -/
def truthy (s : Option String) : Option String :=
  match s with
  | some v => if v ≠ "" then some v else none
  | none => none

/-- Lines 116-120: the fields of the body that are truthy, the username after `trim`. -/
def buildUserUpdateData (b : UpdateUserBody) : UserUpdateData :=
  { username := truthy (b.username.map jsTrim)
    email := match b.email with
      | .value e => truthy (some e)
      | _ => none
    phone := truthy b.phone
    password := truthy b.password
    status := truthy b.status }

/-- The `$set` of `updateData` on one user. -/
def applyUserUpdate (u : UserUpdateData) (x : User) : User :=
  { x with
    username := u.username.getD x.username
    email := u.email.getD x.email
    phone := u.phone.getD x.phone
    password := u.password.getD x.password
    status := u.status.getD x.status }

/-- The query of lines 124-134: another user, `_id: { $ne: id }`, that has one of the unique
values being set. -/
def findConflict (users : List User) (id : Nat) (u : UserUpdateData) : Option User :=
  users.find? (fun x => x.id != id &&
    (u.email == some x.email || u.username == some x.username || u.phone == some x.phone))

/-- The users after the first one with the given `_id` is replaced by `f` of it. -/
def updateFirstUser (id : Nat) (f : User → User) : List User → List User
  | [] => []
  | x :: rest => if x.id == id then f x :: rest else x :: updateFirstUser id f rest

/-- The handler of `PUT /:id` of `routes/users.js` (lines 103-161). `updateOk` stands for the
update validators of the missing schema; when they refuse, the query throws. -/
def updateUser (updateOk : UserUpdateData → Bool) (id : Nat) (b : UpdateUserBody)
    (users : List User) : UserResponse × List User :=
  let errors := validateUpdateUser b
  if errors ≠ [] then
    ({ status := 400, message := "Validation failed", errors := errors, user := none }, users)
  else
    let updateData := buildUserUpdateData b
    let conflict :=
      if updateData.email.isSome || updateData.username.isSome || updateData.phone.isSome
      then findConflict users id updateData else none
    match conflict with
    | some _ =>
        (userPlain 400 "User already exists with this email, username, or phone number",
         users)
    | none =>
        if updateOk updateData then
          match users.find? (fun u => u.id == id) with
          | none => (userPlain 404 "User not found", users)
          | some u =>
              ({ status := 200, message := "User updated successfully", errors := [],
                 user := some (selectPublic (applyUserUpdate updateData u)) },
               updateFirstUser id (applyUserUpdate updateData) users)
        else (userPlain 500 "Server error while updating user", users)

/-- The handler of `GET /:id` of `routes/users.js` (lines 185-199); the body of a success is
the user object itself. -/
def getUser (id : Nat) (users : List User) : UserResponse :=
  match users.find? (fun u => u.id == id) with
  | none => userPlain 404 "User not found"
  | some u => { status := 200, message := "", errors := [], user := some (selectPublic u) }

/-- The query string of `GET /` of `routes/users.js`. -/
structure UserListQuery where
  page : Option Nat
  limit : Option Nat
  search : Option String
  sortBy : Option String
  sortOrder : Option String

/-- The `users` array of the body of `GET /` of `routes/users.js` (lines 9-39), `none` when
the query fails (500). `regexI` and `sortStage` stand for the regular expressions and the
sort of the database, as in the list of the lending records. -/
def listUsers (regexI : String → Option (String → Bool))
    (sortStage : String → Bool → List User → List User) (q : UserListQuery)
    (users : List User) : Option (List UserView) :=
  let page := q.page.getD 1
  let limit := q.limit.getD 10
  let search := q.search.getD ""
  let test : Option (User → Bool) :=
    if search ≠ "" then
      (regexI search).map (fun t => fun u => t u.username || t u.email || t u.phone)
    else some (fun _ => true)
  match test with
  | none => none
  | some keep =>
      let skip : ℤ := ((page : ℤ) - 1) * (limit : ℤ)
      if skip < 0 then none
      else
        let sorted := sortStage (q.sortBy.getD "createdAt")
          (decide (q.sortOrder.getD "desc" = "desc")) (users.filter keep)
        let docs := if limit = 0 then sorted.drop skip.toNat
          else (sorted.drop skip.toNat).take limit
        some (docs.map selectPublic)

/-- The handler of `GET /verify` (lines 217-247). -/
def verifyRoute (jwtVerify : Option String → String → Option Decoded)
    (jwtSecret : Option String) (users : List User) (authorization : Option String) :
    AuthResponse :=
  match bearerToken authorization with
  | none => authPlain 401 "No token provided"
  | some token =>
      if token = "" then authPlain 401 "No token provided"
      else
        match jwtVerify (some (jwtSecretOrDefault jwtSecret)) token with
        | none => authPlain 401 "Invalid token"
        | some decoded =>
            match findUserById users decoded.userId with
            | none => authPlain 401 "User not found"
            | some user =>
                { status := 200, message := "Token valid", errors := [], token := none,
                  user := some (publicFields user) }

/-- A user object of a response carries neither the password nor a password-reset field. -/
def hidesSecrets (v : UserView) : Prop :=
  v.password = none ∧ v.resetPasswordOTP = none ∧ v.resetPasswordOTPExpire = none ∧
  v.resetPasswordAttempts = none

/-- The ids, usernames, emails and phones of the stored users are pairwise distinct. -/
def UsersDistinct (users : List User) : Prop :=
  (users.map (fun u => u.id)).Nodup ∧ (users.map (fun u => u.username)).Nodup ∧
  (users.map (fun u => u.email)).Nodup ∧ (users.map (fun u => u.phone)).Nodup

/-- A write request to the user routes. -/
inductive UserRequest where
  | create (body : CreateUserBody)
  | register (body : CreateUserBody)
  | update (id : Nat) (body : UpdateUserBody)

/-- The users after one write request to the user routes. -/
def serveUser (jwtSign : Decoded → String → String) (hashPassword : String → String)
    (schemaOk : User → Bool) (updateOk : UserUpdateData → Bool) (jwtSecret : Option String)
    (users : List User) : UserRequest → List User
  | .create body => (createUser hashPassword schemaOk body users).2
  | .register body => (registerRoute jwtSign hashPassword schemaOk jwtSecret body users).2
  | .update id body => (updateUser updateOk id body users).2

/-- The users after a sequence of write requests, served one after the other. -/
def serveUsers (jwtSign : Decoded → String → String) (hashPassword : String → String)
    (schemaOk : User → Bool) (updateOk : UserUpdateData → Bool) (jwtSecret : Option String)
    (users : List User) (reqs : List UserRequest) : List User :=
  reqs.foldl (serveUser jwtSign hashPassword schemaOk updateOk jwtSecret) users

/-! ## Sample data -/

/-- A stored record: 50000 at 12 percent from 2025-01-15 to 2026-01-15, with the derived
fields the `pre('save')` hook gives it. -/
def sampleRecord : LendingRecord :=
  { id := 1, name := "Asha", amount := 50000, rateOfInterest := 12,
    startDate := dateUTC 2025 1 15, renewalDate := dateUTC 2026 1 15,
    interest := 6000, total := 56000, status := "Active", notes := some "", createdBy := 7 }

/-- A stored record whose status is `Completed`. -/
def sampleCompleted : LendingRecord := { sampleRecord with id := 2, status := "Completed" }

/-- A create request for 50000 at 12 percent from 2025-01-15 to 2026-01-15. -/
def sampleCreateBody : CreateBody :=
  { name := some "Asha", amount := .value 50000, rateOfInterest := .value 12,
    startDate := .value (dateUTC 2025 1 15), renewalDate := .value (dateUTC 2026 1 15),
    notes := none }

/-- A create request whose renewal date is the day after its start date. -/
def sampleOneDayBody : CreateBody :=
  { sampleCreateBody with renewalDate := .value (dateUTC 2025 1 15 + 86400000) }

/-- An update request that supplies nothing. -/
def emptyUpdateBody : UpdateBody :=
  { name := none, amount := .missing, rateOfInterest := .missing, startDate := .missing,
    renewalDate := .missing, status := none, notes := none }

/-- An update request that supplies only `rateOfInterest: 24`. -/
def rateOnlyBody : UpdateBody := { emptyUpdateBody with rateOfInterest := .value 24 }

/-- An update request that supplies only `startDate: '2026-02-01'`. -/
def startOnlyBody : UpdateBody :=
  { emptyUpdateBody with startDate := .value (dateUTC 2026 2 1) }

/-- An update request that supplies both dates, the renewal date before the start date. -/
def bothDatesBody : UpdateBody :=
  { emptyUpdateBody with startDate := .value (dateUTC 2026 2 1),
                         renewalDate := .value (dateUTC 2026 1 15) }

/-- An update request that supplies only `amount: 20000000`. -/
def bigAmountBody : UpdateBody := { emptyUpdateBody with amount := .value 20000000 }

/-- An update request that supplies a name, a status and empty notes. -/
def nameStatusNotesBody : UpdateBody :=
  { emptyUpdateBody with name := some "Asha K", status := some "Overdue", notes := some "" }

/-- A create request with an empty name and a renewal date equal to its start date. -/
def blankNameSameDatesBody : CreateBody :=
  { sampleCreateBody with name := some "", renewalDate := .value (dateUTC 2025 1 15) }

/-- A create request whose start date is 2025-01-14, with renewal a year later. -/
def sampleBackdatedBody : CreateBody :=
  { sampleCreateBody with startDate := .value (dateUTC 2025 1 14) }

/-- An active user whose password hash is that of `secret1`. -/
def sampleUser : User :=
  { id := 7, username := "asha", email := "asha@example.com", phone := "9876543210",
    password := "hash(secret1)", status := "Active", isAdmin := false,
    resetPasswordOTP := none, resetPasswordOTPExpire := none, resetPasswordAttempts := 0 }

/-- An inactive user with the same password. -/
def sampleInactiveUser : User :=
  { sampleUser with id := 8, username := "ravi", email := "ravi@example.com",
                    phone := "9876543211", status := "Inactive" }

/-- The two sample users. -/
def sampleUsers : List User := [sampleUser, sampleInactiveUser]

/-- A stand-in for `bcrypt.compare` on the sample data. -/
def sampleCompare (password hash : String) : Bool := hash == "hash(" ++ password ++ ")"

/-- The payload that the login route signs for the sample user. -/
def samplePayload : Decoded :=
  { userId := some 7, email := some "asha@example.com", isAdmin := some false }

/-- A stand-in for `jwt.sign` on the sample data: the token names its key and its subject. -/
def sampleSign (payload : Decoded) (secret : String) : String :=
  "jwt." ++ secret ++ "." ++ payload.email.getD ""

/-- A stand-in for `jwt.verify` on the sample data: without a key it throws, with a key it
accepts the token that `sampleSign` makes for the sample payload under that key. -/
def sampleVerify (secret : Option String) (token : String) : Option Decoded :=
  match secret with
  | none => none
  | some k => if k ≠ "" ∧ token = sampleSign samplePayload k then some samplePayload else none

/-- Login of an address that no user has. -/
def loginUnknown : LoginBody := { email := .value "nobody@example.com", password := some "x" }

/-- Login of the active sample user with a wrong password. -/
def loginWrongPassword : LoginBody :=
  { email := .value "asha@example.com", password := some "wrong" }

/-- Login of the active sample user with the right password. -/
def loginActive : LoginBody := { email := .value "asha@example.com", password := some "secret1" }

/-- Login of the inactive sample user with the right password. -/
def loginInactive : LoginBody :=
  { email := .value "ravi@example.com", password := some "secret1" }

/-- A record whose renewal date, 2025-01-15, is a year before its start date, 2026-01-15. -/
def sampleReversedRecord : LendingRecord :=
  { sampleRecord with startDate := dateUTC 2026 1 15, renewalDate := dateUTC 2025 1 15,
                      interest := 0, total := 0 }

/-- A stand-in for the regular-expression engine, part one: the pattern, in which `.` stands
for any character, matches at the start of the text. -/
def wildcardPrefix : List Char → List Char → Bool
  | [], _ => true
  | _ :: _, [] => false
  | p :: ps, c :: cs => (p == '.' || p == c) && wildcardPrefix ps cs

/-- A stand-in for the regular-expression engine, part two: the pattern matches somewhere in
the text. -/
def wildcardFind (pat : List Char) : List Char → Bool
  | [] => wildcardPrefix pat []
  | c :: cs => wildcardPrefix pat (c :: cs) || wildcardFind pat cs

/-- A stand-in for `{ $regex: pattern, $options: 'i' }` on patterns made of letters, digits,
spaces and `.`: every such pattern compiles, and matches without regard to case. -/
def sampleRegexI (pattern : String) : Option (String → Bool) :=
  some (fun subject =>
    wildcardFind (pattern.data.map Char.toLower) (subject.data.map Char.toLower))

/-- A stand-in for the sort of the database: the documents in the order of the collection. -/
def sampleSort (_sortBy : String) (_descending : Bool) (docs : List LendingRecord) :
    List LendingRecord := docs

/-- A list request without any parameter. -/
def emptyListQuery : ListQuery :=
  { page := none, limit := none, search := none, sortBy := none, sortOrder := none,
    status := none, startDate := .missing, endDate := .missing }

/-- A list request that searches for `a.ha`. -/
def dotSearchQuery : ListQuery := { emptyListQuery with search := some "a.ha" }

/-- A list request for the page `page` of pages of one record. -/
def onePerPageQuery (page : Nat) : ListQuery :=
  { emptyListQuery with page := some page, limit := some 1 }

/-- The decimal digit `d`. -/
def digitChar (d : Nat) : Char := Char.ofNat (48 + d)

/-- The decimal digits of `n`, in front of `acc`, for numbers of at most `fuel` digits. -/
def natDigitsAux : Nat → Nat → List Char → List Char
  | 0, _, acc => acc
  | fuel + 1, n, acc =>
      if n < 10 then digitChar n :: acc
      else natDigitsAux fuel (n / 10) (digitChar (n % 10) :: acc)

/-- The decimal digits of `n`, padded with zeros to at least `width` characters. -/
def paddedDigits (width n : Nat) : List Char :=
  let ds := natDigitsAux 24 n []
  List.replicate (width - ds.length) '0' ++ ds

/-- A stand-in for the conversion of a number to a string, on the integers from 0 up. -/
def sampleShowNumber (q : ℚ) : String := String.mk (paddedDigits 1 q.num.natAbs)

/-- A stand-in for `toISOString().split('T')[0]`, on the dates of the years 1970 to 9999: the
civil date of the day that holds the instant. -/
def sampleIsoDay (ms : ℤ) : String :=
  let z := ms / msPerDay + 719468
  let era := z / 146097
  let doe := z - era * 146097
  let yoe := (doe - doe / 1460 + doe / 36524 - doe / 146096) / 365
  let doy := doe - (365 * yoe + yoe / 4 - yoe / 100)
  let mp := (5 * doy + 2) / 153
  let d := doy - (153 * mp + 2) / 5 + 1
  let m := if mp < 10 then mp + 3 else mp - 9
  let y := yoe + era * 400 + (if m ≤ 2 then 1 else 0)
  String.mk (paddedDigits 4 y.toNat ++ '-' :: paddedDigits 2 m.toNat ++
    '-' :: paddedDigits 2 d.toNat)

/-- A stored record whose name holds a comma. -/
def sampleCommaRecord : LendingRecord := { sampleRecord with id := 3, name := "Rao, A" }

/-- The payload of a token of the inactive sample user. -/
def sampleInactivePayload : Decoded :=
  { userId := some 8, email := some "ravi@example.com", isAdmin := some false }

/-- A stand-in for `jwt.verify` on the sample data that accepts, under a key, the tokens that
`sampleSign` makes under that key for the payloads of the two sample users. -/
def sampleVerifyBoth (secret : Option String) (token : String) : Option Decoded :=
  match secret with
  | none => none
  | some k =>
      if k = "" then none
      else if token = sampleSign samplePayload k then some samplePayload
      else if token = sampleSign sampleInactivePayload k then some sampleInactivePayload
      else none

/-- A stand-in for the hash of a password on the sample data. -/
def sampleHash (password : String) : String := "hash(" ++ password ++ ")"

/-- A stand-in for the validators of the user schema that accepts every document. -/
def sampleSchemaOk (_u : User) : Bool := true

/-- A stand-in for the update validators of the user schema that accepts every update. -/
def sampleUpdateOk (_u : UserUpdateData) : Bool := true

/-- A create-user request for a new user. -/
def sampleNewUserBody : CreateUserBody :=
  { username := some "meera", email := .value "meera@example.com", phone := some "9123456780",
    password := some "secret2", status := none }

/-- A create-user request that reuses the phone of the active sample user. -/
def sampleDuplicatePhoneBody : CreateUserBody :=
  { sampleNewUserBody with phone := some "9876543210" }

/-- An update-user request that re-submits the username, email and phone of the active
sample user. -/
def sampleOwnValuesBody : UpdateUserBody :=
  { username := some "asha", email := .value "asha@example.com", phone := some "9876543210",
    password := none, status := none }

/-- A stand-in for `{ $regex: pattern, $options: 'i' }` that also knows the parenthesis: a
pattern with an opening parenthesis and no closing one is no regular expression. -/
def sampleRegexParen (pattern : String) : Option (String → Bool) :=
  if '(' ∈ pattern.data ∧ ')' ∉ pattern.data then none else sampleRegexI pattern

/-- A list request that searches for an opening parenthesis. -/
def parenSearchQuery : ListQuery := { emptyListQuery with search := some "(" }

/-- A hexadecimal digit, in lower case. -/
def hexDigitChar (d : Nat) : Char :=
  if d < 10 then Char.ofNat (48 + d) else Char.ofNat (87 + d)

/-- The last `width` hexadecimal digits of a number, most significant first. -/
def hexDigits : Nat → Nat → List Char
  | 0, _ => []
  | width + 1, n => hexDigits width (n / 16) ++ [hexDigitChar (n % 16)]

/-- A stand-in for the text of an ObjectId: 24 hexadecimal digits in lower case. -/
def sampleIdText (i : Nat) : String := String.mk (hexDigits 24 i)

/-- The value of a hexadecimal digit of either case. -/
def hexValue (c : Char) : Option Nat :=
  if '0' ≤ c ∧ c ≤ '9' then some (c.toNat - 48)
  else if 'a' ≤ c ∧ c ≤ 'f' then some (c.toNat - 87)
  else if 'A' ≤ c ∧ c ≤ 'F' then some (c.toNat - 55)
  else none

/-- The number that a list of hexadecimal digits writes, after the digits read so far. -/
def hexNumber : Nat → List Char → Option Nat
  | acc, [] => some acc
  | acc, c :: cs =>
      match hexValue c with
      | none => none
      | some d => hexNumber (acc * 16 + d) cs

/-- A stand-in for the cast of a text to an ObjectId: a text of 24 hexadecimal digits of
either case is the id that the digits write, another text is no id. -/
def sampleCastId (text : String) : Option Nat :=
  if text.length = 24 then hexNumber 0 text.data else none

/-- A user whose id has a letter among its hexadecimal digits: `a7`. -/
def sampleHexUser : User := { sampleUser with id := 167 }

/-- The payload of the token of `sampleHexUser`. -/
def sampleHexPayload : Decoded :=
  { userId := some 167, email := some "asha@example.com", isAdmin := some false }

/-- A record of 3650 at 5 percent for three days: the exact quotient of the accrual formula is
the tie 1.5. -/
def sampleTieRecord : LendingRecord :=
  { sampleRecord with amount := 3650, rateOfInterest := 5,
                      startDate := dateUTC 2025 1 15, renewalDate := dateUTC 2025 1 18,
                      interest := 0, total := 0 }

/-- The sample record with the amount 0. -/
def sampleZeroRecord : LendingRecord :=
  { sampleRecord with amount := 0, interest := 0, total := 0 }

/-- A name of sixty characters outside the basic plane: sixty characters, 120 UTF-16 code
units. -/
def sampleEmojiName : String := String.mk (List.replicate 60 (Char.ofNat 0x1F600))

/-! ## Theorems -/

/-! ### Rounding to the nearest Number -/

theorem roundNearestEven_mem (t : ℚ) :
    roundNearestEven t = ⌊t⌋ ∨ roundNearestEven t = ⌊t⌋ + 1 := by
  unfold roundNearestEven
  split_ifs <;> simp

theorem roundNearestEven_eq (t : ℚ) (m : ℤ) (h : |t - m| < 1 / 2) : roundNearestEven t = m := by
  rw [abs_lt] at h
  by_cases hm : (m : ℚ) ≤ t
  · have hf : ⌊t⌋ = m := by
      rw [Int.floor_eq_iff]
      exact ⟨hm, by linarith [h.2]⟩
    unfold roundNearestEven
    rw [hf, if_pos h.2]
  · have hf : ⌊t⌋ = m - 1 := by
      rw [Int.floor_eq_iff]
      push_cast
      exact ⟨by linarith [h.1], by linarith⟩
    have h1 : ¬ (t - ((m - 1 : ℤ) : ℚ) < 1 / 2) := by push_cast; linarith [h.1]
    have h2 : 1 / 2 < t - ((m - 1 : ℤ) : ℚ) := by push_cast; linarith [h.1]
    unfold roundNearestEven
    rw [hf, if_neg h1, if_pos h2]
    ring

theorem roundNearestEven_intCast (z : ℤ) : roundNearestEven (z : ℚ) = z :=
  roundNearestEven_eq _ z (by simp)

theorem roundNearestEven_le (t : ℚ) (K : ℤ) (h : t ≤ K) : roundNearestEven t ≤ K := by
  have hf : ⌊t⌋ ≤ K := by
    have := Int.floor_le t
    exact_mod_cast (Int.floor_le t).trans h |> fun h1 => (by exact_mod_cast h1 : ((⌊t⌋ : ℤ) : ℚ) ≤ (K : ℚ))
  rcases lt_or_eq_of_le hf with hlt | heq
  · rcases roundNearestEven_mem t with h1 | h1 <;> omega
  · have ht : t = (K : ℚ) := le_antisymm h (by rw [← heq]; exact Int.floor_le t)
    rw [ht, roundNearestEven_intCast]

theorem roundNearestEven_ge (t : ℚ) (K : ℤ) (h : (K : ℚ) + 1 / 2 < t) :
    K + 1 ≤ roundNearestEven t := by
  have hf : K ≤ ⌊t⌋ := by
    rw [Int.le_floor]
    linarith
  rcases lt_or_eq_of_le hf with hlt | heq
  · rcases roundNearestEven_mem t with h1 | h1 <;> omega
  · have h1 : ¬ (t - ((⌊t⌋ : ℤ) : ℚ) < 1 / 2) := by rw [← heq]; linarith
    have h2 : 1 / 2 < t - ((⌊t⌋ : ℤ) : ℚ) := by rw [← heq]; linarith
    unfold roundNearestEven
    rw [if_neg h1, if_pos h2]
    omega

theorem roundNearestEven_nonneg (t : ℚ) (h : 0 ≤ t) : 0 ≤ roundNearestEven t := by
  have hf : 0 ≤ ⌊t⌋ := Int.floor_nonneg.mpr h
  rcases roundNearestEven_mem t with h1 | h1 <;> omega

theorem roundNearestEven_nonpos (t : ℚ) (h : t ≤ 0) : roundNearestEven t ≤ 0 :=
  roundNearestEven_le t 0 (by simpa using h)

theorem roundToDouble_nonneg (x : ℚ) (h : 0 ≤ x) : 0 ≤ roundToDouble x := by
  unfold roundToDouble
  split_ifs
  · exact le_refl _
  · have hp : (0 : ℚ) < (2 : ℚ) ^ (doubleExponent x - 52) := zpow_pos (by norm_num) _
    have := roundNearestEven_nonneg _ (div_nonneg h hp.le)
    exact mul_nonneg (by exact_mod_cast this) hp.le

theorem roundToDouble_nonpos (x : ℚ) (h : x ≤ 0) : roundToDouble x ≤ 0 := by
  unfold roundToDouble
  split_ifs
  · exact le_refl _
  · have hp : (0 : ℚ) < (2 : ℚ) ^ (doubleExponent x - 52) := zpow_pos (by norm_num) _
    have := roundNearestEven_nonpos _ (div_nonpos_of_nonpos_of_nonneg h hp.le)
    exact mul_nonpos_of_nonpos_of_nonneg (by exact_mod_cast this) hp.le

theorem doubleExponent_eq (x : ℚ) (e : ℤ) (hlo : (2 : ℚ) ^ e ≤ |x|) (hhi : |x| < (2 : ℚ) ^ (e + 1))
    (he : -1022 ≤ e) : doubleExponent x = e := by
  have hpos : (0 : ℚ) < |x| := lt_of_lt_of_le (zpow_pos (by norm_num) _) hlo
  have h1 : e ≤ Int.log 2 |x| := by
    rw [← Int.zpow_le_iff_le_log (by norm_num) hpos]
    exact_mod_cast hlo
  have h2 : Int.log 2 |x| < e + 1 := by
    rw [← Int.lt_zpow_iff_log_lt (by norm_num) hpos]
    exact_mod_cast hhi
  unfold doubleExponent
  omega

theorem roundToDouble_eq (x : ℚ) (e m : ℤ) (hlo : (2 : ℚ) ^ e ≤ |x|)
    (hhi : |x| < (2 : ℚ) ^ (e + 1)) (he : -1022 ≤ e)
    (hm : |x / (2 : ℚ) ^ (e - 52) - m| < 1 / 2) :
    roundToDouble x = (m : ℚ) * (2 : ℚ) ^ (e - 52) := by
  have hpos : (0 : ℚ) < |x| := lt_of_lt_of_le (zpow_pos (by norm_num) _) hlo
  have hx : x ≠ 0 := abs_pos.mp hpos
  unfold roundToDouble
  rw [if_neg hx, doubleExponent_eq x e hlo hhi he, roundNearestEven_eq _ m hm]


theorem zpow_sub52 (E : ℤ) (j : ℕ) (hj : (j : ℤ) = 52 - E) :
    (2 : ℚ) ^ (E - 52) = ((2 : ℚ) ^ j)⁻¹ := by
  have : E - 52 = -(j : ℤ) := by omega
  rw [this, zpow_neg, zpow_natCast]

theorem roundToDouble_intCast (n : ℤ) (h : |n| < 2 ^ 53) : roundToDouble (n : ℚ) = n := by
  by_cases hn : n = 0
  · simp [hn, roundToDouble]
  have hq : ((n : ℤ) : ℚ) ≠ 0 := by exact_mod_cast hn
  have habs : |((n : ℤ) : ℚ)| = ((|n| : ℤ) : ℚ) := by simp
  have hpos : (0 : ℚ) < |((n : ℤ) : ℚ)| := abs_pos.mpr hq
  have h1 : (0 : ℤ) ≤ Int.log 2 |((n : ℤ) : ℚ)| := by
    rw [← Int.zpow_le_iff_le_log (by norm_num) hpos, habs]
    have : (1 : ℤ) ≤ |n| := Int.one_le_abs hn
    simp only [zpow_zero]
    exact_mod_cast this
  have h2 : Int.log 2 |((n : ℤ) : ℚ)| < 53 := by
    rw [← Int.lt_zpow_iff_log_lt (by norm_num) hpos, habs]
    exact_mod_cast h
  have hE : doubleExponent (n : ℚ) = Int.log 2 |((n : ℤ) : ℚ)| := by
    unfold doubleExponent
    omega
  obtain ⟨j, hj⟩ : ∃ j : ℕ, (j : ℤ) = 52 - doubleExponent (n : ℚ) :=
    ⟨(52 - doubleExponent (n : ℚ)).toNat, by rw [Int.toNat_of_nonneg]; omega⟩
  have hp : (0 : ℚ) < (2 : ℚ) ^ j := pow_pos (by norm_num) _
  unfold roundToDouble
  rw [if_neg hq, zpow_sub52 _ j hj]
  have hcast : (n : ℚ) / ((2 : ℚ) ^ j)⁻¹ = ((n * 2 ^ j : ℤ) : ℚ) := by
    push_cast
    field_simp
  rw [hcast, roundNearestEven_intCast]
  push_cast
  field_simp

theorem ceil_roundToDouble_div (n : ℤ) (h0 : 0 < n) (h1 : n < 2 ^ 53) :
    ⌈roundToDouble ((n : ℚ) / 86400000)⌉ = ⌈(n : ℚ) / 86400000⌉ := by
  set q : ℚ := (n : ℚ) / 86400000 with hqdef
  have hn0 : (0 : ℚ) < (n : ℚ) := by exact_mod_cast h0
  have hn1 : (n : ℚ) < 2 ^ 53 := by exact_mod_cast h1
  have hq0 : 0 < q := by positivity
  have hq27 : q < (2 : ℚ) ^ (27 : ℤ) := by
    rw [hqdef, div_lt_iff₀ (by norm_num)]
    norm_num at hn1 ⊢
    linarith
  have hqne : q ≠ 0 := hq0.ne'
  have hE : doubleExponent q ≤ 26 := by
    have : Int.log 2 |q| < 27 := by
      rw [← Int.lt_zpow_iff_log_lt (by norm_num) (abs_pos.mpr hqne), abs_of_pos hq0]
      exact_mod_cast hq27
    unfold doubleExponent
    omega
  obtain ⟨j, hj⟩ : ∃ j : ℕ, (j : ℤ) = 52 - doubleExponent q :=
    ⟨(52 - doubleExponent q).toNat, by rw [Int.toNat_of_nonneg]; omega⟩
  have hj26 : 26 ≤ j := by omega
  have hp : (0 : ℚ) < (2 : ℚ) ^ j := pow_pos (by norm_num) _
  have hp26 : (2 : ℚ) ^ 26 ≤ (2 : ℚ) ^ j := pow_le_pow_right₀ (by norm_num) hj26
  set k : ℤ := ⌈q⌉ - 1 with hkdef
  have hk1 : (k : ℚ) < q := by
    have := Int.ceil_lt_add_one q
    rw [hkdef]; push_cast; linarith
  have hk2 : q ≤ (k : ℚ) + 1 := by
    have := Int.le_ceil q
    rw [hkdef]; push_cast; linarith
  have hgap : 1 / 86400000 ≤ q - k := by
    have h3 : (k : ℚ) * 86400000 < n := by
      rw [hqdef, lt_div_iff₀ (by norm_num)] at hk1
      exact hk1
    have h4 : k * 86400000 + 1 ≤ n := by
      have : k * 86400000 < n := by exact_mod_cast h3
      omega
    have h5 : (k : ℚ) * 86400000 + 1 ≤ n := by exact_mod_cast h4
    rw [hqdef, le_sub_iff_add_le, le_div_iff₀ (by norm_num)]
    linarith
  have hfl : roundToDouble q
      = (roundNearestEven (q * (2 : ℚ) ^ j) : ℚ) / (2 : ℚ) ^ j := by
    unfold roundToDouble
    rw [if_neg hqne, zpow_sub52 _ j hj, div_inv_eq_mul]
    rfl
  have hup : roundNearestEven (q * (2 : ℚ) ^ j) ≤ (k + 1) * 2 ^ j := by
    apply roundNearestEven_le
    push_cast
    exact mul_le_mul_of_nonneg_right hk2 hp.le
  have hlo : k * 2 ^ j + 1 ≤ roundNearestEven (q * (2 : ℚ) ^ j) := by
    apply roundNearestEven_ge
    push_cast
    have h6 : (q - k) * (2 : ℚ) ^ j ≥ 1 / 86400000 * (2 : ℚ) ^ 26 :=
      mul_le_mul hgap hp26 (by positivity) (by linarith)
    have h7 : (1 : ℚ) / 2 < 1 / 86400000 * (2 : ℚ) ^ 26 := by norm_num
    linarith
  have hceil : ⌈roundToDouble q⌉ = k + 1 := by
    rw [Int.ceil_eq_iff, hfl]
    have hupq : ((roundNearestEven (q * (2 : ℚ) ^ j) : ℤ) : ℚ) ≤ ((k : ℚ) + 1) * 2 ^ j := by
      exact_mod_cast hup
    have hloq : (k : ℚ) * 2 ^ j + 1 ≤ ((roundNearestEven (q * (2 : ℚ) ^ j) : ℤ) : ℚ) := by
      exact_mod_cast hlo
    constructor
    · rw [lt_div_iff₀ hp]
      push_cast
      linarith
    · rw [div_le_iff₀ hp]
      push_cast
      linarith
  rw [hceil, hkdef]
  ring

theorem accrualDaysDouble_eq (s e : ℤ) (h0 : s < e) (h1 : e - s < 2 ^ 53) :
    accrualDaysDouble s e = ⌈((e - s : ℤ) : ℚ) / 86400000⌉ := by
  have habs : |e - s| < 2 ^ 53 := by
    rw [abs_lt]; constructor <;> omega
  have hms : ((msPerDay : ℤ) : ℚ) = 86400000 := by norm_num [msPerDay]
  unfold accrualDaysDouble mathCeil
  rw [roundToDouble_intCast _ habs, hms]
  exact ceil_roundToDouble_div (e - s) (by omega) h1

theorem mathRound_eq_roundHalfAwayFromZero (x : ℚ) (hx : 0 ≤ x) :
    mathRound x = roundHalfAwayFromZero x := by
  simp [mathRound, roundHalfAwayFromZero, hx]

theorem accrualDays_pos (s e : ℤ) (h : s < e) : 0 < accrualDays s e := by
  unfold accrualDays mathCeil
  rw [Int.ceil_pos]
  apply div_pos
  · exact_mod_cast sub_pos.mpr h
  · norm_num [msPerDay]

theorem schemaValid_amount (r : LendingRecord) (h : schemaValid r = true) :
    0 ≤ r.amount ∧ 0 ≤ r.rateOfInterest ∧ r.rateOfInterest ≤ 100 := by
  simp only [schemaValid, Bool.and_eq_true, decide_eq_true_eq] at h
  exact ⟨h.1.1.1.1.2, h.1.1.1.2, h.1.1.2⟩

/-! ### The accrual of the hook in double precision -/

theorem roundToDouble_three_days :
    roundToDouble (3 / 365) = 4738033580576083 / 576460752303423488 := by
  have h := roundToDouble_eq (3 / 365) (-7) 4738033580576083
    (by rw [abs_of_pos (by norm_num)]; norm_num)
    (by rw [abs_of_pos (by norm_num)]; norm_num) (by norm_num)
    (by rw [abs_lt]; constructor <;> norm_num)
  rw [h]
  norm_num

/-- The accrual of 3650 at 5 percent over three days in double precision: the product with
`years` is rounded to 149.99999999999997 and the quotient by 100 to 1.4999999999999998, which
`Math.round` takes to 1. -/
theorem accrualInterestDouble_tie (s e : ℤ) (hdays : accrualDaysDouble s e = 3) :
    accrualInterestDouble 3650 5 s e = 1 := by
  have h1 : roundToDouble ((3650 : ℚ) * 5) = 18250 := by
    have h := roundToDouble_intCast 18250 (by norm_num)
    norm_num at h ⊢
    exact h
  have h2 : roundToDouble ((18250 : ℚ) * (4738033580576083 / 576460752303423488))
      = 5277655813324799 / 35184372088832 := by
    have h := roundToDouble_eq ((18250 : ℚ) * (4738033580576083 / 576460752303423488)) 7
      5277655813324799
      (by rw [abs_of_pos (by norm_num)]; norm_num)
      (by rw [abs_of_pos (by norm_num)]; norm_num) (by norm_num)
      (by rw [abs_lt]; constructor <;> norm_num)
    rw [h]
    norm_num
  have h3 : roundToDouble ((5277655813324799 / 35184372088832 : ℚ) / 100)
      = 6755399441055743 / 4503599627370496 := by
    have h := roundToDouble_eq ((5277655813324799 / 35184372088832 : ℚ) / 100) 0
      6755399441055743
      (by rw [abs_of_pos (by norm_num)]; norm_num)
      (by rw [abs_of_pos (by norm_num)]; norm_num) (by norm_num)
      (by rw [abs_lt]; constructor <;> norm_num)
    rw [h]
    norm_num
  simp only [accrualInterestDouble, hdays, Int.cast_ofNat, roundToDouble_three_days, h1, h2, h3,
    mathRound]
  rw [Int.floor_eq_iff]
  norm_num

theorem roundNearestEven_abs_sub_le (t : ℚ) : |((roundNearestEven t : ℤ) : ℚ) - t| ≤ 1 / 2 := by
  have h1 : ((⌊t⌋ : ℤ) : ℚ) ≤ t := Int.floor_le t
  have h2 : t < ((⌊t⌋ : ℤ) : ℚ) + 1 := Int.lt_floor_add_one t
  unfold roundNearestEven
  rw [abs_le]
  split_ifs with h3 h4 h5
  · constructor <;> linarith
  · push_cast
    constructor <;> linarith
  · constructor <;> linarith
  · push_cast
    constructor <;> linarith

/-- The error of one rounding: at most the fraction `2 ^ -53` of the magnitude, and at most
`2 ^ -1075` below the normal range. -/
theorem roundToDouble_error (x : ℚ) :
    |roundToDouble x - x| ≤ |x| * (2 : ℚ) ^ (-53 : ℤ) + (2 : ℚ) ^ (-1075 : ℤ) := by
  by_cases hx : x = 0
  · simp [hx, roundToDouble]
    positivity
  have hpos : (0 : ℚ) < |x| := abs_pos.mpr hx
  have hu : (0 : ℚ) < (2 : ℚ) ^ (doubleExponent x - 52) := zpow_pos (by norm_num) _
  have herr : |roundToDouble x - x| ≤ (2 : ℚ) ^ (doubleExponent x - 52) / 2 := by
    have h1 := roundNearestEven_abs_sub_le (x / (2 : ℚ) ^ (doubleExponent x - 52))
    have h2 : roundToDouble x - x
        = (((roundNearestEven (x / (2 : ℚ) ^ (doubleExponent x - 52)) : ℤ) : ℚ)
            - x / (2 : ℚ) ^ (doubleExponent x - 52)) * (2 : ℚ) ^ (doubleExponent x - 52) := by
      unfold roundToDouble
      rw [if_neg hx]
      field_simp
    rw [h2, abs_mul, abs_of_pos hu]
    calc _ ≤ 1 / 2 * (2 : ℚ) ^ (doubleExponent x - 52) :=
          mul_le_mul_of_nonneg_right h1 hu.le
      _ = (2 : ℚ) ^ (doubleExponent x - 52) / 2 := by ring
  have hhalf : (2 : ℚ) ^ (doubleExponent x - 52) / 2
      = (2 : ℚ) ^ (doubleExponent x) * (2 : ℚ) ^ (-53 : ℤ) := by
    rw [← zpow_add₀ (by norm_num : (2 : ℚ) ≠ 0)]
    have : doubleExponent x + -53 = (doubleExponent x - 52) - 1 := by ring
    rw [this, zpow_sub_one₀ (by norm_num : (2 : ℚ) ≠ 0)]
    ring
  rw [hhalf] at herr
  have h53 : (0 : ℚ) < (2 : ℚ) ^ (-53 : ℤ) := zpow_pos (by norm_num) _
  by_cases hlog : -1022 ≤ Int.log 2 |x|
  · have hE : doubleExponent x = Int.log 2 |x| := by
      unfold doubleExponent
      omega
    have hle : (2 : ℚ) ^ (doubleExponent x) ≤ |x| := by
      rw [hE]
      exact_mod_cast Int.zpow_log_le_self (by norm_num) hpos
    have h1075 : (0 : ℚ) < (2 : ℚ) ^ (-1075 : ℤ) := zpow_pos (by norm_num) _
    calc |roundToDouble x - x| ≤ (2 : ℚ) ^ (doubleExponent x) * (2 : ℚ) ^ (-53 : ℤ) := herr
      _ ≤ |x| * (2 : ℚ) ^ (-53 : ℤ) := mul_le_mul_of_nonneg_right hle h53.le
      _ ≤ |x| * (2 : ℚ) ^ (-53 : ℤ) + (2 : ℚ) ^ (-1075 : ℤ) := by linarith
  · have hE : doubleExponent x = -1022 := by
      unfold doubleExponent
      omega
    rw [hE, ← zpow_add₀ (by norm_num : (2 : ℚ) ≠ 0)] at herr
    have : (-1022 : ℤ) + -53 = -1075 := by norm_num
    rw [this] at herr
    have := mul_nonneg hpos.le h53.le
    linarith

/-- The error of one rounding of a result of magnitude at most `B`, in decimal bounds. -/
theorem roundToDouble_error_le (x B : ℚ) (hB : |x| ≤ B) :
    |roundToDouble x - x| ≤ B / 8000000000000000 + 1 / 10 ^ 300 := by
  have h := roundToDouble_error x
  have h1 : (2 : ℚ) ^ (-53 : ℤ) ≤ 1 / 8000000000000000 := by norm_num
  have h2 : (2 : ℚ) ^ (-1075 : ℤ) ≤ 1 / 10 ^ 300 := by norm_num
  have h3 : |x| * (2 : ℚ) ^ (-53 : ℤ) ≤ B * (1 / 8000000000000000) :=
    mul_le_mul hB h1 (zpow_pos (by norm_num) _).le ((abs_nonneg x).trans hB)
  calc |roundToDouble x - x| ≤ |x| * (2 : ℚ) ^ (-53 : ℤ) + (2 : ℚ) ^ (-1075 : ℤ) := h
    _ ≤ B * (1 / 8000000000000000) + 1 / 10 ^ 300 := add_le_add h3 h2
    _ = B / 8000000000000000 + 1 / 10 ^ 300 := by ring

/-- The magnitude of a rounded result. -/
theorem abs_le_of_near (x y B d : ℚ) (hx : |x| ≤ B) (h : |y - x| ≤ d) : |y| ≤ B + d := by
  have := abs_add (y - x) x
  have h2 : y - x + x = y := by ring
  rw [h2] at this
  linarith

/-- The quotient of the accrual in double precision is within one hundredth of the exact
quotient, for an amount up to 10,000,000, a rate up to 100 and up to `2 ^ 27` days. -/
theorem accrual_quotient_near (a r : ℚ) (d : ℤ) (ha0 : 0 ≤ a) (ha1 : a ≤ 10000000)
    (hr0 : 0 ≤ r) (hr1 : r ≤ 100) (hd0 : 0 ≤ d) (hd1 : d ≤ 2 ^ 27) :
    |roundToDouble (roundToDouble (roundToDouble (a * r) * roundToDouble ((d : ℚ) / 365)) / 100)
      - a * r * ((d : ℚ) / 365) / 100| ≤ 1 / 100 := by
  have hdq0 : (0 : ℚ) ≤ (d : ℚ) := by exact_mod_cast hd0
  have hdq1 : (d : ℚ) ≤ 134217728 := by exact_mod_cast hd1
  set A : ℚ := a * r with hA
  set Y : ℚ := (d : ℚ) / 365 with hY
  have hA0 : 0 ≤ A := mul_nonneg ha0 hr0
  have hA1 : A ≤ 1000000000 := by
    calc A ≤ 10000000 * 100 := mul_le_mul ha1 hr1 hr0 (by norm_num)
      _ = 1000000000 := by norm_num
  have hY0 : 0 ≤ Y := div_nonneg hdq0 (by norm_num)
  have hY1 : Y ≤ 400000 := by
    rw [hY, div_le_iff₀ (by norm_num)]
    linarith
  have hAabs : |A| ≤ 1000000000 := by rw [abs_of_nonneg hA0]; exact hA1
  have hYabs : |Y| ≤ 400000 := by rw [abs_of_nonneg hY0]; exact hY1
  have eA := roundToDouble_error_le A 1000000000 hAabs
  have eY := roundToDouble_error_le Y 400000 hYabs
  have eA1 : |roundToDouble A - A| ≤ 2 / 10000000 := by
    refine eA.trans ?_
    norm_num
  have eY1 : |roundToDouble Y - Y| ≤ 1 / 10000000000 := by
    refine eY.trans ?_
    norm_num
  have bA : |roundToDouble A| ≤ 1000000001 := by
    have := abs_le_of_near A (roundToDouble A) 1000000000 (2 / 10000000) hAabs eA1
    linarith
  have eP0 : |roundToDouble A * roundToDouble Y - A * Y| ≤ 2 / 10 := by
    have h1 : roundToDouble A * roundToDouble Y - A * Y
        = roundToDouble A * (roundToDouble Y - Y) + (roundToDouble A - A) * Y := by ring
    rw [h1]
    refine (abs_add _ _).trans ?_
    rw [abs_mul, abs_mul]
    have h2 : |roundToDouble A| * |roundToDouble Y - Y| ≤ 1000000001 * (1 / 10000000000) :=
      mul_le_mul bA eY1 (abs_nonneg _) (by norm_num)
    have h3 : |roundToDouble A - A| * |Y| ≤ 2 / 10000000 * 400000 :=
      mul_le_mul eA1 hYabs (abs_nonneg _) (by norm_num)
    linarith
  have hAY : |A * Y| ≤ 400000000000000 := by
    rw [abs_mul]
    calc |A| * |Y| ≤ 1000000000 * 400000 := mul_le_mul hAabs hYabs (abs_nonneg _) (by norm_num)
      _ = 400000000000000 := by norm_num
  have bP : |roundToDouble A * roundToDouble Y| ≤ 400000000000001 := by
    have := abs_le_of_near (A * Y) (roundToDouble A * roundToDouble Y) 400000000000000 (2 / 10)
      hAY eP0
    linarith
  have eP := roundToDouble_error_le (roundToDouble A * roundToDouble Y) 400000000000001 bP
  have eP1 : |roundToDouble (roundToDouble A * roundToDouble Y)
      - roundToDouble A * roundToDouble Y| ≤ 6 / 100 := by
    refine eP.trans ?_
    norm_num
  have eP2 : |roundToDouble (roundToDouble A * roundToDouble Y) - A * Y| ≤ 26 / 100 := by
    have h1 : roundToDouble (roundToDouble A * roundToDouble Y) - A * Y
        = (roundToDouble (roundToDouble A * roundToDouble Y)
            - roundToDouble A * roundToDouble Y)
          + (roundToDouble A * roundToDouble Y - A * Y) := by ring
    rw [h1]
    refine (abs_add _ _).trans ?_
    linarith
  have eQ0 : |roundToDouble (roundToDouble A * roundToDouble Y) / 100 - A * Y / 100|
      ≤ 26 / 10000 := by
    have h1 : roundToDouble (roundToDouble A * roundToDouble Y) / 100 - A * Y / 100
        = (roundToDouble (roundToDouble A * roundToDouble Y) - A * Y) / 100 := by ring
    rw [h1, abs_div, abs_of_pos (by norm_num : (0 : ℚ) < 100), div_le_iff₀ (by norm_num)]
    linarith
  have hX : |A * Y / 100| ≤ 4000000000000 := by
    rw [abs_div, abs_of_pos (by norm_num : (0 : ℚ) < 100), div_le_iff₀ (by norm_num)]
    linarith
  have bQ : |roundToDouble (roundToDouble A * roundToDouble Y) / 100| ≤ 4000000000001 := by
    have := abs_le_of_near (A * Y / 100)
      (roundToDouble (roundToDouble A * roundToDouble Y) / 100) 4000000000000 (26 / 10000)
      hX eQ0
    linarith
  have eQ := roundToDouble_error_le (roundToDouble (roundToDouble A * roundToDouble Y) / 100)
    4000000000001 bQ
  have eQ1 : |roundToDouble (roundToDouble (roundToDouble A * roundToDouble Y) / 100)
      - roundToDouble (roundToDouble A * roundToDouble Y) / 100| ≤ 1 / 1000 := by
    refine eQ.trans ?_
    norm_num
  have h1 : roundToDouble (roundToDouble (roundToDouble A * roundToDouble Y) / 100)
        - A * Y / 100
      = (roundToDouble (roundToDouble (roundToDouble A * roundToDouble Y) / 100)
          - roundToDouble (roundToDouble A * roundToDouble Y) / 100)
        + (roundToDouble (roundToDouble A * roundToDouble Y) / 100 - A * Y / 100) := by ring
  rw [h1]
  refine (abs_add _ _).trans ?_
  linarith

theorem abs_intCast_sub_le_one (m n : ℤ) (h : |m - n| ≤ 1) : |(m : ℚ) - (n : ℚ)| ≤ 1 := by
  exact_mod_cast h

/-- Two quotients within one hundredth of each other are rounded by `Math.round` to integers
at most 1 apart, and to the same integer when the one is farther than one hundredth from every
half-integer. -/
theorem mathRound_near (x y : ℚ) (h : |y - x| ≤ 1 / 100) :
    |mathRound y - mathRound x| ≤ 1 ∧
    ((∀ n : ℤ, 1 / 100 < |x - ((n : ℚ) + 1 / 2)|) → mathRound y = mathRound x) := by
  rw [abs_le] at h
  have hx1 : ((⌊x + 1 / 2⌋ : ℤ) : ℚ) ≤ x + 1 / 2 := Int.floor_le _
  have hx2 : x + 1 / 2 < ((⌊x + 1 / 2⌋ : ℤ) : ℚ) + 1 := Int.lt_floor_add_one _
  have hy1 : ((⌊y + 1 / 2⌋ : ℤ) : ℚ) ≤ y + 1 / 2 := Int.floor_le _
  have hy2 : y + 1 / 2 < ((⌊y + 1 / 2⌋ : ℤ) : ℚ) + 1 := Int.lt_floor_add_one _
  unfold mathRound
  constructor
  · rw [abs_le]
    constructor
    · have : ((⌊x + 1 / 2⌋ : ℤ) : ℚ) < ((⌊y + 1 / 2⌋ : ℤ) : ℚ) + 2 := by linarith
      have : ⌊x + 1 / 2⌋ < ⌊y + 1 / 2⌋ + 2 := by exact_mod_cast this
      omega
    · have : ((⌊y + 1 / 2⌋ : ℤ) : ℚ) < ((⌊x + 1 / 2⌋ : ℤ) : ℚ) + 2 := by linarith
      have : ⌊y + 1 / 2⌋ < ⌊x + 1 / 2⌋ + 2 := by exact_mod_cast this
      omega
  · intro hfar
    have h1 := hfar (⌊x + 1 / 2⌋ - 1)
    have h2 := hfar ⌊x + 1 / 2⌋
    push_cast at h1
    rw [abs_of_nonneg (by linarith)] at h1
    rw [abs_of_neg (by linarith)] at h2
    rw [Int.floor_eq_iff]
    constructor <;> linarith

/-- C1 (counterexample): the record of 3650 at 5 percent from 2025-01-15 to 2025-01-18 passes
the validators and has three days; `save()` stores the interest 1 and the total 3651, while
the interest of the claim, the exact quotient `3650 * 5 * (3 / 365) / 100 = 1.5` rounded
with the half going away from zero, is 2. -/
theorem C1_tie_rounds_down :
    schemaValid (applySetters sampleTieRecord) = true ∧
    sampleTieRecord.startDate < sampleTieRecord.renewalDate ∧
    accrualDaysDouble sampleTieRecord.startDate sampleTieRecord.renewalDate = 3 ∧
    (∃ saved, saveDouble sampleTieRecord = .ok saved ∧ saved.interest = 1 ∧
      saved.total = 3651) ∧
    specQuotient sampleTieRecord.amount sampleTieRecord.rateOfInterest
      sampleTieRecord.startDate sampleTieRecord.renewalDate = 3 / 2 ∧
    specInterest sampleTieRecord.amount sampleTieRecord.rateOfInterest
      sampleTieRecord.startDate sampleTieRecord.renewalDate = 2 := by
  have hv : schemaValid (applySetters sampleTieRecord) = true := by decide
  have hs : sampleTieRecord.startDate = 1736899200000 := by decide
  have he : sampleTieRecord.renewalDate = 1737158400000 := by decide
  have ha : sampleTieRecord.amount = 3650 := rfl
  have hr : sampleTieRecord.rateOfInterest = 5 := rfl
  have hceil : ⌈((sampleTieRecord.renewalDate - sampleTieRecord.startDate : ℤ) : ℚ)
      / 86400000⌉ = 3 := by
    rw [hs, he, Int.ceil_eq_iff]
    norm_num
  have hdays :
      accrualDaysDouble sampleTieRecord.startDate sampleTieRecord.renewalDate = 3 := by
    rw [accrualDaysDouble_eq _ _ (by decide) (by decide), hceil]
  have hint := accrualInterestDouble_tie _ _ hdays
  have htot : roundToDouble ((3650 : ℚ) + 1) = 3651 := by
    have h := roundToDouble_intCast 3651 (by norm_num)
    norm_num at h ⊢
    exact h
  have hq : specQuotient sampleTieRecord.amount sampleTieRecord.rateOfInterest
      sampleTieRecord.startDate sampleTieRecord.renewalDate = 3 / 2 := by
    simp only [specQuotient, hceil, ha, hr]
    norm_num
  refine ⟨hv, by decide, hdays, ⟨preSaveDouble (applySetters sampleTieRecord), ?_, ?_, ?_⟩,
    hq, ?_⟩
  · simp [saveDouble, hv]
  · show ((accrualInterestDouble sampleTieRecord.amount sampleTieRecord.rateOfInterest
        sampleTieRecord.startDate sampleTieRecord.renewalDate : ℤ) : ℚ) = 1
    rw [ha, hr, hint]
    norm_num
  · show roundToDouble (sampleTieRecord.amount
        + ((accrualInterestDouble sampleTieRecord.amount sampleTieRecord.rateOfInterest
            sampleTieRecord.startDate sampleTieRecord.renewalDate : ℤ) : ℚ)) = 3651
    rw [ha, hr, hint]
    simpa using htot
  · simp only [specInterest, hq, roundHalfAwayFromZero]
    rw [if_pos (by norm_num), Int.floor_eq_iff]
    norm_num

/-- C1 (amended): a record that passes the schema validators, whose amount is within the bound
of the create route and whose renewal date is after its start date by less than `2 ^ 53`
milliseconds, is saved. The days of the hook are exactly `ceil((e - s) / 86,400,000)`. The
stored interest is the rounding, a half going away from zero, not of the exact quotient
`a * r * (days / 365) / 100` but of its evaluation in double precision, in which `a * r`,
`days / 365`, their product and the quotient by 100 are each rounded to the nearest Number. It
differs from the interest of the claim by at most 1, and is the interest of the claim whenever
the exact quotient is farther than one hundredth from every half-integer. The stored total is
the sum of the amount and the interest rounded to the nearest Number, and the input fields are
written as given. -/
theorem C1_preSave_accrual_double (r : LendingRecord)
    (hv : schemaValid (applySetters r) = true) (hamt : r.amount ≤ 10000000)
    (hd : r.startDate < r.renewalDate) (hspan : r.renewalDate - r.startDate < 2 ^ 53) :
    ∃ saved : LendingRecord, saveDouble r = .ok saved ∧
      accrualDaysDouble r.startDate r.renewalDate
        = ⌈((r.renewalDate - r.startDate : ℤ) : ℚ) / 86400000⌉ ∧
      saved.interest
        = ((roundHalfAwayFromZero
            (roundToDouble
              (roundToDouble
                (roundToDouble (r.amount * r.rateOfInterest)
                  * roundToDouble
                      (((⌈((r.renewalDate - r.startDate : ℤ) : ℚ) / 86400000⌉ : ℤ) : ℚ) / 365))
                / 100)) : ℤ) : ℚ) ∧
      |saved.interest
          - ((specInterest r.amount r.rateOfInterest r.startDate r.renewalDate : ℤ) : ℚ)| ≤ 1 ∧
      ((∀ n : ℤ, 1 / 100
          < |specQuotient r.amount r.rateOfInterest r.startDate r.renewalDate
              - ((n : ℚ) + 1 / 2)|) →
        saved.interest
          = ((specInterest r.amount r.rateOfInterest r.startDate r.renewalDate : ℤ) : ℚ)) ∧
      saved.total = roundToDouble (r.amount + saved.interest) ∧
      saved.amount = r.amount ∧ saved.rateOfInterest = r.rateOfInterest ∧
      saved.startDate = r.startDate ∧ saved.renewalDate = r.renewalDate := by
  obtain ⟨ha, hr, hr1⟩ := schemaValid_amount (applySetters r) hv
  have ha0 : 0 ≤ r.amount := ha
  have hr0 : 0 ≤ r.rateOfInterest := hr
  have hr100 : r.rateOfInterest ≤ 100 := hr1
  have hdays := accrualDaysDouble_eq r.startDate r.renewalDate hd hspan
  have hq0 : (0 : ℚ) < ((r.renewalDate - r.startDate : ℤ) : ℚ) / 86400000 := by
    apply div_pos
    · exact_mod_cast sub_pos.mpr hd
    · norm_num
  have hc0 : 0 ≤ ⌈((r.renewalDate - r.startDate : ℤ) : ℚ) / 86400000⌉ :=
    (Int.ceil_pos.mpr hq0).le
  have hc1 : ⌈((r.renewalDate - r.startDate : ℤ) : ℚ) / 86400000⌉ ≤ 2 ^ 27 := by
    rw [Int.ceil_le, div_le_iff₀ (by norm_num)]
    have h1 : ((r.renewalDate - r.startDate : ℤ) : ℚ) < 2 ^ 53 := by exact_mod_cast hspan
    norm_num at h1 ⊢
    linarith
  have hpos : (0 : ℚ) ≤ ((⌈((r.renewalDate - r.startDate : ℤ) : ℚ) / 86400000⌉ : ℤ) : ℚ) := by
    exact_mod_cast hc0
  have hx : 0 ≤ roundToDouble
      (roundToDouble
        (roundToDouble (r.amount * r.rateOfInterest)
          * roundToDouble
              (((⌈((r.renewalDate - r.startDate : ℤ) : ℚ) / 86400000⌉ : ℤ) : ℚ) / 365))
        / 100) := by
    apply roundToDouble_nonneg
    apply div_nonneg _ (by norm_num)
    apply roundToDouble_nonneg
    apply mul_nonneg
    · exact roundToDouble_nonneg _ (mul_nonneg ha0 hr0)
    · exact roundToDouble_nonneg _ (div_nonneg hpos (by norm_num))
  have hsq : 0 ≤ specQuotient r.amount r.rateOfInterest r.startDate r.renewalDate := by
    unfold specQuotient
    exact div_nonneg (mul_nonneg (mul_nonneg ha0 hr0) (div_nonneg hpos (by norm_num)))
      (by norm_num)
  have hnear := accrual_quotient_near r.amount r.rateOfInterest
    ⌈((r.renewalDate - r.startDate : ℤ) : ℚ) / 86400000⌉ ha0 hamt hr0 hr100 hc0 hc1
  have hround := mathRound_near
    (specQuotient r.amount r.rateOfInterest r.startDate r.renewalDate) _ hnear
  have hint : (preSaveDouble (applySetters r)).interest
      = ((mathRound (roundToDouble
          (roundToDouble
            (roundToDouble (r.amount * r.rateOfInterest)
              * roundToDouble
                  (((⌈((r.renewalDate - r.startDate : ℤ) : ℚ) / 86400000⌉ : ℤ) : ℚ) / 365))
            / 100)) : ℤ) : ℚ) := by
    show ((accrualInterestDouble r.amount r.rateOfInterest r.startDate r.renewalDate : ℤ) : ℚ)
      = _
    simp only [accrualInterestDouble, hdays]
  have hspec : specInterest r.amount r.rateOfInterest r.startDate r.renewalDate
      = mathRound (specQuotient r.amount r.rateOfInterest r.startDate r.renewalDate) := by
    unfold specInterest
    rw [mathRound_eq_roundHalfAwayFromZero _ hsq]
  refine ⟨preSaveDouble (applySetters r), by simp [saveDouble, hv], hdays, ?_, ?_, ?_, rfl,
    rfl, rfl, rfl, rfl⟩
  · rw [hint, mathRound_eq_roundHalfAwayFromZero _ hx]
  · rw [hint, hspec]
    exact abs_intCast_sub_le_one _ _ hround.1
  · intro hfar
    rw [hint, hspec, hround.2 hfar]

/-- Witness for C1 (amended): the record of 3650 at 5 percent for three days is saved with
exactly three days, an interest within 1 of the interest of the claim and the total that is
the rounded sum of its amount and interest. -/
theorem C1_preSave_accrual_double_witness :
    ∃ saved, saveDouble sampleTieRecord = .ok saved ∧
      accrualDaysDouble sampleTieRecord.startDate sampleTieRecord.renewalDate
        = ⌈((sampleTieRecord.renewalDate - sampleTieRecord.startDate : ℤ) : ℚ) / 86400000⌉ ∧
      |saved.interest
          - ((specInterest sampleTieRecord.amount sampleTieRecord.rateOfInterest
              sampleTieRecord.startDate sampleTieRecord.renewalDate : ℤ) : ℚ)| ≤ 1 ∧
      saved.total = roundToDouble (sampleTieRecord.amount + saved.interest) ∧
      saved.amount = sampleTieRecord.amount :=
  (C1_preSave_accrual_double sampleTieRecord (by decide) (by decide) (by decide)
    (by decide)).elim
    (fun saved h => ⟨saved, h.1, h.2.1, h.2.2.2.1, h.2.2.2.2.2.1, h.2.2.2.2.2.2.1⟩)

theorem dateUTC_epoch : dateUTC 1970 1 1 = 0 := by decide

theorem dateUTC_2025_01_15 : dateUTC 2025 1 15 = 1736899200000 := by decide

/-- C6: for amount 50000, rate 12, start 2025-01-15 and renewal 2026-01-15 the hook computes
`days = 365`, `interest = 6000` and `total = 56000`, whatever the other fields are. -/
theorem C6_full_year_example (i c : Nat) (n st : String) (nt : Option String) (i0 t0 : ℚ) :
    accrualDays (dateUTC 2025 1 15) (dateUTC 2026 1 15) = 365 ∧
    (preSave { id := i, name := n, amount := 50000, rateOfInterest := 12,
               startDate := dateUTC 2025 1 15, renewalDate := dateUTC 2026 1 15,
               interest := i0, total := t0, status := st, notes := nt,
               createdBy := c }).interest = 6000 ∧
    (preSave { id := i, name := n, amount := 50000, rateOfInterest := 12,
               startDate := dateUTC 2025 1 15, renewalDate := dateUTC 2026 1 15,
               interest := i0, total := t0, status := st, notes := nt,
               createdBy := c }).total = 56000 := by
  have hs : dateUTC 2025 1 15 = 1736899200000 := by decide
  have he : dateUTC 2026 1 15 = 1768435200000 := by decide
  have hdays : accrualDays (dateUTC 2025 1 15) (dateUTC 2026 1 15) = 365 := by
    rw [hs, he]
    norm_num [accrualDays, mathCeil, msPerDay]
  have hint : accrualInterest 50000 12 (dateUTC 2025 1 15) (dateUTC 2026 1 15) = 6000 := by
    simp only [accrualInterest, hdays, mathRound]
    rw [Int.floor_eq_iff]
    norm_num
  refine ⟨hdays, ?_, ?_⟩
  · simp only [preSave, hint]; norm_num
  · simp only [preSave, hint]; norm_num

/-- C7: for amount 100000, rate 15, start 2024-12-01 and renewal 2025-11-30 the hook computes
`days = 364`, `interest = 14959` and `total = 114959`, whatever the other fields are. -/
theorem C7_sub_year_example (i c : Nat) (n st : String) (nt : Option String) (i0 t0 : ℚ) :
    accrualDays (dateUTC 2024 12 1) (dateUTC 2025 11 30) = 364 ∧
    (preSave { id := i, name := n, amount := 100000, rateOfInterest := 15,
               startDate := dateUTC 2024 12 1, renewalDate := dateUTC 2025 11 30,
               interest := i0, total := t0, status := st, notes := nt,
               createdBy := c }).interest = 14959 ∧
    (preSave { id := i, name := n, amount := 100000, rateOfInterest := 15,
               startDate := dateUTC 2024 12 1, renewalDate := dateUTC 2025 11 30,
               interest := i0, total := t0, status := st, notes := nt,
               createdBy := c }).total = 114959 := by
  have hs : dateUTC 2024 12 1 = 1733011200000 := by decide
  have he : dateUTC 2025 11 30 = 1764460800000 := by decide
  have hdays : accrualDays (dateUTC 2024 12 1) (dateUTC 2025 11 30) = 364 := by
    rw [hs, he]
    norm_num [accrualDays, mathCeil, msPerDay]
  have hint : accrualInterest 100000 15 (dateUTC 2024 12 1) (dateUTC 2025 11 30) = 14959 := by
    simp only [accrualInterest, hdays, mathRound]
    rw [Int.floor_eq_iff]
    norm_num
  refine ⟨hdays, ?_, ?_⟩
  · simp only [preSave, hint]; norm_num
  · simp only [preSave, hint]; norm_num

/-! ### Summary -/

theorem foldl_add_eq_sum (f : LendingRecord → ℚ) (docs : List LendingRecord) (a : ℚ) :
    docs.foldl (fun acc r => acc + f r) a = a + (docs.map f).sum := by
  induction docs generalizing a with
  | nil => simp
  | cons d ds ih => simp [List.foldl_cons, ih, add_assoc]

theorem firstTotalOrZero_groupSumStage (f : LendingRecord → ℚ) (docs : List LendingRecord) :
    firstTotalOrZero (groupSumStage f docs) = (docs.map f).sum := by
  cases docs with
  | nil => simp [groupSumStage, firstTotalOrZero]
  | cons d ds =>
      simp only [groupSumStage, firstTotalOrZero, List.head?_cons, foldl_add_eq_sum, zero_add]
      split_ifs with h
      · rfl
      · push_neg at h; exact h.symm

/-- C8: `totalAmountLended` is the sum of `amount` and `totalInterestExpected` the sum of the
stored `interest` over exactly the records whose status is not `Completed`; both are 0 when
every record is `Completed` (in particular on the empty collection). -/
theorem C8_summary_totals (now : ℤ) (db : Store) :
    (summary now db).totalAmountLended
      = ((db.filter (fun r => decide (r.status ≠ "Completed"))).map (fun r => r.amount)).sum ∧
    (summary now db).totalInterestExpected
      = ((db.filter (fun r => decide (r.status ≠ "Completed"))).map (fun r => r.interest)).sum ∧
    ((db.filter (fun r => decide (r.status ≠ "Completed"))) = [] →
      (summary now db).totalAmountLended = 0 ∧ (summary now db).totalInterestExpected = 0) := by
  have hp : (fun r : LendingRecord => decide (r.status ≠ "Completed")) = notCompleted := by
    funext r
    by_cases h : r.status = "Completed" <;> simp [notCompleted, h]
  have h1 : (summary now db).totalAmountLended
      = ((db.filter notCompleted).map (fun r => r.amount)).sum := by
    simp only [summary, matchStage, firstTotalOrZero_groupSumStage]
  have h2 : (summary now db).totalInterestExpected
      = ((db.filter notCompleted).map (fun r => r.interest)).sum := by
    simp only [summary, matchStage, firstTotalOrZero_groupSumStage]
  rw [hp]
  refine ⟨h1, h2, fun h => ?_⟩
  rw [h1, h2, h]
  simp

/-- Witness for C8: the summary of a collection whose only record is `Completed`. -/
theorem C8_summary_totals_witness :
    (summary 0 [sampleCompleted]).totalAmountLended = 0 ∧
    (summary 0 [sampleCompleted]).totalInterestExpected = 0 :=
  (C8_summary_totals 0 [sampleCompleted]).2.2 (by decide)

theorem renewsWithin_eq_inWindow (now days : ℤ) :
    renewsWithin now (now + days * 24 * 60 * 60 * 1000) = inWindow now days := by
  funext r
  have h : now + days * 24 * 60 * 60 * 1000 = now + days * 86400000 := by ring
  simp only [renewsWithin, inWindow, notCompleted, h]
  by_cases h1 : r.status = "Completed" <;> by_cases h2 : now ≤ r.renewalDate <;>
    by_cases h3 : r.renewalDate ≤ now + days * 86400000 <;> simp [h1, h2, h3]

/-- C9: each windowed figure is the sum of the stored `interest` over the records that are not
`Completed` and whose `renewalDate` lies in the closed interval from `now` to `now` plus 30,
180 and 365 days; an `Active` record renewing exactly at `now + 30` days is counted in the
one-month figure. -/
theorem C9_summary_windows (now : ℤ) (db : Store) (r : LendingRecord) :
    (summary now db).interestNext1Month
      = ((db.filter (inWindow now 30)).map (fun x => x.interest)).sum ∧
    (summary now db).interestNext6Months
      = ((db.filter (inWindow now 180)).map (fun x => x.interest)).sum ∧
    (summary now db).interestNext1Year
      = ((db.filter (inWindow now 365)).map (fun x => x.interest)).sum ∧
    (summary now [{ r with renewalDate := now + 30 * 86400000,
                           status := "Active" }]).interestNext1Month = r.interest := by
  have h30 := renewsWithin_eq_inWindow now 30
  have h180 := renewsWithin_eq_inWindow now 180
  have h365 := renewsWithin_eq_inWindow now 365
  have e1 : ∀ d : Store, (summary now d).interestNext1Month
      = ((d.filter (inWindow now 30)).map (fun x => x.interest)).sum := by
    intro d
    simp only [summary, matchStage, firstTotalOrZero_groupSumStage, h30]
  refine ⟨e1 db, ?_, ?_, ?_⟩
  · simp only [summary, matchStage, firstTotalOrZero_groupSumStage, h180]
  · simp only [summary, matchStage, firstTotalOrZero_groupSumStage, h365]
  · rw [e1]
    simp [inWindow]

/-! ### Auth middleware -/

theorem authMiddleware_next_or_401 (jwtVerify : Option String → String → Option Decoded)
    (jwtSecret : Option String) (users : List User) (authorization : Option String) :
    (∃ d, authMiddleware jwtVerify jwtSecret users authorization = .next d) ∨
    (∃ msg, authMiddleware jwtVerify jwtSecret users authorization = .respond 401 msg) := by
  unfold authMiddleware
  split
  · exact Or.inr ⟨_, rfl⟩
  · split_ifs
    · exact Or.inr ⟨_, rfl⟩
    · split
      · exact Or.inr ⟨_, rfl⟩
      · split
        · exact Or.inr ⟨_, rfl⟩
        · split_ifs
          · exact Or.inr ⟨_, rfl⟩
          · exact Or.inl ⟨_, rfl⟩

/-- C10: the middleware calls `next()` exactly when a non-empty token is present, the token
verifies, the user it references exists and that user's status is `Active`; otherwise it
answers 401, and a route behind the middleware then returns that 401 whatever its handler. -/
theorem C10_auth_gate (jwtVerify : Option String → String → Option Decoded)
    (jwtSecret : Option String) (users : List User) (authorization : Option String) :
    (∀ d, authMiddleware jwtVerify jwtSecret users authorization = .next d ↔
      ∃ token user, bearerToken authorization = some token ∧ token ≠ "" ∧
        jwtVerify jwtSecret token = some d ∧
        findUserById users d.userId = some user ∧ user.status = "Active") ∧
    ((∃ d, authMiddleware jwtVerify jwtSecret users authorization = .next d) ∨
     (∃ msg, authMiddleware jwtVerify jwtSecret users authorization = .respond 401 msg ∧
        ∀ handler : Decoded → Response,
          protectedRoute (authMiddleware jwtVerify jwtSecret users authorization) handler
            = plainResponse 401 msg)) := by
  constructor
  · intro d
    constructor
    · intro h
      unfold authMiddleware at h
      split at h
      · cases h
      · rename_i token htok
        split_ifs at h with hne
        split at h
        · cases h
        · rename_i decoded hdec
          split at h
          · cases h
          · rename_i user hu
            split_ifs at h with hst
            injection h with h
            subst h
            exact ⟨token, user, htok, hne, hdec, hu, not_not.mp hst⟩
    · rintro ⟨token, user, htok, hne, hdec, hu, hst⟩
      simp [authMiddleware, htok, hne, hdec, hu, hst]
  · rcases authMiddleware_next_or_401 jwtVerify jwtSecret users authorization with h | ⟨msg, h⟩
    · exact Or.inl h
    · exact Or.inr ⟨msg, h, fun handler => by rw [h]; rfl⟩

/-! ### Create -/

theorem amountCustomErrors_nil (v : ℚ) (h : amountCustomErrors v = []) :
    0 < v ∧ v ≤ 10000000 := by
  simp only [amountCustomErrors] at h
  split_ifs at h with h1 h2
  exact ⟨not_le.mp h1, not_lt.mp h2⟩

theorem amountCustomErrors_param (v : ℚ) :
    ∀ e ∈ amountCustomErrors v, e.param = "amount" := by
  intro e he
  simp only [amountCustomErrors] at he
  split_ifs at he
  · rw [List.mem_singleton.mp he]
  · rw [List.mem_singleton.mp he]
  · simp at he

theorem createAmountErrors_nil (f : NumericField) (h : createAmountErrors f = []) :
    ∃ a, f = .value a ∧ 0 < a ∧ a ≤ 10000000 := by
  cases f with
  | missing => simp [createAmountErrors] at h
  | rejected c => cases c <;> simp [createAmountErrors] at h
  | value v => exact ⟨v, rfl, amountCustomErrors_nil v (by simpa [createAmountErrors] using h)⟩

theorem rateCustomErrors_nil (v : ℚ) (h : rateCustomErrors v = []) : 0 ≤ v ∧ v ≤ 100 := by
  simp only [rateCustomErrors] at h
  split_ifs at h with h1 h2
  exact ⟨not_lt.mp h1, not_lt.mp h2⟩

theorem rateCustomErrors_param (v : ℚ) :
    ∀ e ∈ rateCustomErrors v, e.param = "rateOfInterest" := by
  intro e he
  simp only [rateCustomErrors] at he
  split_ifs at he
  · rw [List.mem_singleton.mp he]
  · rw [List.mem_singleton.mp he]
  · simp at he

theorem createRateErrors_nil (f : NumericField) (h : createRateErrors f = []) :
    ∃ r, f = .value r ∧ 0 ≤ r ∧ r ≤ 100 := by
  cases f with
  | missing => simp [createRateErrors] at h
  | rejected c => cases c <;> simp [createRateErrors] at h
  | value v => exact ⟨v, rfl, rateCustomErrors_nil v (by simpa [createRateErrors] using h)⟩

theorem requiredDateErrors_nil (param msg : String) (f : Field ℤ)
    (h : requiredDateErrors param msg f = []) : ∃ d, f = .value d := by
  cases f with
  | missing => simp [requiredDateErrors] at h
  | malformed => simp [requiredDateErrors] at h
  | value v => exact ⟨v, rfl⟩

theorem dropWhile_head_false (p : Char → Bool) (cs : List Char) (x : Char) (rest : List Char)
    (h : cs.dropWhile p = x :: rest) : p x = false := by
  induction cs with
  | nil => simp at h
  | cons c cs ih =>
      rw [List.dropWhile_cons] at h
      split_ifs at h with hc
      · exact ih h
      · injection h with h1 _
        rw [← h1]
        simpa using hc

theorem dropWhile_dropWhile (p : Char → Bool) (cs : List Char) :
    (cs.dropWhile p).dropWhile p = cs.dropWhile p := by
  cases h : cs.dropWhile p with
  | nil => rfl
  | cons x rest =>
      have hx := dropWhile_head_false p cs x rest h
      simp [List.dropWhile_cons, hx]

/-- Trimming a trimmed text changes nothing. -/
theorem trimChars_idem (cs : List Char) : trimChars (trimChars cs) = trimChars cs := by
  have hpre : trimChars cs <+: cs.dropWhile isJsWhitespace := by
    unfold trimChars
    have h := List.dropWhile_suffix isJsWhitespace
      (l := (cs.dropWhile isJsWhitespace).reverse)
    have h2 := List.reverse_prefix.mpr h
    rwa [List.reverse_reverse] at h2
  have h1 : (trimChars cs).dropWhile isJsWhitespace = trimChars cs := by
    cases ht : trimChars cs with
    | nil => rfl
    | cons x rest =>
        rw [ht] at hpre
        obtain ⟨w, hw⟩ := hpre
        have hx := dropWhile_head_false isJsWhitespace cs x (rest ++ w) (by rw [← hw]; rfl)
        simp [List.dropWhile_cons, hx]
  have h2 : (trimChars cs).reverse.dropWhile isJsWhitespace = (trimChars cs).reverse := by
    unfold trimChars
    rw [List.reverse_reverse, dropWhile_dropWhile]
  show (((trimChars cs).dropWhile isJsWhitespace).reverse.dropWhile isJsWhitespace).reverse
    = trimChars cs
  rw [h1, h2, List.reverse_reverse]

theorem jsTrim_idem (s : String) : jsTrim (jsTrim s) = jsTrim s := by
  show String.mk (trimChars (trimChars s.data)) = String.mk (trimChars s.data)
  rw [trimChars_idem]

/-- What an empty error list of `POST /` says about the body. -/
theorem validateCreate_nil (b : CreateBody) (h : validateCreate b = []) :
    isLengthOk 1 100 b.name = true ∧
    (∃ a, b.amount = .value a ∧ 0 < a ∧ a ≤ 10000000) ∧
    (∃ r, b.rateOfInterest = .value r ∧ 0 ≤ r ∧ r ≤ 100) ∧
    (∃ s, b.startDate = .value s) ∧ (∃ e, b.renewalDate = .value e) ∧
    (notesOrEmpty b.notes).length ≤ 500 := by
  unfold validateCreate at h
  obtain ⟨h, hnotes⟩ := List.append_eq_nil.mp h
  obtain ⟨h, he⟩ := List.append_eq_nil.mp h
  obtain ⟨h, hs⟩ := List.append_eq_nil.mp h
  obtain ⟨h, hr⟩ := List.append_eq_nil.mp h
  obtain ⟨hn, ha⟩ := List.append_eq_nil.mp h
  refine ⟨?_, createAmountErrors_nil _ ha, createRateErrors_nil _ hr,
    requiredDateErrors_nil _ _ _ hs, requiredDateErrors_nil _ _ _ he, ?_⟩
  · by_contra hc
    simp [hc] at hn
  · cases hb : b.notes with
    | none => simp [notesOrEmpty]
    | some n =>
        rw [hb] at hnotes
        simp only at hnotes
        split_ifs at hnotes with h5
        simpa [notesOrEmpty] using h5

/-- The document built by `POST /` from a body whose amount and rate are in range passes the
schema validators when the trimmed name is not empty and has at most 100 UTF-16 code units and
the notes have at most 500. -/
theorem created_schemaValid (b : CreateBody) (i u : Nat) (a r : ℚ) (s e : ℤ)
    (hname : jsTrim (b.name.getD "") ≠ "")
    (hname16 : utf16Length (jsTrim (b.name.getD "")) ≤ 100)
    (ha : 0 < a) (hr0 : 0 ≤ r) (hr1 : r ≤ 100)
    (hnotes16 : utf16Length (notesOrEmpty b.notes) ≤ 500) :
    schemaValid
      (applySetters
        { id := i, name := jsTrim (b.name.getD ""), amount := a, rateOfInterest := r,
          startDate := s, renewalDate := e, interest := 0, total := 0,
          status := "Active", notes := some (notesOrEmpty b.notes),
          createdBy := u }) = true := by
  simp only [schemaValid, applySetters, jsTrim_idem, Bool.and_eq_true, decide_eq_true_eq]
  exact ⟨⟨⟨⟨⟨⟨hname, hname16⟩, ha.le⟩, hr0⟩, hr1⟩, by decide⟩, hnotes16⟩

/-- C5: a create request that passes the validation chains and whose document passes the
schema validators (a name that is not blank after `trim` and has at most 100 UTF-16 code units,
notes of at most 500 UTF-16 code units), with a start date that is not backdated, is answered
400 and persists nothing when `renewalDate ≤ startDate`, and is answered 201 and persisted when
`renewalDate` is `startDate` plus one day. -/
theorem C5_create_date_boundary (now : ℤ) (userId : Nat) (b : CreateBody) (db : Store)
    (s e : ℤ) (hval : validateCreate b = []) (hname : jsTrim (b.name.getD "") ≠ "")
    (hname16 : utf16Length (jsTrim (b.name.getD "")) ≤ 100)
    (hnotes16 : utf16Length (notesOrEmpty b.notes) ≤ 500)
    (hs : b.startDate = .value s) (he : b.renewalDate = .value e)
    (hnow : ¬ s < now - 86400000) :
    (e ≤ s → (createRecord now userId b db).1.status = 400 ∧
              (createRecord now userId b db).2 = db) ∧
    (e = s + 86400000 →
      (createRecord now userId b db).1.status = 201 ∧
      ∃ saved, (createRecord now userId b db).1.record = some saved ∧
        (createRecord now userId b db).2 = db ++ [saved] ∧
        saved.startDate = s ∧ saved.renewalDate = s + 86400000) := by
  obtain ⟨-, ⟨a, hae, ha0, -⟩, ⟨r, hre, hr0, hr1⟩, -, -, -⟩ :=
    validateCreate_nil b hval
  constructor
  · intro hle
    have hge : s ≥ e := hle
    simp [createRecord, hval, hae, hre, hs, he, hge, plainResponse]
  · intro heq
    have hlt : ¬ s ≥ e := by omega
    have hnow1 : ¬ s < now - 24 * 60 * 60 * 1000 := by omega
    have hsv := created_schemaValid b (freshId db) userId a r s e hname hname16 ha0 hr0 hr1
      hnotes16
    simp only [createRecord, hval, hae, hre, hs, he]
    simp only [ne_eq, not_true_eq_false, if_false, hlt, hnow1, save, hsv, if_true]
    refine ⟨trivial, ?_⟩
    simp [preSave, applySetters, heq]

/-- Witness for C5: the one-day request, served on the day of its start date. -/
theorem C5_create_date_boundary_witness :
    (createRecord (dateUTC 2025 1 15) 7 sampleOneDayBody []).1.status = 201 :=
  ((C5_create_date_boundary (dateUTC 2025 1 15) 7 sampleOneDayBody [] (dateUTC 2025 1 15)
      (dateUTC 2025 1 15 + 86400000) (by decide) (by decide) (by decide) (by decide) rfl rfl
      (by decide)).2 rfl).1

/-- A name that passes the validation chain of `POST /` and not the schema: sixty characters
outside the basic plane are sixty characters for `isLength` and 120 code units for `maxlength`,
so that the document is refused by `save()`. -/
theorem emoji_name_refused :
    isLengthOk 1 100 (some sampleEmojiName) = true ∧
    utf16Length (jsTrim sampleEmojiName) = 120 ∧
    save { sampleRecord with name := sampleEmojiName } = .error "ValidationError" := by
  have hv : schemaValid (applySetters { sampleRecord with name := sampleEmojiName }) = false := by
    decide
  refine ⟨by decide, by decide, ?_⟩
  simp [save, hv]

/-- A name of one no-break space passes the validation chain of `POST /` and is emptied by
`trim`. -/
theorem no_break_space_name_blank :
    isLengthOk 1 100 (some (String.mk [Char.ofNat 0xA0])) = true ∧
    jsTrim (String.mk [Char.ofNat 0xA0]) = "" := by
  decide

/-! ### Update -/

theorem optionalNumericErrors_nil (param : String) (ok : ℚ → Bool) (f : NumericField)
    (h : optionalNumericErrors param ok f = []) :
    f = .missing ∨ ∃ v, f = .value v ∧ ok v = true := by
  cases f with
  | missing => exact Or.inl rfl
  | rejected c => cases c <;> simp [optionalNumericErrors] at h
  | value v =>
      simp only [optionalNumericErrors] at h
      split_ifs at h with h1
      exact Or.inr ⟨v, rfl, h1⟩

theorem optionalDateErrors_nil (param : String) (f : Field ℤ)
    (h : optionalDateErrors param f = []) : f = .missing ∨ ∃ d, f = .value d := by
  cases f with
  | missing => exact Or.inl rfl
  | malformed => simp [optionalDateErrors] at h
  | value v => exact Or.inr ⟨v, rfl⟩

theorem findById_updateFirst (id : Nat) (f : LendingRecord → LendingRecord) (db : Store)
    (r : LendingRecord) (hid : ∀ x, (f x).id = x.id) (h : findById db id = some r) :
    findById (updateFirst id f db) id = some (f r) := by
  induction db with
  | nil => simp [findById] at h
  | cons x xs ih =>
      by_cases hx : x.id = id
      · have hfx : (f x).id = id := by rw [hid, hx]
        simp only [findById, List.find?_cons, hx, beq_self_eq_true, Option.some.injEq] at h
        subst h
        simp [findById, updateFirst, hx, hfx]
      · have hne : (x.id == id) = false := by simpa using hx
        simp only [findById, List.find?_cons, hne] at h
        simp only [updateFirst, hne, findById, List.find?_cons, Bool.false_eq_true, if_false]
        exact ih h

/-- What `PUT /:id` does with a request that supplies `rateOfInterest` and nothing else: the
stored rate is replaced and every other path, `interest` and `total` included, is kept. -/
theorem updateRecord_rate_only (id : Nat) (db : Store) (r : LendingRecord) (v : ℚ)
    (hv0 : 0 ≤ v) (hv1 : v ≤ 100) (h : findById db id = some r) :
    (updateRecord id { emptyUpdateBody with rateOfInterest := .value v } db).1.status = 200 ∧
    (updateRecord id { emptyUpdateBody with rateOfInterest := .value v } db).1.record
      = some { r with rateOfInterest := v } ∧
    findById (updateRecord id { emptyUpdateBody with rateOfInterest := .value v } db).2 id
      = some { r with rateOfInterest := v } := by
  have hval : validateUpdate { emptyUpdateBody with rateOfInterest := .value v } = [] := by
    simp [validateUpdate, emptyUpdateBody, optionalNumericErrors, optionalDateErrors, hv0, hv1]
  have hok : updateValidatorsOk
      (buildUpdateData { emptyUpdateBody with rateOfInterest := .value v }) = true := by
    simp [updateValidatorsOk, buildUpdateData, emptyUpdateBody, hv0, hv1]
  have happ : applyUpdate (buildUpdateData { emptyUpdateBody with rateOfInterest := .value v })
      = fun x => { x with rateOfInterest := v } := by
    funext x
    simp [applyUpdate, buildUpdateData, emptyUpdateBody]
  have hdates : (buildUpdateData { emptyUpdateBody with rateOfInterest := .value v }).startDate
      = none := by
    simp [buildUpdateData, emptyUpdateBody]
  simp only [updateRecord, hval, findByIdAndUpdate, hok, h, happ, hdates]
  refine ⟨by simp, by simp, ?_⟩
  simp only [ne_eq, not_true_eq_false, if_false, Bool.false_eq_true, if_true]
  exact findById_updateFirst id _ db r (fun _ => rfl) h

/-- C3: an update of the stored sample record (50000 at 12 percent for 365 days, interest
6000, total 56000) that supplies only `rateOfInterest: 24` is answered 200 and stores the new
rate with the old interest 6000 and total 56000, while the accrual formula on the new rate and
the stored amount and dates gives 12000. -/
theorem C3_rate_only_update_keeps_stale_interest :
    (updateRecord 1 rateOnlyBody [sampleRecord]).1.status = 200 ∧
    (updateRecord 1 rateOnlyBody [sampleRecord]).1.record
      = some { sampleRecord with rateOfInterest := 24 } ∧
    (updateRecord 1 rateOnlyBody [sampleRecord]).2
      = [{ sampleRecord with rateOfInterest := 24 }] ∧
    ({ sampleRecord with rateOfInterest := 24 } : LendingRecord).interest = 6000 ∧
    accrualInterest sampleRecord.amount 24 sampleRecord.startDate sampleRecord.renewalDate
      = 12000 := by
  refine ⟨by decide, by decide, by decide, by decide, ?_⟩
  have hs : sampleRecord.startDate = 1736899200000 := by decide
  have he : sampleRecord.renewalDate = 1768435200000 := by decide
  have ha : sampleRecord.amount = 50000 := rfl
  have hdays : accrualDays sampleRecord.startDate sampleRecord.renewalDate = 365 := by
    rw [hs, he]
    norm_num [accrualDays, mathCeil, msPerDay]
  simp only [accrualInterest, hdays, mathRound, ha]
  rw [Int.floor_eq_iff]
  norm_num

/-- What an empty error list of `PUT /:id` says about the body. -/
theorem validateUpdate_nil (b : UpdateBody) (h : validateUpdate b = []) :
    (∀ n, b.name = some n → isLengthOk 1 100 (some n) = true) ∧
    (b.amount = .missing ∨ ∃ v, b.amount = .value v ∧ 0 < v) ∧
    (b.rateOfInterest = .missing ∨
      ∃ v, b.rateOfInterest = .value v ∧ 0 ≤ v ∧ v ≤ 100) ∧
    (b.startDate = .missing ∨ ∃ d, b.startDate = .value d) ∧
    (b.renewalDate = .missing ∨ ∃ d, b.renewalDate = .value d) ∧
    (∀ st, b.status = some st → st ∈ statusEnum) ∧
    (∀ n, b.notes = some n → n.length ≤ 500) := by
  unfold validateUpdate at h
  obtain ⟨h, hnotes⟩ := List.append_eq_nil.mp h
  obtain ⟨h, hst⟩ := List.append_eq_nil.mp h
  obtain ⟨h, he⟩ := List.append_eq_nil.mp h
  obtain ⟨h, hs⟩ := List.append_eq_nil.mp h
  obtain ⟨h, hr⟩ := List.append_eq_nil.mp h
  obtain ⟨hn, ha⟩ := List.append_eq_nil.mp h
  refine ⟨?_, ?_, ?_, optionalDateErrors_nil _ _ hs, optionalDateErrors_nil _ _ he, ?_, ?_⟩
  · intro n hb
    rw [hb] at hn
    by_contra hc
    simp [hc] at hn
  · rcases optionalNumericErrors_nil _ _ _ ha with h1 | ⟨v, h1, h2⟩
    · exact Or.inl h1
    · exact Or.inr ⟨v, h1, by simpa using h2⟩
  · rcases optionalNumericErrors_nil _ _ _ hr with h1 | ⟨v, h1, h2⟩
    · exact Or.inl h1
    · exact Or.inr ⟨v, h1, by simpa using h2⟩
  · intro st hb
    rw [hb] at hst
    by_contra hc
    simp [hc] at hst
  · intro n hb
    rw [hb] at hnotes
    by_contra hc
    simp [hc] at hnotes

/-- A body that passes the validation chains of `PUT /:id` yields an `updateData` that passes
the update validators of the schema when the trimmed name has at most 100 UTF-16 code units
and the notes have at most 500. -/
theorem updateValidatorsOk_of_valid (b : UpdateBody) (h : validateUpdate b = [])
    (hname16 : ∀ n, b.name = some n → utf16Length (jsTrim n) ≤ 100)
    (hnotes16 : ∀ n, b.notes = some n → utf16Length n ≤ 500) :
    updateValidatorsOk (buildUpdateData b) = true := by
  obtain ⟨-, ha, hr, -, -, hst, -⟩ := validateUpdate_nil b h
  have h1 : (match (buildUpdateData b).name with
      | none => true
      | some n => decide (n ≠ "") && decide (utf16Length n ≤ 100)) = true := by
    cases hb : b.name with
    | none => simp [buildUpdateData, hb]
    | some n =>
        have hle := hname16 n hb
        by_cases ht : jsTrim n = ""
        · simp [buildUpdateData, hb, ht]
        · simp only [buildUpdateData, hb, ne_eq, ht, not_false_eq_true, if_true,
            Bool.and_eq_true, decide_eq_true_eq]
          exact ⟨trivial, hle⟩
  have h2 : (match (buildUpdateData b).amount with
      | none => true
      | some a => decide (0 ≤ a)) = true := by
    rcases ha with ha | ⟨v, ha, hv⟩
    · simp [buildUpdateData, ha]
    · have hv0 : v ≠ 0 := ne_of_gt hv
      simp [buildUpdateData, ha, hv0, hv.le]
  have h3 : (match (buildUpdateData b).rateOfInterest with
      | none => true
      | some r => decide (0 ≤ r) && decide (r ≤ 100)) = true := by
    rcases hr with hr | ⟨v, hr, hv0, hv1⟩
    · simp [buildUpdateData, hr]
    · simp [buildUpdateData, hr, hv0, hv1]
  have h4 : (match (buildUpdateData b).status with
      | none => true
      | some st => decide (st ∈ statusEnum)) = true := by
    cases hb : b.status with
    | none => simp [buildUpdateData, hb]
    | some st =>
        have hm := hst st hb
        by_cases ht : st = ""
        · simp [buildUpdateData, hb, ht]
        · simp [buildUpdateData, hb, ht, hm]
  have h5 : (match (buildUpdateData b).notes with
      | none => true
      | some n => decide (utf16Length n ≤ 500)) = true := by
    cases hb : b.notes with
    | none => simp [buildUpdateData, hb]
    | some n => simp [buildUpdateData, hb, hnotes16 n hb]
  simp only [updateValidatorsOk, h1, h2, h3, h4, h5, Bool.and_self]

/-- An update whose body passes validation, whose `updateData` passes the update validators of
the schema, whose date pair is not rejected and whose id is stored is answered 200 with the
`$set` applied to the stored document. -/
theorem updateRecord_accept (id : Nat) (b : UpdateBody) (db : Store) (r : LendingRecord)
    (hval : validateUpdate b = []) (hok : updateValidatorsOk (buildUpdateData b) = true)
    (hfind : findById db id = some r)
    (hdates : (match (buildUpdateData b).startDate, (buildUpdateData b).renewalDate with
      | some s, some e => decide (e ≤ s)
      | _, _ => false) = false) :
    updateRecord id b db
      = ({ status := 200, message := "Record updated successfully", errors := [],
           record := some (applyUpdate (buildUpdateData b) r) },
         updateFirst id (applyUpdate (buildUpdateData b)) db) := by
  simp only [updateRecord, hval, hdates, findByIdAndUpdate, hok, hfind]
  simp

/-- An update that supplies both dates with `renewalDate ≤ startDate` is answered 400 and
changes nothing. -/
theorem updateRecord_reject_both_dates (id : Nat) (b : UpdateBody) (db : Store) (s e : ℤ)
    (hs : b.startDate = .value s) (he : b.renewalDate = .value e) (hle : e ≤ s) :
    (updateRecord id b db).1.status = 400 ∧ (updateRecord id b db).2 = db := by
  by_cases hval : validateUpdate b = []
  · have hd : (match (buildUpdateData b).startDate, (buildUpdateData b).renewalDate with
        | some s, some e => decide (e ≤ s)
        | _, _ => false) = true := by
      simp [buildUpdateData, hs, he, hle]
    simp only [updateRecord, hval, hd]
    simp [plainResponse]
  · simp [updateRecord, hval]

/-- C4 (counterexample): the stored sample record renews on 2026-01-15; an update supplying
only `startDate: '2026-02-01'` makes the merged renewal date earlier than the merged start
date, yet it is answered 200 and the collection is changed to the record with that pair. -/
theorem C4_single_date_update_not_checked :
    findById [sampleRecord] 1 = some sampleRecord ∧
    startOnlyBody.renewalDate = .missing ∧
    sampleRecord.renewalDate ≤ dateUTC 2026 2 1 ∧
    (updateRecord 1 startOnlyBody [sampleRecord]).1.status = 200 ∧
    (updateRecord 1 startOnlyBody [sampleRecord]).2
      = [{ sampleRecord with startDate := dateUTC 2026 2 1 }] ∧
    (updateRecord 1 startOnlyBody [sampleRecord]).2 ≠ [sampleRecord] := by
  decide

/-- C4 (amended): the date order is checked on the supplied pair, and only when the update
supplies both dates: such an update with `renewalDate ≤ startDate` is answered 400 and the
collection is unchanged. A valid update of an existing record (one that passes the validation
chains and whose trimmed name and notes are within the `maxlength` of the schema, in UTF-16
code units) that supplies only one of the dates is answered 200 and stores the new date next to
the stored other date, whatever their order. -/
theorem C4_date_check_only_on_both_dates (id : Nat) (b : UpdateBody) (db : Store) :
    (∀ s e, b.startDate = .value s → b.renewalDate = .value e → e ≤ s →
      (updateRecord id b db).1.status = 400 ∧ (updateRecord id b db).2 = db) ∧
    (∀ r s, validateUpdate b = [] →
      (∀ n, b.name = some n → utf16Length (jsTrim n) ≤ 100) →
      (∀ n, b.notes = some n → utf16Length n ≤ 500) →
      findById db id = some r →
      b.startDate = .value s → b.renewalDate = .missing →
      (updateRecord id b db).1.status = 200 ∧
      ∃ r1, (updateRecord id b db).1.record = some r1 ∧
        findById (updateRecord id b db).2 id = some r1 ∧
        r1.startDate = s ∧ r1.renewalDate = r.renewalDate) ∧
    (∀ r e, validateUpdate b = [] →
      (∀ n, b.name = some n → utf16Length (jsTrim n) ≤ 100) →
      (∀ n, b.notes = some n → utf16Length n ≤ 500) →
      findById db id = some r →
      b.startDate = .missing → b.renewalDate = .value e →
      (updateRecord id b db).1.status = 200 ∧
      ∃ r1, (updateRecord id b db).1.record = some r1 ∧
        findById (updateRecord id b db).2 id = some r1 ∧
        r1.startDate = r.startDate ∧ r1.renewalDate = e) := by
  refine ⟨fun s e hs he hle => updateRecord_reject_both_dates id b db s e hs he hle, ?_, ?_⟩
  · intro r s hval hname16 hnotes16 hfind hs he
    have hok := updateValidatorsOk_of_valid b hval hname16 hnotes16
    have hd : (match (buildUpdateData b).startDate, (buildUpdateData b).renewalDate with
        | some s, some e => decide (e ≤ s)
        | _, _ => false) = false := by
      simp [buildUpdateData, hs, he]
    rw [updateRecord_accept id b db r hval hok hfind hd]
    refine ⟨rfl, _, rfl, findById_updateFirst id _ db r (fun _ => rfl) hfind, ?_, ?_⟩
    · simp [applyUpdate, buildUpdateData, hs]
    · simp [applyUpdate, buildUpdateData, he]
  · intro r e hval hname16 hnotes16 hfind hs he
    have hok := updateValidatorsOk_of_valid b hval hname16 hnotes16
    have hd : (match (buildUpdateData b).startDate, (buildUpdateData b).renewalDate with
        | some s, some e => decide (e ≤ s)
        | _, _ => false) = false := by
      simp [buildUpdateData, hs, he]
    rw [updateRecord_accept id b db r hval hok hfind hd]
    refine ⟨rfl, _, rfl, findById_updateFirst id _ db r (fun _ => rfl) hfind, ?_, ?_⟩
    · simp [applyUpdate, buildUpdateData, hs]
    · simp [applyUpdate, buildUpdateData, he]

/-- Witness for C4 (amended): an update of the sample record with both dates, the renewal
date before the start date, is answered 400 and changes nothing; an update with the start date
alone is answered 200 and stores it next to the stored renewal date. -/
theorem C4_date_check_only_on_both_dates_witness :
    bothDatesBody.startDate = .value (dateUTC 2026 2 1) ∧
    bothDatesBody.renewalDate = .value (dateUTC 2026 1 15) ∧
    dateUTC 2026 1 15 ≤ dateUTC 2026 2 1 ∧
    ((updateRecord 1 bothDatesBody [sampleRecord]).1.status = 400 ∧
      (updateRecord 1 bothDatesBody [sampleRecord]).2 = [sampleRecord]) ∧
    (updateRecord 1 startOnlyBody [sampleRecord]).1.status = 200 :=
  ⟨rfl, rfl, by decide,
    (C4_date_check_only_on_both_dates 1 bothDatesBody [sampleRecord]).1
      (dateUTC 2026 2 1) (dateUTC 2026 1 15) rfl rfl (by decide),
    ((C4_date_check_only_on_both_dates 1 startOnlyBody [sampleRecord]).2.1
      sampleRecord (dateUTC 2026 2 1) (by decide) (fun _ h => nomatch h) (fun _ h => nomatch h)
      (by decide) rfl rfl).1⟩

set_option maxRecDepth 20000 in
/-- An update that passes the validation chains of `PUT /:id` and not the update validators of
the schema: notes of 300 characters outside the basic plane are 300 characters for `isLength`
and 600 code units for `maxlength`; the update is answered 500. -/
theorem emoji_notes_update_refused :
    validateUpdate { startOnlyBody with
        notes := some (String.mk (List.replicate 300 (Char.ofNat 0x1F600))) } = [] ∧
    (updateRecord 1 { startOnlyBody with
        notes := some (String.mk (List.replicate 300 (Char.ofNat 0x1F600))) }
      [sampleRecord]).1.status = 500 := by
  decide

/-! ### The staleness of the derived fields after an update -/

theorem accrualInterest_sample (rate : ℚ) :
    accrualInterest 50000 rate (dateUTC 2025 1 15) (dateUTC 2026 1 15)
      = mathRound (50000 * rate * (365 / 365) / 100) := by
  have hs : dateUTC 2025 1 15 = 1736899200000 := by decide
  have he : dateUTC 2026 1 15 = 1768435200000 := by decide
  have hdays : accrualDays (dateUTC 2025 1 15) (dateUTC 2026 1 15) = 365 := by
    rw [hs, he]
    norm_num [accrualDays, mathCeil, msPerDay]
  simp only [accrualInterest, hdays]
  norm_num

theorem accrualInterest_sample_12 :
    accrualInterest 50000 12 (dateUTC 2025 1 15) (dateUTC 2026 1 15) = 6000 := by
  rw [accrualInterest_sample, mathRound, Int.floor_eq_iff]
  norm_num

theorem accrualInterest_sample_24 :
    accrualInterest 50000 24 (dateUTC 2025 1 15) (dateUTC 2026 1 15) = 12000 := by
  rw [accrualInterest_sample, mathRound, Int.floor_eq_iff]
  norm_num

/-- The sample create request, served on 2025-01-15 on the empty collection, is answered 201
and stores the sample record. -/
theorem createRecord_sample :
    createRecord (dateUTC 2025 1 15) 7 sampleCreateBody []
      = ({ status := 201, message := "Lending record created successfully", errors := [],
           record := some sampleRecord }, [sampleRecord]) := by
  have hval : validateCreate sampleCreateBody = [] := by decide
  have hge : ¬ dateUTC 2025 1 15 ≥ dateUTC 2026 1 15 := by decide
  have hnow : ¬ dateUTC 2025 1 15 < dateUTC 2025 1 15 - 24 * 60 * 60 * 1000 := by decide
  have hname : jsTrim ((some "Asha" : Option String).getD "") = "Asha" := by decide
  have hid : freshId [] = 1 := by decide
  have hset : applySetters
      { id := 1, name := "Asha", amount := 50000, rateOfInterest := 12,
        startDate := dateUTC 2025 1 15, renewalDate := dateUTC 2026 1 15, interest := 0,
        total := 0, status := "Active", notes := some (notesOrEmpty none),
        createdBy := 7 }
      = { id := 1, name := "Asha", amount := 50000, rateOfInterest := 12,
          startDate := dateUTC 2025 1 15, renewalDate := dateUTC 2026 1 15, interest := 0,
          total := 0, status := "Active", notes := some (notesOrEmpty none),
          createdBy := 7 } := by decide
  have hsv : schemaValid
      { id := 1, name := "Asha", amount := 50000, rateOfInterest := 12,
        startDate := dateUTC 2025 1 15, renewalDate := dateUTC 2026 1 15, interest := 0,
        total := 0, status := "Active", notes := some (notesOrEmpty none),
        createdBy := 7 } = true := by decide
  simp only [createRecord, hval, ne_eq, not_true_eq_false, if_false]
  simp only [sampleCreateBody, hge, hnow, hname, hid, save, hset, hsv, preSave,
    accrualInterest_sample_12]
  simp [sampleRecord, notesOrEmpty]
  norm_num

/-- C2: from the empty collection, the sample create request followed by an update of the
created record that supplies only `rateOfInterest: 24` leaves a stored record with rate 24,
interest 6000 and total 56000, whose interest is not the accrual of its current fields. -/
theorem C2_update_leaves_stale_interest :
    serveAll [] [.create (dateUTC 2025 1 15) 7 sampleCreateBody, .update 1 rateOnlyBody]
      = [{ sampleRecord with rateOfInterest := 24 }] ∧
    ¬ accrualConsistent { sampleRecord with rateOfInterest := 24 } := by
  constructor
  · have hu : (updateRecord 1 rateOnlyBody [sampleRecord]).2
        = [{ sampleRecord with rateOfInterest := 24 }] := by decide
    simp only [serveAll, List.foldl_cons, List.foldl_nil, serve, createRecord_sample, hu]
  · intro h
    have h1 := h.1
    simp only [sampleRecord, accrualInterest_sample_24] at h1
    norm_num at h1

/-! ### The write paths that keep the derived fields consistent -/

theorem accrualConsistent_preSave (r : LendingRecord) : accrualConsistent (preSave r) :=
  ⟨rfl, rfl⟩

/-- The create path keeps every stored record consistent: what it adds went through the
`pre('save')` hook. -/
theorem createRecord_preserves_consistency (now : ℤ) (userId : Nat) (b : CreateBody)
    (db : Store) (h : ∀ x ∈ db, accrualConsistent x) :
    ∀ x ∈ (createRecord now userId b db).2, accrualConsistent x := by
  unfold createRecord
  simp only
  split_ifs with he
  · exact h
  · split
    · split_ifs
      · exact h
      · exact h
      · simp only [save]
        split_ifs
        · intro x hx
          rcases List.mem_append.mp hx with hx | hx
          · exact h x hx
          · rw [List.mem_singleton.mp hx]
            exact accrualConsistent_preSave _
        · exact h
    · exact h

theorem removeFirst_subset (id : Nat) (db : Store) : ∀ x ∈ removeFirst id db, x ∈ db := by
  induction db with
  | nil => intro x hx; simp [removeFirst] at hx
  | cons r rest ih =>
      intro x hx
      unfold removeFirst at hx
      split_ifs at hx
      · exact List.mem_cons_of_mem _ hx
      · rcases List.mem_cons.mp hx with hx | hx
        · rw [hx]; exact List.mem_cons_self _ _
        · exact List.mem_cons_of_mem _ (ih x hx)

/-- The delete path keeps every stored record consistent. -/
theorem deleteRecord_preserves_consistency (id : Nat) (db : Store)
    (h : ∀ x ∈ db, accrualConsistent x) :
    ∀ x ∈ (deleteRecord id db).2, accrualConsistent x := by
  unfold deleteRecord
  split
  · exact h
  · intro x hx
    exact h x (removeFirst_subset id db x hx)

/-! ### Login -/

/-- C11 (counterexample): on the sample users, login of an unknown address and login of the
active user with a wrong password get the same 401 response, but login of the inactive user
with the right password gets a 401 with another message. -/
theorem C11_inactive_login_message_differs :
    loginRoute sampleSign sampleCompare none sampleUsers loginUnknown
      = authPlain 401 "Invalid email or password" ∧
    loginRoute sampleSign sampleCompare none sampleUsers loginWrongPassword
      = authPlain 401 "Invalid email or password" ∧
    sampleCompare "secret1" sampleInactiveUser.password = true ∧
    loginRoute sampleSign sampleCompare none sampleUsers loginInactive
      = authPlain 401 "Account is inactive. Please contact administrator." ∧
    loginRoute sampleSign sampleCompare none sampleUsers loginInactive
      ≠ loginRoute sampleSign sampleCompare none sampleUsers loginUnknown := by
  decide

/-- C11 (amended): for a well-formed login request, an address that no user has and a wrong
password for an active user are both answered 401 `Invalid email or password`; an account
whose status is not `Active` is answered 401 `Account is inactive. Please contact
administrator.`, whatever the password. -/
theorem C11_login_failures (jwtSign : Decoded → String → String)
    (bcryptCompare : String → String → Bool) (jwtSecret : Option String) (users : List User)
    (email password : String) (hp : password ≠ "") :
    (users.find? (fun u => u.email == email) = none →
      loginRoute jwtSign bcryptCompare jwtSecret users
          { email := .value email, password := some password }
        = authPlain 401 "Invalid email or password") ∧
    (∀ u, users.find? (fun u => u.email == email) = some u → u.status = "Active" →
      bcryptCompare password u.password = false →
      loginRoute jwtSign bcryptCompare jwtSecret users
          { email := .value email, password := some password }
        = authPlain 401 "Invalid email or password") ∧
    (∀ u, users.find? (fun u => u.email == email) = some u → u.status ≠ "Active" →
      loginRoute jwtSign bcryptCompare jwtSecret users
          { email := .value email, password := some password }
        = authPlain 401 "Account is inactive. Please contact administrator.") := by
  have hval : validateLogin { email := .value email, password := some password } = [] := by
    simp [validateLogin, hp]
  refine ⟨?_, ?_, ?_⟩
  · intro h
    simp only [loginRoute, hval, h]
    simp
  · intro u h hst hc
    simp only [loginRoute, hval, h, hst, hc]
    simp
  · intro u h hst
    simp only [loginRoute, hval, h]
    simp [hst]

/-- Witness for C11 (amended): the inactive sample user. -/
theorem C11_login_failures_witness :
    loginRoute sampleSign sampleCompare none sampleUsers
        { email := .value "ravi@example.com", password := some "secret1" }
      = authPlain 401 "Account is inactive. Please contact administrator." :=
  (C11_login_failures sampleSign sampleCompare none sampleUsers "ravi@example.com" "secret1"
    (by decide)).2.2 sampleInactiveUser (by decide) (by decide)

/-! ### The messages of the auth middleware and its key -/

/-- C12 (counterexample): a request without a credential and a request with a token that does
not verify are both answered 401, with two different messages. -/
theorem C12_no_token_message_differs :
    authMiddleware sampleVerify (some "s3cret") sampleUsers none
      = .respond 401 "No token, authorization denied" ∧
    authMiddleware sampleVerify (some "s3cret") sampleUsers (bearerHeader "garbage")
      = .respond 401 "Token is not valid" ∧
    authMiddleware sampleVerify (some "s3cret") sampleUsers none
      ≠ authMiddleware sampleVerify (some "s3cret") sampleUsers (bearerHeader "garbage") := by
  decide

/-- C12 (amended): every rejection by the middleware has status 401 and one of two messages:
`No token, authorization denied` exactly when no token, or an empty one, is presented, and
the single message `Token is not valid` for every other failure (a token that does not
verify, a missing user, an inactive user). -/
theorem C12_rejection_messages (jwtVerify : Option String → String → Option Decoded)
    (jwtSecret : Option String) (users : List User) (authorization : Option String) :
    ((∃ d, authMiddleware jwtVerify jwtSecret users authorization = .next d) ∨
     authMiddleware jwtVerify jwtSecret users authorization
       = .respond 401 "No token, authorization denied" ∨
     authMiddleware jwtVerify jwtSecret users authorization
       = .respond 401 "Token is not valid") ∧
    (authMiddleware jwtVerify jwtSecret users authorization
       = .respond 401 "No token, authorization denied" ↔
      (bearerToken authorization = none ∨ bearerToken authorization = some "")) := by
  unfold authMiddleware
  cases htok : bearerToken authorization with
  | none => simp
  | some token =>
      by_cases hne : token = ""
      · simp [hne]
      · simp only [hne, if_false, Option.some.injEq, false_or, reduceCtorEq]
        cases hdec : jwtVerify jwtSecret token with
        | none => simp
        | some decoded =>
            cases hu : findUserById users decoded.userId with
            | none => simp [hu]
            | some user =>
                by_cases hst : user.status = "Active"
                · simp [hu, hst]
                · simp [hu, hst]

theorem removeFirstOccurrence_append (pat rest : List Char) (h : pat ≠ []) :
    removeFirstOccurrence pat (pat ++ rest) = rest := by
  cases pat with
  | nil => exact absurd rfl h
  | cons c cs =>
      have hp : (c :: cs).isPrefixOf (c :: (cs ++ rest)) = true := by
        have : (c :: cs).isPrefixOf ((c :: cs) ++ rest) = true :=
          List.isPrefixOf_iff_prefix.mpr (List.prefix_append _ _)
        exact this
      rw [List.cons_append, removeFirstOccurrence, if_pos hp, ← List.cons_append,
        List.drop_left]

/-- The middleware reads back the token of a `Bearer` header. -/
theorem bearerToken_bearerHeader (token : String) :
    bearerToken (bearerHeader token) = some token := by
  simp only [bearerToken, bearerHeader, Option.map_some', String.data_append]
  rw [removeFirstOccurrence_append _ _ (by decide)]

/-- Without `JWT_SECRET` the middleware lets no request through, as `jwt.verify` throws when
it is given no key. -/
theorem authMiddleware_rejects_without_secret
    (jwtVerify : Option String → String → Option Decoded) (users : List User)
    (authorization : Option String) (hlib : ∀ t, jwtVerify none t = none) :
    ∃ msg, authMiddleware jwtVerify none users authorization = .respond 401 msg := by
  rcases authMiddleware_next_or_401 jwtVerify none users authorization with ⟨d, h⟩ | h
  · exfalso
    unfold authMiddleware at h
    split at h
    · cases h
    · split_ifs at h
      rw [hlib] at h
      cases h
  · exact h

/-- With `JWT_SECRET` set, the token that login issues for an active user is let through by
the middleware for as long as `jwt.verify` returns its payload under that key. -/
theorem login_token_accepted_with_secret (jwtSign : Decoded → String → String)
    (jwtVerify : Option String → String → Option Decoded)
    (bcryptCompare : String → String → Bool) (k : String) (users : List User)
    (email password : String) (u : User) (hk : k ≠ "") (hp : password ≠ "")
    (hfind : users.find? (fun x => x.email == email) = some u)
    (hid : findUserById users (some u.id) = some u)
    (hst : u.status = "Active") (hc : bcryptCompare password u.password = true)
    (hne : jwtSign ⟨some u.id, some u.email, some u.isAdmin⟩ k ≠ "")
    (hlib : jwtVerify (some k) (jwtSign ⟨some u.id, some u.email, some u.isAdmin⟩ k)
      = some ⟨some u.id, some u.email, some u.isAdmin⟩) :
    ∃ token, (loginRoute jwtSign bcryptCompare (some k) users
        { email := .value email, password := some password }).token = some token ∧
      authMiddleware jwtVerify (some k) users (bearerHeader token)
        = .next ⟨some u.id, some u.email, some u.isAdmin⟩ := by
  have hval : validateLogin { email := .value email, password := some password } = [] := by
    simp [validateLogin, hp]
  refine ⟨jwtSign ⟨some u.id, some u.email, some u.isAdmin⟩ k, ?_, ?_⟩
  · simp only [loginRoute, hval, hfind, hst, hc, jwtSecretOrDefault, hk]
    simp [hk]
  · simp only [authMiddleware, bearerToken_bearerHeader, hne, if_false, hlib, hid, hst]
    simp

/-- C13: with `JWT_SECRET` unset, the active sample user logs in (200) and gets a token signed
with the literal `your-secret-key`; the middleware, which verifies with the unset variable,
answers that token 401 `Token is not valid`. With `JWT_SECRET` set to `s3cret` the token of
the same login is let through. -/
theorem C13_login_token_rejected_without_secret :
    (loginRoute sampleSign sampleCompare none sampleUsers loginActive).status = 200 ∧
    (loginRoute sampleSign sampleCompare none sampleUsers loginActive).token
      = some (sampleSign samplePayload "your-secret-key") ∧
    sampleVerify (some "your-secret-key") (sampleSign samplePayload "your-secret-key")
      = some samplePayload ∧
    authMiddleware sampleVerify none sampleUsers
        (bearerHeader (sampleSign samplePayload "your-secret-key"))
      = .respond 401 "Token is not valid" ∧
    (loginRoute sampleSign sampleCompare (some "s3cret") sampleUsers loginActive).token
      = some (sampleSign samplePayload "s3cret") ∧
    authMiddleware sampleVerify (some "s3cret") sampleUsers
        (bearerHeader (sampleSign samplePayload "s3cret"))
      = .next samplePayload := by
  decide

/-! ### Delete user -/

/-- What the guard of `DELETE /:id` does reject: the id of the caller in the spelling of the
token. -/
theorem deleteUser_same_text (idText : Nat → String) (castId : String → Option Nat)
    (id : Nat) (email : Option String) (isAdmin : Option Bool) (users : List User) :
    deleteUser idText castId { userId := some id, email := email, isAdmin := isAdmin }
        (idText id) users
      = (plainResponse 400 "Cannot delete your own account", users) := by
  simp [deleteUser]

/-- What the guard of `DELETE /:id` lets through: a text that is not the text of the caller's
id in the token and that the query casts to the caller's id deletes the caller. -/
theorem deleteUser_other_text (idText : Nat → String) (castId : String → Option Nat)
    (id : Nat) (email : Option String) (isAdmin : Option Bool) (users : List User)
    (idParam : String) (u : User) (hne : idParam ≠ idText id) (hcast : castId idParam = some id)
    (hu : users.find? (fun x => x.id == id) = some u) :
    deleteUser idText castId { userId := some id, email := email, isAdmin := isAdmin }
        idParam users
      = (plainResponse 200 "User deleted successfully",
         users.eraseP (fun x => x.id == id)) := by
  simp [deleteUser, hne, hcast, hu]

/-- C14: the caller whose id is written `0000000000000000000000a7` in the token sends
`DELETE /api/users/0000000000000000000000A7`. The two texts differ, the guard of line 167 does
not answer 400, the query casts the parameter to the caller's own id, the caller is deleted
and the answer is 200; the same request with the text of the token is answered 400. -/
theorem C14_self_delete_by_other_spelling :
    sampleIdText 167 = "0000000000000000000000a7" ∧
    sampleCastId "0000000000000000000000A7" = some 167 ∧
    sampleHexPayload.userId = some sampleHexUser.id ∧
    deleteUser sampleIdText sampleCastId sampleHexPayload "0000000000000000000000A7"
        [sampleHexUser, sampleInactiveUser]
      = (plainResponse 200 "User deleted successfully", [sampleInactiveUser]) ∧
    deleteUser sampleIdText sampleCastId sampleHexPayload "0000000000000000000000a7"
        [sampleHexUser, sampleInactiveUser]
      = (plainResponse 400 "Cannot delete your own account",
         [sampleHexUser, sampleInactiveUser]) := by
  decide

/-! ### The previews of the forms -/

/-- C15: for `amount > 0`, `rate ≥ 0` and `renewal > start` the preview effects of
`AddRecordForm` and of `EditRecordForm` both set the days, interest and total that the
`pre('save')` hook computes from the same four inputs. -/
theorem C15_form_previews_match_server (prev : Option Preview) (r : LendingRecord)
    (ha : r.amount > 0) (hr : r.rateOfInterest ≥ 0) (hd : r.renewalDate > r.startDate) :
    addRecordFormPreview prev (some r.amount) (some r.rateOfInterest) (some r.startDate)
        (some r.renewalDate)
      = some { days := accrualDays r.startDate r.renewalDate,
               interest := (preSave r).interest, total := (preSave r).total } ∧
    editRecordFormPreview prev (some r.amount) (some r.rateOfInterest) (some r.startDate)
        (some r.renewalDate)
      = some { days := accrualDays r.startDate r.renewalDate,
               interest := (preSave r).interest, total := (preSave r).total } := by
  have hg : r.amount > 0 ∧ r.rateOfInterest ≥ 0 ∧ r.renewalDate > r.startDate := ⟨ha, hr, hd⟩
  constructor
  · simp only [addRecordFormPreview, hg, and_self, if_true]
    rfl
  · simp only [editRecordFormPreview, hg, and_self, if_true]
    rfl

/-- Witness for C15: the sample record. -/
theorem C15_form_previews_match_server_witness :
    addRecordFormPreview none (some sampleRecord.amount) (some sampleRecord.rateOfInterest)
        (some sampleRecord.startDate) (some sampleRecord.renewalDate)
      = some { days := accrualDays sampleRecord.startDate sampleRecord.renewalDate,
               interest := (preSave sampleRecord).interest,
               total := (preSave sampleRecord).total } :=
  (C15_form_previews_match_server none sampleRecord (by decide) (by decide) (by decide)).1

/-- What `calculatePreview` returns on filled fields: the exact quotient as interest, where
the `pre('save')` hook stores that quotient rounded. -/
theorem calculatePreview_unrounded (r : LendingRecord) :
    (calculatePreview (some r.amount) (some r.rateOfInterest) (some r.startDate)
        (some r.renewalDate)).days = accrualDays r.startDate r.renewalDate ∧
    (preSave r).interest
      = (mathRound (calculatePreview (some r.amount) (some r.rateOfInterest)
          (some r.startDate) (some r.renewalDate)).interest : ℤ) := by
  constructor <;> rfl

/-- C16: for amount 100000, rate 15, start 2024-12-01 and renewal 2025-11-30
`calculatePreview` returns the interest 1092000/73 (about 14958.90) and the total
8392000/73, not rounded, while the `pre('save')` hook computes the interest 14959 and
the total 114959 from the same inputs. -/
theorem C16_calculatePreview_not_rounded :
    (calculatePreview (some 100000) (some 15) (some (dateUTC 2024 12 1))
        (some (dateUTC 2025 11 30))).interest = 1092000 / 73 ∧
    (calculatePreview (some 100000) (some 15) (some (dateUTC 2024 12 1))
        (some (dateUTC 2025 11 30))).total = 8392000 / 73 ∧
    accrualInterest 100000 15 (dateUTC 2024 12 1) (dateUTC 2025 11 30) = 14959 ∧
    (1092000 / 73 : ℚ) ≠ 14959 := by
  have hs : dateUTC 2024 12 1 = 1733011200000 := by decide
  have he : dateUTC 2025 11 30 = 1764460800000 := by decide
  have hdays : mathCeil (((dateUTC 2025 11 30 - dateUTC 2024 12 1 : ℤ) : ℚ)
      / ((1000 * 60 * 60 * 24 : ℤ) : ℚ)) = 364 := by
    rw [hs, he]
    norm_num [mathCeil]
  have hdays1 : accrualDays (dateUTC 2024 12 1) (dateUTC 2025 11 30) = 364 := hdays
  refine ⟨?_, ?_, ?_, by norm_num⟩
  · simp only [calculatePreview, hdays]
    norm_num
  · simp only [calculatePreview, hdays]
    norm_num
  · simp only [accrualInterest, hdays1, mathRound]
    rw [Int.floor_eq_iff]
    norm_num

/-! ### What the create route reports -/

/-- A create request with validation errors is answered 400 `Validation failed` with the
errors of every chain, and persists nothing. -/
theorem createRecord_invalid (now : ℤ) (userId : Nat) (b : CreateBody) (db : Store)
    (h : validateCreate b ≠ []) :
    createRecord now userId b db
      = ({ status := 400, message := "Validation failed", errors := validateCreate b,
           record := none }, db) := by
  simp [createRecord, h]

theorem mem_validateCreate_name (b : CreateBody)
    (h : ¬ (1 ≤ (b.name.getD "").length ∧ (b.name.getD "").length ≤ 100)) :
    (⟨"name", "Name is required and must be less than 100 characters"⟩ : ValidationError)
      ∈ validateCreate b := by
  have hl : isLengthOk 1 100 b.name = false := by
    simpa [isLengthOk] using h
  simp [validateCreate, hl]

theorem mem_validateCreate_amount (b : CreateBody)
    (h : ¬ ∃ v, b.amount = .value v ∧ 0 < v ∧ v ≤ 10000000) :
    ∃ e ∈ validateCreate b, e.param = "amount" := by
  have hne : createAmountErrors b.amount ≠ [] := fun hc => h (createAmountErrors_nil _ hc)
  have hp : ∀ e ∈ createAmountErrors b.amount, e.param = "amount" := by
    intro e he
    cases hb : b.amount with
    | missing =>
        rw [hb] at he
        simp only [createAmountErrors, List.mem_singleton] at he
        rw [he]
    | rejected c =>
        rw [hb] at he
        cases c with
        | none =>
            simp only [createAmountErrors, List.mem_singleton] at he
            rw [he]
        | some v =>
            simp only [createAmountErrors, List.mem_cons] at he
            rcases he with he | he
            · rw [he]
            · exact amountCustomErrors_param v e he
    | value v =>
        rw [hb] at he
        exact amountCustomErrors_param v e (by simpa [createAmountErrors] using he)
  obtain ⟨e, he⟩ := List.exists_mem_of_ne_nil _ hne
  exact ⟨e, by simp [validateCreate, he], hp e he⟩

theorem mem_validateCreate_rate (b : CreateBody)
    (h : ¬ ∃ v, b.rateOfInterest = .value v ∧ 0 ≤ v ∧ v ≤ 100) :
    ∃ e ∈ validateCreate b, e.param = "rateOfInterest" := by
  have hne : createRateErrors b.rateOfInterest ≠ [] := fun hc => h (createRateErrors_nil _ hc)
  have hp : ∀ e ∈ createRateErrors b.rateOfInterest, e.param = "rateOfInterest" := by
    intro e he
    cases hb : b.rateOfInterest with
    | missing =>
        rw [hb] at he
        simp only [createRateErrors, List.mem_singleton] at he
        rw [he]
    | rejected c =>
        rw [hb] at he
        cases c with
        | none =>
            simp only [createRateErrors, List.mem_singleton] at he
            rw [he]
        | some v =>
            simp only [createRateErrors, List.mem_cons] at he
            rcases he with he | he
            · rw [he]
            · exact rateCustomErrors_param v e he
    | value v =>
        rw [hb] at he
        exact rateCustomErrors_param v e (by simpa [createRateErrors] using he)
  obtain ⟨e, he⟩ := List.exists_mem_of_ne_nil _ hne
  exact ⟨e, by simp [validateCreate, he], hp e he⟩

theorem mem_validateCreate_startDate (b : CreateBody) (h : ¬ ∃ d, b.startDate = .value d) :
    (⟨"startDate", "Please provide a valid start date"⟩ : ValidationError)
      ∈ validateCreate b := by
  cases hb : b.startDate with
  | value d => exact absurd ⟨d, hb⟩ h
  | missing => simp [validateCreate, requiredDateErrors, hb]
  | malformed => simp [validateCreate, requiredDateErrors, hb]

theorem mem_validateCreate_renewalDate (b : CreateBody)
    (h : ¬ ∃ d, b.renewalDate = .value d) :
    (⟨"renewalDate", "Please provide a valid renewal date"⟩ : ValidationError)
      ∈ validateCreate b := by
  cases hb : b.renewalDate with
  | value d => exact absurd ⟨d, hb⟩ h
  | missing => simp [validateCreate, requiredDateErrors, hb]
  | malformed => simp [validateCreate, requiredDateErrors, hb]

theorem mem_validateCreate_notes (b : CreateBody) (n : String) (hb : b.notes = some n)
    (h : 500 < n.length) :
    (⟨"notes", "Notes cannot exceed 500 characters"⟩ : ValidationError)
      ∈ validateCreate b := by
  have hn : ¬ n.length ≤ 500 := by omega
  simp [validateCreate, hb, hn]

/-- Every violated field-level invariant has an entry in the errors of the chains. -/
theorem mem_validateCreate_of_violatesField (b : CreateBody) (field : String)
    (h : violatesField b field) : ∃ e ∈ validateCreate b, e.param = field := by
  rcases h with ⟨hf, h⟩ | ⟨hf, h⟩ | ⟨hf, h⟩ | ⟨hf, h⟩ | ⟨hf, h⟩ | ⟨hf, n, hb, h⟩
  · exact ⟨_, mem_validateCreate_name b h, hf.symm⟩
  · rw [hf]; exact mem_validateCreate_amount b h
  · rw [hf]; exact mem_validateCreate_rate b h
  · exact ⟨_, mem_validateCreate_startDate b h, hf.symm⟩
  · exact ⟨_, mem_validateCreate_renewalDate b h, hf.symm⟩
  · exact ⟨_, mem_validateCreate_notes b n hb h, hf.symm⟩

/-- A body without a violated field-level invariant has no validation error. -/
theorem validateCreate_nil_of_no_violation (b : CreateBody)
    (h : ∀ field, ¬ violatesField b field) : validateCreate b = [] := by
  have h1 : isLengthOk 1 100 b.name = true := by
    by_contra hc
    refine h "name" (Or.inl ⟨rfl, ?_⟩)
    simpa [isLengthOk] using hc
  have h2 : ∃ v, b.amount = .value v ∧ 0 < v ∧ v ≤ 10000000 := by
    by_contra hc
    exact h "amount" (Or.inr (Or.inl ⟨rfl, hc⟩))
  have h3 : ∃ v, b.rateOfInterest = .value v ∧ 0 ≤ v ∧ v ≤ 100 := by
    by_contra hc
    exact h "rateOfInterest" (Or.inr (Or.inr (Or.inl ⟨rfl, hc⟩)))
  have h4 : ∃ d, b.startDate = .value d := by
    by_contra hc
    exact h "startDate" (Or.inr (Or.inr (Or.inr (Or.inl ⟨rfl, hc⟩))))
  have h5 : ∃ d, b.renewalDate = .value d := by
    by_contra hc
    exact h "renewalDate" (Or.inr (Or.inr (Or.inr (Or.inr (Or.inl ⟨rfl, hc⟩)))))
  have h6 : ∀ n, b.notes = some n → n.length ≤ 500 := by
    intro n hb
    by_contra hc
    exact h "notes" (Or.inr (Or.inr (Or.inr (Or.inr (Or.inr ⟨rfl, n, hb, by omega⟩)))))
  obtain ⟨a, ha, ha0, ha1⟩ := h2
  obtain ⟨r, hr, hr0, hr1⟩ := h3
  obtain ⟨s, hs⟩ := h4
  obtain ⟨e, he⟩ := h5
  have ha0' : ¬ a ≤ 0 := not_le.mpr ha0
  have ha1' : ¬ a > 10000000 := not_lt.mpr ha1
  have hr0' : ¬ r < 0 := not_lt.mpr hr0
  have hr1' : ¬ r > 100 := not_lt.mpr hr1
  cases hb : b.notes with
  | none =>
      simp [validateCreate, h1, ha, hr, hs, he, hb, createAmountErrors, createRateErrors,
        amountCustomErrors, rateCustomErrors, requiredDateErrors, ha0', ha1', hr0', hr1']
  | some n =>
      simp [validateCreate, h1, ha, hr, hs, he, hb, createAmountErrors, createRateErrors,
        amountCustomErrors, rateCustomErrors, requiredDateErrors, ha0', ha1', hr0', hr1',
        h6 n hb]

/-- C17 (counterexample): a create request with an empty name and a renewal date equal to its
start date violates the name invariant and the date order; it is answered 400 `Validation
failed` with the name error as the only entry, the date order is not among the errors. -/
theorem C17_date_order_not_listed :
    violatesField blankNameSameDatesBody "name" ∧
    violatesDateOrder blankNameSameDatesBody ∧
    (createRecord (dateUTC 2025 1 15) 7 blankNameSameDatesBody []).1
      = { status := 400, message := "Validation failed",
          errors := [⟨"name", "Name is required and must be less than 100 characters"⟩],
          record := none } ∧
    (createRecord (dateUTC 2025 1 15) 7 blankNameSameDatesBody []).2 = [] := by
  refine ⟨Or.inl ⟨rfl, by decide⟩, ⟨dateUTC 2025 1 15, dateUTC 2025 1 15, rfl, rfl, le_refl _⟩,
    by decide, by decide⟩

/-- C17 (amended): every violated field-level invariant (name length, amount, rate, well
formed dates, notes length) has an entry in the errors of the 400 `Validation failed`
response, and nothing is persisted. The date order is not part of that list: it is checked
only for a request without field-level violation, which is then answered 400 with the single
message `Renewal date must be after start date`, nothing being persisted. -/
theorem C17_create_reports_field_violations (now : ℤ) (userId : Nat) (b : CreateBody)
    (db : Store) :
    (∀ field, violatesField b field →
      (createRecord now userId b db).1.status = 400 ∧
      (createRecord now userId b db).1.message = "Validation failed" ∧
      (∃ e ∈ (createRecord now userId b db).1.errors, e.param = field) ∧
      (createRecord now userId b db).2 = db) ∧
    ((∀ field, ¬ violatesField b field) → violatesDateOrder b →
      createRecord now userId b db
        = (plainResponse 400 "Renewal date must be after start date", db)) := by
  constructor
  · intro field hv
    obtain ⟨e, he, hp⟩ := mem_validateCreate_of_violatesField b field hv
    have hne : validateCreate b ≠ [] := List.ne_nil_of_mem he
    rw [createRecord_invalid now userId b db hne]
    exact ⟨rfl, rfl, ⟨e, he, hp⟩, rfl⟩
  · intro hno ⟨s, e, hs, he, hle⟩
    have hval := validateCreate_nil_of_no_violation b hno
    obtain ⟨-, ⟨a, hae, -, -⟩, ⟨r, hre, -, -⟩, -, -, -⟩ := validateCreate_nil b hval
    have hge : s ≥ e := hle
    simp [createRecord, hval, hae, hre, hs, he, hge]

/-- Witness for C17 (amended): the request with an empty name. -/
theorem C17_create_reports_field_violations_witness :
    (createRecord (dateUTC 2025 1 15) 7 blankNameSameDatesBody []).1.status = 400 ∧
    (createRecord (dateUTC 2025 1 15) 7 blankNameSameDatesBody []).1.message
      = "Validation failed" ∧
    (∃ e ∈ (createRecord (dateUTC 2025 1 15) 7 blankNameSameDatesBody []).1.errors,
      e.param = "name") ∧
    (createRecord (dateUTC 2025 1 15) 7 blankNameSameDatesBody []).2 = [] :=
  (C17_create_reports_field_violations (dateUTC 2025 1 15) 7 blankNameSameDatesBody []).1
    "name" (Or.inl ⟨rfl, by decide⟩)

/-- A create request that passes the validation chains and whose document passes the schema
validators, with a renewal date after its start date and a start date not before `now` minus
24 hours, is answered 201; the document it stores is the one the `pre('save')` hook makes of
the request. -/
theorem createRecord_accept (now : ℤ) (userId : Nat) (b : CreateBody) (db : Store) (s e : ℤ)
    (hval : validateCreate b = []) (hname : jsTrim (b.name.getD "") ≠ "")
    (hname16 : utf16Length (jsTrim (b.name.getD "")) ≤ 100)
    (hnotes16 : utf16Length (notesOrEmpty b.notes) ≤ 500)
    (hs : b.startDate = .value s) (he : b.renewalDate = .value e) (hlt : s < e)
    (hnow : ¬ s < now - 86400000) :
    (createRecord now userId b db).1.status = 201 ∧
    ∃ saved, (createRecord now userId b db).1.record = some saved ∧
      (createRecord now userId b db).2 = db ++ [saved] ∧
      saved.startDate = s ∧ saved.renewalDate = e ∧ accrualConsistent saved := by
  obtain ⟨-, ⟨a, hae, ha0, -⟩, ⟨r, hre, hr0, hr1⟩, -, -, -⟩ :=
    validateCreate_nil b hval
  have hge : ¬ s ≥ e := not_le.mpr hlt
  have hnow1 : ¬ s < now - 24 * 60 * 60 * 1000 := by omega
  have hsv := created_schemaValid b (freshId db) userId a r s e hname hname16 ha0 hr0 hr1
    hnotes16
  simp only [createRecord, hval, hae, hre, hs, he]
  simp only [ne_eq, not_true_eq_false, if_false, hge, hnow1, save, hsv, if_true]
  exact ⟨trivial, _, rfl, rfl, rfl, rfl, accrualConsistent_preSave _⟩

/-- C18: a create request that passes the validation chains and whose document passes the
schema validators (a name that is not blank after `trim` and has at most 100 UTF-16 code units,
notes of at most 500 UTF-16 code units), with a renewal date after its start date, is answered
400 with nothing persisted exactly when its start date is earlier than `now` minus 24 hours;
otherwise, in particular for a start date exactly 24 hours before `now`, it is answered 201 and
persisted. -/
theorem C18_backdated_start (now : ℤ) (userId : Nat) (b : CreateBody) (db : Store) (s e : ℤ)
    (hval : validateCreate b = []) (hname : jsTrim (b.name.getD "") ≠ "")
    (hname16 : utf16Length (jsTrim (b.name.getD "")) ≤ 100)
    (hnotes16 : utf16Length (notesOrEmpty b.notes) ≤ 500)
    (hs : b.startDate = .value s) (he : b.renewalDate = .value e) (hlt : s < e) :
    (((createRecord now userId b db).1.status = 400 ∧ (createRecord now userId b db).2 = db)
      ↔ s < now - 86400000) ∧
    (¬ s < now - 86400000 →
      (createRecord now userId b db).1.status = 201 ∧
      ∃ saved, (createRecord now userId b db).2 = db ++ [saved]) ∧
    (s = now - 86400000 → (createRecord now userId b db).1.status = 201) := by
  have hacc : ¬ s < now - 86400000 →
      (createRecord now userId b db).1.status = 201 ∧
      ∃ saved, (createRecord now userId b db).2 = db ++ [saved] := by
    intro hnow
    obtain ⟨h1, saved, -, h2, -⟩ :=
      createRecord_accept now userId b db s e hval hname hname16 hnotes16 hs he hlt hnow
    exact ⟨h1, saved, h2⟩
  refine ⟨⟨?_, ?_⟩, hacc, fun heq => (hacc (by omega)).1⟩
  · rintro ⟨h400, -⟩
    by_contra hnow
    rw [(hacc hnow).1] at h400
    exact absurd h400 (by decide)
  · intro hback
    obtain ⟨-, ⟨a, hae, -, -⟩, ⟨r, hre, -, -⟩, -, -, -⟩ := validateCreate_nil b hval
    have hge : ¬ s ≥ e := not_le.mpr hlt
    simp [createRecord, hval, hae, hre, hs, he, hge, hback, plainResponse]

/-- Witness for C18: the sample request, served exactly 24 hours after its start date, is
accepted; the request with a start date one day earlier, served one millisecond later, is
rejected. -/
theorem C18_backdated_start_witness :
    (createRecord (dateUTC 2025 1 15 + 86400000) 7 sampleCreateBody []).1.status = 201 ∧
    (createRecord (dateUTC 2025 1 15 + 1) 7 sampleBackdatedBody []).1.status = 400 :=
  ⟨(C18_backdated_start (dateUTC 2025 1 15 + 86400000) 7 sampleCreateBody []
      (dateUTC 2025 1 15) (dateUTC 2026 1 15) (by decide) (by decide) (by decide) (by decide)
      rfl rfl (by decide)).2.2 (by decide),
   ((C18_backdated_start (dateUTC 2025 1 15 + 1) 7 sampleBackdatedBody []
      (dateUTC 2025 1 14) (dateUTC 2026 1 15) (by decide) (by decide) (by decide) (by decide)
      rfl rfl (by decide)).1.mpr (by decide)).1⟩

/-! ### The bound on the amount and the frame of an update -/

theorem mem_updateFirst (id : Nat) (f : LendingRecord → LendingRecord) (db : Store)
    (x : LendingRecord) (h : x ∈ updateFirst id f db) : x ∈ db ∨ ∃ r ∈ db, x = f r := by
  induction db with
  | nil => simp [updateFirst] at h
  | cons y ys ih =>
      unfold updateFirst at h
      split_ifs at h
      · rcases List.mem_cons.mp h with h | h
        · exact Or.inr ⟨y, List.mem_cons_self _ _, h⟩
        · exact Or.inl (List.mem_cons_of_mem _ h)
      · rcases List.mem_cons.mp h with h | h
        · exact Or.inl (h ▸ List.mem_cons_self _ _)
        · rcases ih h with h | ⟨r, hr, h⟩
          · exact Or.inl (List.mem_cons_of_mem _ h)
          · exact Or.inr ⟨r, List.mem_cons_of_mem _ hr, h⟩

/-- The store after `PUT /:id`: the store as it was, or the `$set` applied to the first
document with the id, for a body without validation errors. -/
theorem updateRecord_store (id : Nat) (b : UpdateBody) (db : Store) :
    (updateRecord id b db).2 = db ∨
    (validateUpdate b = [] ∧
      (updateRecord id b db).2 = updateFirst id (applyUpdate (buildUpdateData b)) db) := by
  unfold updateRecord
  simp only
  split_ifs with h1 h2
  · exact Or.inl rfl
  · exact Or.inl rfl
  · unfold findByIdAndUpdate
    split_ifs
    · cases findById db id with
      | none => exact Or.inl rfl
      | some r => exact Or.inr ⟨not_not.mp h1, rfl⟩
    · exact Or.inl rfl

/-- The lower bound of the amount is kept by every update. -/
theorem updateRecord_amount_pos (id : Nat) (b : UpdateBody) (db : Store)
    (h : ∀ x ∈ db, 0 < x.amount) : ∀ x ∈ (updateRecord id b db).2, 0 < x.amount := by
  intro x hx
  rcases updateRecord_store id b db with hs | ⟨hval, hs⟩
  · rw [hs] at hx; exact h x hx
  · rw [hs] at hx
    rcases mem_updateFirst _ _ _ _ hx with hx | ⟨r, hr, hx⟩
    · exact h x hx
    · obtain ⟨-, ha, -⟩ := validateUpdate_nil b hval
      rw [hx]
      rcases ha with ha | ⟨v, ha, hv⟩
      · simp only [applyUpdate, buildUpdateData, ha, Option.getD_none]
        exact h r hr
      · have hv0 : v ≠ 0 := ne_of_gt hv
        simp only [applyUpdate, buildUpdateData, ha, hv0, ne_eq, not_false_eq_true, if_true,
          Option.getD_some]
        exact hv

/-- The create path keeps both bounds of the amount. -/
theorem createRecord_amount_bounds (now : ℤ) (userId : Nat) (b : CreateBody) (db : Store)
    (h : ∀ x ∈ db, 0 < x.amount ∧ x.amount ≤ 10000000) :
    ∀ x ∈ (createRecord now userId b db).2, 0 < x.amount ∧ x.amount ≤ 10000000 := by
  by_cases hval : validateCreate b = []
  · obtain ⟨-, ⟨a, hae, ha0, ha1⟩, ⟨r, hre, -, -⟩, ⟨s, hs⟩, ⟨e, he⟩, -⟩ :=
      validateCreate_nil b hval
    simp only [createRecord, hval, hae, hre, hs, he]
    simp only [ne_eq, not_true_eq_false, if_false, save]
    split_ifs
    · exact h
    · exact h
    · intro x hx
      rcases List.mem_append.mp hx with hx | hx
      · exact h x hx
      · rw [List.mem_singleton.mp hx]
        exact ⟨ha0, ha1⟩
    · exact h
  · rw [createRecord_invalid now userId b db hval]
    exact h

/-- C19: the sample record is created by the sample request on the empty collection; an update
of it that supplies only `amount: 20000000` passes validation, is answered 200 and leaves the
stored amount at 20000000, above the bound of 10,000,000. -/
theorem C19_update_accepts_amount_above_bound :
    validateUpdate bigAmountBody = [] ∧
    (updateRecord 1 bigAmountBody [sampleRecord]).1.status = 200 ∧
    serveAll [] [.create (dateUTC 2025 1 15) 7 sampleCreateBody, .update 1 bigAmountBody]
      = [{ sampleRecord with amount := 20000000 }] ∧
    ¬ (({ sampleRecord with amount := 20000000 } : LendingRecord).amount ≤ 10000000) := by
  refine ⟨by decide, by decide, ?_, by decide⟩
  have hu : (updateRecord 1 bigAmountBody [sampleRecord]).2
      = [{ sampleRecord with amount := 20000000 }] := by decide
  simp only [serveAll, List.foldl_cons, List.foldl_nil, serve, createRecord_sample, hu]

theorem findById_updateFirst_ne (id j : Nat) (f : LendingRecord → LendingRecord)
    (db : Store) (hid : ∀ x, (f x).id = x.id) (hj : j ≠ id) :
    findById (updateFirst id f db) j = findById db j := by
  induction db with
  | nil => rfl
  | cons x xs ih =>
      by_cases hx : x.id = id
      · have hxj : (x.id == j) = false := by
          simp only [beq_eq_false_iff_ne, ne_eq]
          intro h
          exact hj (h ▸ hx)
        have hfj : ((f x).id == j) = false := by rw [hid]; exact hxj
        have hb : (x.id == id) = true := by simpa using hx
        simp only [findById, updateFirst, hb, if_true, List.find?_cons, hxj, hfj]
      · have hb : (x.id == id) = false := by simpa using hx
        simp only [updateFirst, hb, Bool.false_eq_true, if_false, findById, List.find?_cons]
        cases hxj : (x.id == j) with
        | true => rfl
        | false => exact ih

theorem map_updateFirst (id : Nat) (f : LendingRecord → LendingRecord) (db : Store)
    (g : LendingRecord → Nat × Nat) (hg : ∀ x, g (f x) = g x) :
    (updateFirst id f db).map g = db.map g := by
  induction db with
  | nil => rfl
  | cons x xs ih =>
      unfold updateFirst
      split_ifs
      · simp [hg]
      · simp [ih]

/-- C20: an update of an existing record that is accepted (answered 200) returns and stores a
record in which every one of name, amount, rate, start date, renewal date, status and notes
that the request does not supply has its stored value, in which the notes are the supplied
ones when the request supplies notes, the empty string included, and whose id and creator are
the stored ones; the other records are as they were, and the ids and creators of the stored
records, in their order, are unchanged. -/
theorem C20_update_frame (id : Nat) (b : UpdateBody) (db : Store) (r : LendingRecord)
    (hfind : findById db id = some r) (hacc : (updateRecord id b db).1.status = 200) :
    (∃ r1, (updateRecord id b db).1.record = some r1 ∧
      findById (updateRecord id b db).2 id = some r1 ∧
      (b.name = none → r1.name = r.name) ∧
      (b.amount = .missing → r1.amount = r.amount) ∧
      (b.rateOfInterest = .missing → r1.rateOfInterest = r.rateOfInterest) ∧
      (b.startDate = .missing → r1.startDate = r.startDate) ∧
      (b.renewalDate = .missing → r1.renewalDate = r.renewalDate) ∧
      (b.status = none → r1.status = r.status) ∧
      (b.notes = none → r1.notes = r.notes) ∧
      (∀ n, b.notes = some n → r1.notes = some n) ∧
      r1.id = r.id ∧ r1.createdBy = r.createdBy) ∧
    (∀ j, j ≠ id → findById (updateRecord id b db).2 j = findById db j) ∧
    (updateRecord id b db).2.map (fun x => (x.id, x.createdBy))
      = db.map (fun x => (x.id, x.createdBy)) := by
  have hval : validateUpdate b = [] := by
    by_contra hc
    simp [updateRecord, hc] at hacc
  have hdates : (match (buildUpdateData b).startDate, (buildUpdateData b).renewalDate with
      | some s, some e => decide (e ≤ s)
      | _, _ => false) = false := by
    by_contra hc
    rw [Bool.not_eq_false] at hc
    simp only [updateRecord, hval, hc] at hacc
    simp [plainResponse] at hacc
  have hok : updateValidatorsOk (buildUpdateData b) = true := by
    by_contra hc
    simp [updateRecord, hval, hdates, findByIdAndUpdate, hc, plainResponse] at hacc
  rw [updateRecord_accept id b db r hval hok hfind hdates]
  refine ⟨⟨_, rfl, findById_updateFirst id _ db r (fun _ => rfl) hfind, ?_, ?_, ?_, ?_, ?_,
    ?_, ?_, ?_, rfl, rfl⟩, ?_, ?_⟩
  · intro h; simp [applyUpdate, buildUpdateData, h]
  · intro h; simp [applyUpdate, buildUpdateData, h]
  · intro h; simp [applyUpdate, buildUpdateData, h]
  · intro h; simp [applyUpdate, buildUpdateData, h]
  · intro h; simp [applyUpdate, buildUpdateData, h]
  · intro h; simp [applyUpdate, buildUpdateData, h]
  · intro h; simp [applyUpdate, buildUpdateData, h]
  · intro n h; simp [applyUpdate, buildUpdateData, h]
  · intro j hj
    exact findById_updateFirst_ne id j _ db (fun _ => rfl) hj
  · exact map_updateFirst id _ db _ (fun _ => rfl)

/-- Witness for C20: an update of the sample record that supplies a name, a status and empty
notes is answered 200; the amount keeps its stored value and the notes become the empty
string. -/
theorem C20_update_frame_witness :
    findById [sampleRecord] 1 = some sampleRecord ∧
    (updateRecord 1 nameStatusNotesBody [sampleRecord]).1.status = 200 ∧
    ∃ r1, (updateRecord 1 nameStatusNotesBody [sampleRecord]).1.record = some r1 ∧
      r1.amount = sampleRecord.amount ∧ r1.notes = some "" ∧ r1.id = sampleRecord.id :=
  ⟨by decide, by decide,
    (C20_update_frame 1 nameStatusNotesBody [sampleRecord] sampleRecord (by decide)
      (by decide)).1.elim
      (fun r1 h => ⟨r1, h.1, h.2.2.2.1 rfl, h.2.2.2.2.2.2.2.2.2.1 "" rfl,
        h.2.2.2.2.2.2.2.2.2.2.1⟩)⟩

/-! ### The range of the accrual and the missing input check -/

theorem mathRound_nonneg (x : ℚ) (hx : 0 ≤ x) : 0 ≤ mathRound x := by
  unfold mathRound
  exact Int.floor_nonneg.mpr (by linarith)

theorem mathRound_nonpos (x : ℚ) (hx : x ≤ 0) : mathRound x ≤ 0 := by
  unfold mathRound
  have h : ⌊x + 1 / 2⌋ < 1 := by
    rw [Int.floor_lt]
    push_cast
    linarith
  omega

theorem accrualDays_nonpos (s e : ℤ) (h : e ≤ s) : accrualDays s e ≤ 0 := by
  unfold accrualDays mathCeil
  rw [Int.ceil_le]
  have h1 : ((e - s : ℤ) : ℚ) ≤ 0 := by exact_mod_cast sub_nonpos.mpr h
  have h2 : (0 : ℚ) < ((msPerDay : ℤ) : ℚ) := by norm_num [msPerDay]
  simpa using div_nonpos_of_nonpos_of_nonneg h1 h2.le

/-- C26: for `amount > 0`, `0 ≤ rate ≤ 100` and `renewalDate > startDate` the hook computes
at least one day, a non-negative interest and a total that is at least the amount. -/
theorem C26_accrual_range (r : LendingRecord) (ha : 0 < r.amount) (hr0 : 0 ≤ r.rateOfInterest)
    (_hr1 : r.rateOfInterest ≤ 100) (hd : r.startDate < r.renewalDate) :
    1 ≤ accrualDays r.startDate r.renewalDate ∧
    0 ≤ (preSave r).interest ∧
    r.amount ≤ (preSave r).total ∧ (preSave r).amount = r.amount := by
  have hpos := accrualDays_pos r.startDate r.renewalDate hd
  have hx : 0 ≤ r.amount * r.rateOfInterest
      * (((accrualDays r.startDate r.renewalDate : ℤ) : ℚ) / 365) / 100 := by
    have : (0 : ℚ) < ((accrualDays r.startDate r.renewalDate : ℤ) : ℚ) := by
      exact_mod_cast hpos
    positivity
  have hi : (0 : ℚ) ≤ ((accrualInterest r.amount r.rateOfInterest r.startDate
      r.renewalDate : ℤ) : ℚ) := by
    have := mathRound_nonneg _ hx
    simp only [accrualInterest]
    exact_mod_cast this
  refine ⟨hpos, hi, ?_, rfl⟩
  simp only [preSave]
  linarith

/-- Witness for C26: the sample record. -/
theorem C26_accrual_range_witness :
    1 ≤ accrualDays sampleRecord.startDate sampleRecord.renewalDate ∧
    0 ≤ (preSave sampleRecord).interest ∧
    sampleRecord.amount ≤ (preSave sampleRecord).total :=
  let h := C26_accrual_range sampleRecord (by decide) (by decide) (by decide) (by decide)
  ⟨h.1, h.2.1, h.2.2.1⟩

theorem accrualDaysDouble_nonpos (s e : ℤ) (h : e ≤ s) : accrualDaysDouble s e ≤ 0 := by
  unfold accrualDaysDouble mathCeil
  rw [Int.ceil_le]
  have h1 : ((e - s : ℤ) : ℚ) ≤ 0 := by exact_mod_cast sub_nonpos.mpr h
  have h2 : (0 : ℚ) < ((msPerDay : ℤ) : ℚ) := by norm_num [msPerDay]
  have h3 := roundToDouble_nonpos _ h1
  have h4 := roundToDouble_nonpos _ (div_nonpos_of_nonpos_of_nonneg h3 h2.le)
  simpa using h4

theorem accrualInterest_nonpos (a r : ℚ) (s e : ℤ) (ha : 0 ≤ a) (hr : 0 ≤ r) (h : e ≤ s) :
    accrualInterest a r s e ≤ 0 := by
  have hdays : ((accrualDays s e : ℤ) : ℚ) ≤ 0 := by exact_mod_cast accrualDays_nonpos s e h
  have h3 : ((accrualDays s e : ℤ) : ℚ) / 365 ≤ 0 :=
    div_nonpos_of_nonpos_of_nonneg hdays (by norm_num)
  have h4 := mul_nonpos_of_nonneg_of_nonpos (mul_nonneg ha hr) h3
  exact mathRound_nonpos _ (div_nonpos_of_nonpos_of_nonneg h4 (by norm_num))

theorem accrualInterestDouble_nonpos (a r : ℚ) (s e : ℤ) (ha : 0 ≤ a) (hr : 0 ≤ r)
    (h : e ≤ s) : accrualInterestDouble a r s e ≤ 0 := by
  have hdays : ((accrualDaysDouble s e : ℤ) : ℚ) ≤ 0 := by
    exact_mod_cast accrualDaysDouble_nonpos s e h
  have h1 := roundToDouble_nonneg _ (mul_nonneg ha hr)
  have h2 := roundToDouble_nonpos _
    (div_nonpos_of_nonpos_of_nonneg hdays (by norm_num : (0 : ℚ) ≤ 365))
  have h3 := roundToDouble_nonpos _ (mul_nonpos_of_nonneg_of_nonpos h1 h2)
  have h4 := roundToDouble_nonpos _
    (div_nonpos_of_nonpos_of_nonneg h3 (by norm_num : (0 : ℚ) ≤ 100))
  exact mathRound_nonpos _ h4

theorem accrualInterest_zero_amount (r : ℚ) (s e : ℤ) : accrualInterest 0 r s e = 0 := by
  simp only [accrualInterest, mathRound, zero_mul, zero_div, zero_add]
  rw [Int.floor_eq_iff]
  norm_num

theorem accrualInterestDouble_zero_amount (r : ℚ) (s e : ℤ) :
    accrualInterestDouble 0 r s e = 0 := by
  have h0 : roundToDouble 0 = 0 := by simp [roundToDouble]
  simp only [accrualInterestDouble, mathRound, zero_mul, zero_div, zero_add, h0]
  rw [Int.floor_eq_iff]
  norm_num

/-- A negative amount and a rate outside the range from 0 to 100 are refused by the
validators of `save()`. -/
theorem schemaValid_out_of_range (r : LendingRecord)
    (h : r.amount < 0 ∨ r.rateOfInterest < 0 ∨ 100 < r.rateOfInterest) :
    schemaValid (applySetters r) = false := by
  simp only [schemaValid, applySetters, Bool.and_eq_false_iff, decide_eq_false_iff_not, not_le]
  rcases h with h | h | h
  · exact Or.inl (Or.inl (Or.inl (Or.inl (Or.inr h))))
  · exact Or.inl (Or.inl (Or.inl (Or.inr h)))
  · exact Or.inl (Or.inl (Or.inr h))

/-- A create request without validation errors whose renewal date is not after its start date
is answered 400 and persists nothing. -/
theorem createRecord_reject_date_order (now : ℤ) (userId : Nat) (b : CreateBody) (db : Store)
    (s e : ℤ) (hval : validateCreate b = []) (hs : b.startDate = .value s)
    (he : b.renewalDate = .value e) (hle : e ≤ s) :
    (createRecord now userId b db).1.status = 400 ∧ (createRecord now userId b db).2 = db := by
  obtain ⟨-, ⟨a, hae, -, -⟩, ⟨r, hre, -, -⟩, -, -, -⟩ := validateCreate_nil b hval
  have hge : s ≥ e := hle
  simp [createRecord, hval, hae, hre, hs, he, hge, plainResponse]

/-- C23 (counterexample): the record of 50000 at 12 percent whose renewal date is a year
before its start date passes `save()`: the hook signals nothing and stores the interest -6000
and the total 44000. -/
theorem C23_reversed_dates_saved :
    sampleReversedRecord.renewalDate ≤ sampleReversedRecord.startDate ∧
    save sampleReversedRecord = .ok (preSave sampleReversedRecord) ∧
    accrualDays sampleReversedRecord.startDate sampleReversedRecord.renewalDate = -365 ∧
    (preSave sampleReversedRecord).interest = -6000 ∧
    (preSave sampleReversedRecord).total = 44000 := by
  have hs : sampleReversedRecord.startDate = 1768435200000 := by decide
  have he : sampleReversedRecord.renewalDate = 1736899200000 := by decide
  have ha : sampleReversedRecord.amount = 50000 := rfl
  have hr : sampleReversedRecord.rateOfInterest = 12 := rfl
  have hdays :
      accrualDays sampleReversedRecord.startDate sampleReversedRecord.renewalDate = -365 := by
    rw [hs, he]
    simp only [accrualDays, mathCeil, msPerDay]
    rw [Int.ceil_eq_iff]
    norm_num
  have hint : accrualInterest sampleReversedRecord.amount sampleReversedRecord.rateOfInterest
      sampleReversedRecord.startDate sampleReversedRecord.renewalDate = -6000 := by
    simp only [accrualInterest, hdays, mathRound, ha, hr]
    rw [Int.floor_eq_iff]
    norm_num
  have hset : applySetters sampleReversedRecord = sampleReversedRecord := by decide
  have hv : schemaValid sampleReversedRecord = true := by decide
  refine ⟨by decide, by simp [save, hset, hv], hdays, ?_, ?_⟩
  · simp only [preSave, hint]; norm_num
  · simp only [preSave, hint]
    rw [ha]
    norm_num

/-- C23 (amended): the accrual computation has no input check and signals no error. Every
record that passes the schema validators is saved, whatever the order of its dates. For
`renewalDate ≤ startDate`, an amount of at least 0 and a rate of at least 0, the days and the
interest that the hook computes are at most 0, in exact as in double-precision arithmetic, and
the total is at most the amount. Invalid inputs are refused elsewhere: `save()` answers a
validation error for a negative amount and for a rate below 0 or above 100, while a record
with the amount 0 that passes the validators is stored with interest 0 and total 0; the create
route answers 400 and persists nothing for a request without validation errors whose renewal
date is not after its start date. -/
theorem C23_hook_has_no_input_check (r : LendingRecord) :
    (schemaValid (applySetters r) = true →
      save r = .ok (preSave (applySetters r)) ∧
      saveDouble r = .ok (preSaveDouble (applySetters r))) ∧
    (0 ≤ r.amount → 0 ≤ r.rateOfInterest → r.renewalDate ≤ r.startDate →
      accrualDays r.startDate r.renewalDate ≤ 0 ∧ (preSave r).interest ≤ 0 ∧
      (preSave r).total ≤ r.amount ∧
      accrualDaysDouble r.startDate r.renewalDate ≤ 0 ∧ (preSaveDouble r).interest ≤ 0) ∧
    (r.amount < 0 ∨ r.rateOfInterest < 0 ∨ 100 < r.rateOfInterest →
      save r = .error "ValidationError" ∧ saveDouble r = .error "ValidationError") ∧
    (r.amount = 0 → schemaValid (applySetters r) = true →
      ∃ saved, save r = .ok saved ∧ saveDouble r = .ok saved ∧
        saved.interest = 0 ∧ saved.total = 0) ∧
    (∀ (now : ℤ) (userId : Nat) (b : CreateBody) (db : Store) (s e : ℤ),
      validateCreate b = [] → b.startDate = .value s → b.renewalDate = .value e → e ≤ s →
      (createRecord now userId b db).1.status = 400 ∧
      (createRecord now userId b db).2 = db) := by
  refine ⟨fun hv => ⟨by simp [save, hv], by simp [saveDouble, hv]⟩, ?_, ?_, ?_, ?_⟩
  · intro ha hr hd
    have hi : ((accrualInterest r.amount r.rateOfInterest r.startDate
        r.renewalDate : ℤ) : ℚ) ≤ 0 := by
      exact_mod_cast accrualInterest_nonpos _ _ _ _ ha hr hd
    have hi2 : ((accrualInterestDouble r.amount r.rateOfInterest r.startDate
        r.renewalDate : ℤ) : ℚ) ≤ 0 := by
      exact_mod_cast accrualInterestDouble_nonpos _ _ _ _ ha hr hd
    refine ⟨accrualDays_nonpos _ _ hd, hi, ?_, accrualDaysDouble_nonpos _ _ hd, hi2⟩
    simp only [preSave]
    linarith
  · intro h
    have hv := schemaValid_out_of_range r h
    exact ⟨by simp [save, hv], by simp [saveDouble, hv]⟩
  · intro ha hv
    have h0 : roundToDouble 0 = 0 := by simp [roundToDouble]
    have hp : preSave (applySetters r) = preSaveDouble (applySetters r) := by
      simp [preSave, preSaveDouble, applySetters, ha, accrualInterest_zero_amount,
        accrualInterestDouble_zero_amount, h0]
    refine ⟨preSave (applySetters r), by simp [save, hv], by simp [saveDouble, hv, hp], ?_, ?_⟩
    · simp [preSave, applySetters, ha, accrualInterest_zero_amount]
    · simp [preSave, applySetters, ha, accrualInterest_zero_amount]
  · intro now userId b db s e hval hs he hle
    exact createRecord_reject_date_order now userId b db s e hval hs he hle

/-- Witness for C23 (amended): the reversed sample record is saved with an interest that is
not positive, and the sample record with the amount 0 is saved with interest 0. -/
theorem C23_hook_has_no_input_check_witness :
    schemaValid (applySetters sampleReversedRecord) = true ∧
    sampleReversedRecord.renewalDate ≤ sampleReversedRecord.startDate ∧
    save sampleReversedRecord = .ok (preSave (applySetters sampleReversedRecord)) ∧
    (preSave sampleReversedRecord).interest ≤ 0 ∧
    (∃ saved, save sampleZeroRecord = .ok saved ∧ saveDouble sampleZeroRecord = .ok saved ∧
      saved.interest = 0 ∧ saved.total = 0) :=
  ⟨by decide, by decide,
    ((C23_hook_has_no_input_check sampleReversedRecord).1 (by decide)).1,
    ((C23_hook_has_no_input_check sampleReversedRecord).2.1 (by decide) (by decide)
      (by decide)).2.1,
    (C23_hook_has_no_input_check sampleZeroRecord).2.2.2.1 rfl (by decide)⟩

/-! ### The worked examples in double precision -/

theorem roundToDouble_of_int (q : ℚ) (n : ℤ) (hq : q = (n : ℚ)) (h : |n| < 2 ^ 53) :
    roundToDouble q = (n : ℚ) := by
  rw [hq]
  exact roundToDouble_intCast n h

/-- The days of the hook in double precision between two time values that are a whole number
of days apart, in either order. -/
theorem accrualDaysDouble_whole (s e d : ℤ) (hd : e - s = d * 86400000) (h : |e - s| < 2 ^ 53) :
    accrualDaysDouble s e = d := by
  have hms : ((msPerDay : ℤ) : ℚ) = 86400000 := by norm_num [msPerDay]
  have hd53 : |d| < 2 ^ 53 := by
    rw [abs_lt] at h ⊢
    constructor <;> omega
  unfold accrualDaysDouble mathCeil
  rw [roundToDouble_intCast _ h, hms, hd]
  have hq : (((d * 86400000 : ℤ) : ℚ) / 86400000) = (d : ℚ) := by
    push_cast
    field_simp
  rw [roundToDouble_of_int _ d hq hd53, Int.ceil_intCast]

/-- In double precision as in exact arithmetic, 50000 at 12 percent over the 365 days from
2025-01-15 to 2026-01-15 accrues 6000, and at 24 percent 12000. -/
theorem accrualInterestDouble_sample :
    accrualInterestDouble 50000 12 (dateUTC 2025 1 15) (dateUTC 2026 1 15) = 6000 ∧
    accrualInterestDouble 50000 24 (dateUTC 2025 1 15) (dateUTC 2026 1 15) = 12000 := by
  have hdays : accrualDaysDouble (dateUTC 2025 1 15) (dateUTC 2026 1 15) = 365 :=
    accrualDaysDouble_whole _ _ 365 (by decide) (by decide)
  have hy : roundToDouble (((365 : ℤ) : ℚ) / 365) = 1 := by
    have h := roundToDouble_of_int (((365 : ℤ) : ℚ) / 365) 1 (by norm_num) (by norm_num)
    simpa using h
  constructor
  · have h1 : roundToDouble ((50000 : ℚ) * 12) = 600000 := by
      have h := roundToDouble_of_int ((50000 : ℚ) * 12) 600000 (by norm_num) (by norm_num)
      simpa using h
    have h2 : roundToDouble ((600000 : ℚ) * 1) = 600000 := by
      have h := roundToDouble_of_int ((600000 : ℚ) * 1) 600000 (by norm_num) (by norm_num)
      simpa using h
    have h3 : roundToDouble ((600000 : ℚ) / 100) = 6000 := by
      have h := roundToDouble_of_int ((600000 : ℚ) / 100) 6000 (by norm_num) (by norm_num)
      simpa using h
    simp only [accrualInterestDouble, hdays, hy, h1, h2, h3, mathRound]
    rw [Int.floor_eq_iff]
    norm_num
  · have h1 : roundToDouble ((50000 : ℚ) * 24) = 1200000 := by
      have h := roundToDouble_of_int ((50000 : ℚ) * 24) 1200000 (by norm_num) (by norm_num)
      simpa using h
    have h2 : roundToDouble ((1200000 : ℚ) * 1) = 1200000 := by
      have h := roundToDouble_of_int ((1200000 : ℚ) * 1) 1200000 (by norm_num) (by norm_num)
      simpa using h
    have h3 : roundToDouble ((1200000 : ℚ) / 100) = 12000 := by
      have h := roundToDouble_of_int ((1200000 : ℚ) / 100) 12000 (by norm_num) (by norm_num)
      simpa using h
    simp only [accrualInterestDouble, hdays, hy, h1, h2, h3, mathRound]
    rw [Int.floor_eq_iff]
    norm_num

/-- In double precision as in exact arithmetic, 100000 at 15 percent over the 364 days from
2024-12-01 to 2025-11-30 accrues 14959: the quotient is rounded to 14958.90410958904. -/
theorem accrualInterestDouble_sub_year :
    accrualDaysDouble (dateUTC 2024 12 1) (dateUTC 2025 11 30) = 364 ∧
    accrualInterestDouble 100000 15 (dateUTC 2024 12 1) (dateUTC 2025 11 30) = 14959 := by
  have hdays : accrualDaysDouble (dateUTC 2024 12 1) (dateUTC 2025 11 30) = 364 :=
    accrualDaysDouble_whole _ _ 364 (by decide) (by decide)
  have hy : roundToDouble (((364 : ℤ) : ℚ) / 365) = 8982521996508825 / 9007199254740992 := by
    have h := roundToDouble_eq (((364 : ℤ) : ℚ) / 365) (-1) 8982521996508825
      (by rw [abs_of_pos (by norm_num)]; norm_num)
      (by rw [abs_of_pos (by norm_num)]; norm_num) (by norm_num)
      (by rw [abs_lt]; constructor <;> norm_num)
    rw [h]
    norm_num
  have h1 : roundToDouble ((100000 : ℚ) * 15) = 1500000 := by
    have h := roundToDouble_of_int ((100000 : ℚ) * 15) 1500000 (by norm_num) (by norm_num)
    simpa using h
  have h2 : roundToDouble ((1500000 : ℚ) * (8982521996508825 / 9007199254740992))
      = 6424800393468493 / 4294967296 := by
    have h := roundToDouble_eq ((1500000 : ℚ) * (8982521996508825 / 9007199254740992)) 20
      6424800393468493
      (by rw [abs_of_pos (by norm_num)]; norm_num)
      (by rw [abs_of_pos (by norm_num)]; norm_num) (by norm_num)
      (by rw [abs_lt]; constructor <;> norm_num)
    rw [h]
    norm_num
  have h3 : roundToDouble ((6424800393468493 / 4294967296 : ℚ) / 100)
      = 8223744503639671 / 549755813888 := by
    have h := roundToDouble_eq ((6424800393468493 / 4294967296 : ℚ) / 100) 13
      8223744503639671
      (by rw [abs_of_pos (by norm_num)]; norm_num)
      (by rw [abs_of_pos (by norm_num)]; norm_num) (by norm_num)
      (by rw [abs_lt]; constructor <;> norm_num)
    rw [h]
    norm_num
  refine ⟨hdays, ?_⟩
  simp only [accrualInterestDouble, hdays, hy, h1, h2, h3, mathRound]
  rw [Int.floor_eq_iff]
  norm_num

/-- In double precision as in exact arithmetic, 50000 at 12 percent with the renewal date a
year before the start date accrues -6000 over -365 days. -/
theorem accrualInterestDouble_reversed :
    accrualDaysDouble (dateUTC 2026 1 15) (dateUTC 2025 1 15) = -365 ∧
    accrualInterestDouble 50000 12 (dateUTC 2026 1 15) (dateUTC 2025 1 15) = -6000 := by
  have hdays : accrualDaysDouble (dateUTC 2026 1 15) (dateUTC 2025 1 15) = -365 :=
    accrualDaysDouble_whole _ _ (-365) (by decide) (by decide)
  have hy : roundToDouble (((-365 : ℤ) : ℚ) / 365) = -1 := by
    have h := roundToDouble_of_int (((-365 : ℤ) : ℚ) / 365) (-1) (by norm_num) (by norm_num)
    simpa using h
  have h1 : roundToDouble ((50000 : ℚ) * 12) = 600000 := by
    have h := roundToDouble_of_int ((50000 : ℚ) * 12) 600000 (by norm_num) (by norm_num)
    simpa using h
  have h2 : roundToDouble ((600000 : ℚ) * -1) = -600000 := by
    have h := roundToDouble_of_int ((600000 : ℚ) * -1) (-600000) (by norm_num) (by norm_num)
    simpa using h
  have h3 : roundToDouble ((-600000 : ℚ) / 100) = -6000 := by
    have h := roundToDouble_of_int ((-600000 : ℚ) / 100) (-6000) (by norm_num) (by norm_num)
    simpa using h
  refine ⟨hdays, ?_⟩
  simp only [accrualInterestDouble, hdays, hy, h1, h2, h3, mathRound]
  rw [Int.floor_eq_iff]
  norm_num

theorem accrualInterest_sub_year :
    accrualInterest 100000 15 (dateUTC 2024 12 1) (dateUTC 2025 11 30) = 14959 := by
  have hs : dateUTC 2024 12 1 = 1733011200000 := by decide
  have he : dateUTC 2025 11 30 = 1764460800000 := by decide
  have hdays : accrualDays (dateUTC 2024 12 1) (dateUTC 2025 11 30) = 364 := by
    rw [hs, he]
    norm_num [accrualDays, mathCeil, msPerDay]
  simp only [accrualInterest, hdays, mathRound]
  rw [Int.floor_eq_iff]
  norm_num

theorem accrualInterest_reversed :
    accrualInterest 50000 12 (dateUTC 2026 1 15) (dateUTC 2025 1 15) = -6000 := by
  have hs : dateUTC 2026 1 15 = 1768435200000 := by decide
  have he : dateUTC 2025 1 15 = 1736899200000 := by decide
  have hdays : accrualDays (dateUTC 2026 1 15) (dateUTC 2025 1 15) = -365 := by
    rw [hs, he]
    simp only [accrualDays, mathCeil, msPerDay]
    rw [Int.ceil_eq_iff]
    norm_num
  simp only [accrualInterest, hdays, mathRound]
  rw [Int.floor_eq_iff]
  norm_num

/-- The hook in double precision stores what the hook in exact arithmetic stores on the
records of the worked examples: 50000 at 12 and at 24 percent for 365 days, 100000 at 15
percent for 364 days, and 50000 at 12 percent with the dates reversed. -/
theorem preSaveDouble_eq_preSave_examples (i c : Nat) (n st : String) (nt : Option String)
    (i0 t0 : ℚ) :
    preSaveDouble { id := i, name := n, amount := 50000, rateOfInterest := 12,
                    startDate := dateUTC 2025 1 15, renewalDate := dateUTC 2026 1 15,
                    interest := i0, total := t0, status := st, notes := nt, createdBy := c }
      = preSave { id := i, name := n, amount := 50000, rateOfInterest := 12,
                  startDate := dateUTC 2025 1 15, renewalDate := dateUTC 2026 1 15,
                  interest := i0, total := t0, status := st, notes := nt, createdBy := c } ∧
    preSaveDouble { id := i, name := n, amount := 50000, rateOfInterest := 24,
                    startDate := dateUTC 2025 1 15, renewalDate := dateUTC 2026 1 15,
                    interest := i0, total := t0, status := st, notes := nt, createdBy := c }
      = preSave { id := i, name := n, amount := 50000, rateOfInterest := 24,
                  startDate := dateUTC 2025 1 15, renewalDate := dateUTC 2026 1 15,
                  interest := i0, total := t0, status := st, notes := nt, createdBy := c } ∧
    preSaveDouble { id := i, name := n, amount := 100000, rateOfInterest := 15,
                    startDate := dateUTC 2024 12 1, renewalDate := dateUTC 2025 11 30,
                    interest := i0, total := t0, status := st, notes := nt, createdBy := c }
      = preSave { id := i, name := n, amount := 100000, rateOfInterest := 15,
                  startDate := dateUTC 2024 12 1, renewalDate := dateUTC 2025 11 30,
                  interest := i0, total := t0, status := st, notes := nt, createdBy := c } ∧
    preSaveDouble { id := i, name := n, amount := 50000, rateOfInterest := 12,
                    startDate := dateUTC 2026 1 15, renewalDate := dateUTC 2025 1 15,
                    interest := i0, total := t0, status := st, notes := nt, createdBy := c }
      = preSave { id := i, name := n, amount := 50000, rateOfInterest := 12,
                  startDate := dateUTC 2026 1 15, renewalDate := dateUTC 2025 1 15,
                  interest := i0, total := t0, status := st, notes := nt, createdBy := c } := by
  have t1 : roundToDouble ((50000 : ℚ) + ((6000 : ℤ) : ℚ)) = 50000 + ((6000 : ℤ) : ℚ) := by
    have h := roundToDouble_of_int ((50000 : ℚ) + ((6000 : ℤ) : ℚ)) 56000 (by norm_num)
      (by norm_num)
    rw [h]; norm_num
  have t2 : roundToDouble ((50000 : ℚ) + ((12000 : ℤ) : ℚ)) = 50000 + ((12000 : ℤ) : ℚ) := by
    have h := roundToDouble_of_int ((50000 : ℚ) + ((12000 : ℤ) : ℚ)) 62000 (by norm_num)
      (by norm_num)
    rw [h]; norm_num
  have t3 : roundToDouble ((100000 : ℚ) + ((14959 : ℤ) : ℚ)) = 100000 + ((14959 : ℤ) : ℚ) := by
    have h := roundToDouble_of_int ((100000 : ℚ) + ((14959 : ℤ) : ℚ)) 114959 (by norm_num)
      (by norm_num)
    rw [h]; norm_num
  have t4 : roundToDouble ((50000 : ℚ) + ((-6000 : ℤ) : ℚ)) = 50000 + ((-6000 : ℤ) : ℚ) := by
    have h := roundToDouble_of_int ((50000 : ℚ) + ((-6000 : ℤ) : ℚ)) 44000 (by norm_num)
      (by norm_num)
    rw [h]; norm_num
  refine ⟨?_, ?_, ?_, ?_⟩
  · simp only [preSaveDouble, preSave, accrualInterestDouble_sample.1,
      accrualInterest_sample_12, t1]
  · simp only [preSaveDouble, preSave, accrualInterestDouble_sample.2,
      accrualInterest_sample_24, t2]
  · simp only [preSaveDouble, preSave, accrualInterestDouble_sub_year.2,
      accrualInterest_sub_year, t3]
  · simp only [preSaveDouble, preSave, accrualInterestDouble_reversed.2,
      accrualInterest_reversed, t4]

/-! ### The order of the summary figures -/

theorem filter_sum_le (f : LendingRecord → ℚ) (p q : LendingRecord → Bool)
    (docs : List LendingRecord) (hpq : ∀ r, p r = true → q r = true)
    (hf : ∀ r ∈ docs, 0 ≤ f r) :
    ((docs.filter p).map f).sum ≤ ((docs.filter q).map f).sum := by
  induction docs with
  | nil => simp
  | cons d ds ih =>
      have ih1 := ih (fun r hr => hf r (List.mem_cons_of_mem _ hr))
      have hd := hf d (List.mem_cons_self _ _)
      by_cases hp : p d = true
      · have hq := hpq d hp
        simp only [List.filter_cons, hp, hq, if_true, List.map_cons, List.sum_cons]
        linarith
      · by_cases hq : q d = true
        · simp only [List.filter_cons, hp, hq, if_true, List.map_cons, List.sum_cons]
          simp only [Bool.false_eq_true, if_false]
          linarith
        · simp only [List.filter_cons, hp, hq]
          simpa using ih1

theorem inWindow_mono (now a b : ℤ) (hab : a ≤ b) (r : LendingRecord)
    (h : inWindow now a r = true) : inWindow now b r = true := by
  simp only [inWindow, Bool.and_eq_true, decide_eq_true_eq] at h ⊢
  refine ⟨h.1, ?_⟩
  have : a * 86400000 ≤ b * 86400000 := by nlinarith
  linarith [h.2]

/-- C28: when no stored interest is negative, the one-month figure is at most the six-month
figure, which is at most the one-year figure, which is at most the total interest expected. -/
theorem C28_summary_figures_ordered (now : ℤ) (db : Store)
    (h : ∀ r ∈ db, 0 ≤ r.interest) :
    (summary now db).interestNext1Month ≤ (summary now db).interestNext6Months ∧
    (summary now db).interestNext6Months ≤ (summary now db).interestNext1Year ∧
    (summary now db).interestNext1Year ≤ (summary now db).totalInterestExpected := by
  have h30 := renewsWithin_eq_inWindow now 30
  have h180 := renewsWithin_eq_inWindow now 180
  have h365 := renewsWithin_eq_inWindow now 365
  have e1 : (summary now db).interestNext1Month
      = ((db.filter (inWindow now 30)).map (fun x => x.interest)).sum := by
    simp only [summary, matchStage, firstTotalOrZero_groupSumStage, h30]
  have e2 : (summary now db).interestNext6Months
      = ((db.filter (inWindow now 180)).map (fun x => x.interest)).sum := by
    simp only [summary, matchStage, firstTotalOrZero_groupSumStage, h180]
  have e3 : (summary now db).interestNext1Year
      = ((db.filter (inWindow now 365)).map (fun x => x.interest)).sum := by
    simp only [summary, matchStage, firstTotalOrZero_groupSumStage, h365]
  have e4 : (summary now db).totalInterestExpected
      = ((db.filter notCompleted).map (fun x => x.interest)).sum := by
    simp only [summary, matchStage, firstTotalOrZero_groupSumStage]
  rw [e1, e2, e3, e4]
  refine ⟨filter_sum_le _ _ _ db (inWindow_mono now 30 180 (by norm_num)) h,
    filter_sum_le _ _ _ db (inWindow_mono now 180 365 (by norm_num)) h,
    filter_sum_le _ _ _ db ?_ h⟩
  intro r hr
  simp only [inWindow, Bool.and_eq_true, decide_eq_true_eq] at hr
  simp [notCompleted, hr.1.1]

/-- Witness for C28: the collection of the two sample records. -/
theorem C28_summary_figures_ordered_witness :
    (summary 0 [sampleRecord, sampleCompleted]).interestNext1Month
      ≤ (summary 0 [sampleRecord, sampleCompleted]).interestNext6Months ∧
    (summary 0 [sampleRecord, sampleCompleted]).interestNext1Year
      ≤ (summary 0 [sampleRecord, sampleCompleted]).totalInterestExpected :=
  let h := C28_summary_figures_ordered 0 [sampleRecord, sampleCompleted] (by decide)
  ⟨h.1, h.2.2⟩

/-! ### The list route -/

/-- C21: with the search `a.ha` the list route puts the record named `Asha` in the matching
set, the dot standing for any character, while the name does not contain the text `a.ha` and
the text search of the record table of the client, made on the same term, drops the record.
With the search `(`, which is no regular expression, the route answers 500 where the text
search of the client finds no record. -/
theorem C21_search_is_a_pattern :
    sampleRecord.name = "Asha" ∧
    listMatching sampleRegexI dotSearchQuery [sampleRecord] = some [sampleRecord] ∧
    containsIgnoreCase sampleRecord.name "a.ha" = false ∧
    clientTextSearch "a.ha" sampleRecord = false ∧
    listRecords sampleRegexParen sampleSort parenSearchQuery [sampleRecord]
      = .error (plainResponse 500 "Server error") ∧
    clientTextSearch "(" sampleRecord = false := by
  have hnone : listMatching sampleRegexParen parenSearchQuery [sampleRecord] = none := by
    decide
  refine ⟨by decide, by decide, by decide, by decide, ?_, by decide⟩
  simp [listRecords, hnone]

theorem listMatching_eq_none (regexI : String → Option (String → Bool)) (q : ListQuery)
    (db : Store) :
    listMatching regexI q db = none ↔
      (q.startDate = .malformed ∨ q.endDate = .malformed ∨
        (q.search.getD "" ≠ "" ∧ regexI (q.search.getD "") = none)) := by
  unfold listMatching buildListFilter
  cases hs : q.startDate <;> cases he : q.endDate <;>
    by_cases hq : q.search.getD "" = "" <;>
    cases hr : regexI (q.search.getD "") <;>
    simp [badBound, hq, hr]

theorem mem_listMatching (regexI : String → Option (String → Bool)) (q : ListQuery)
    (db : Store) (matching : List LendingRecord)
    (h : listMatching regexI q db = some matching) (r : LendingRecord) :
    r ∈ matching ↔
      r ∈ db ∧
      (q.search.getD "" = "" ∨
        ∃ test, regexI (q.search.getD "") = some test ∧ test r.name = true) ∧
      (q.status.getD "" = "" ∨ r.status = q.status.getD "") ∧
      (∀ d, q.startDate = .value d → d ≤ r.startDate) ∧
      (∀ d, q.endDate = .value d → r.startDate ≤ d) := by
  unfold listMatching buildListFilter at h
  cases hs : q.startDate <;> cases he : q.endDate <;>
    by_cases hq : q.search.getD "" = "" <;>
    by_cases hst : q.status.getD "" = "" <;>
    cases hr : regexI (q.search.getD "") <;>
    simp [badBound, hs, he, hq, hst, hr] at h <;>
    subst h <;>
    simp [filterMatches, hq, hst, hr, List.mem_filter, and_assoc]

/-- The text search of the client is the literal rule of the specification. -/
theorem clientTextSearch_eq (searchTerm : String) (r : LendingRecord) :
    clientTextSearch searchTerm r
      = (decide (searchTerm = "") || containsIgnoreCase r.name searchTerm) := by
  by_cases h : searchTerm = "" <;> simp [clientTextSearch, containsIgnoreCase, h]

theorem mathCeil_natDiv (t l : Nat) (hl : 1 ≤ l) :
    mathCeil ((t : ℚ) / (l : ℚ)) = (((t + l - 1) / l : ℕ) : ℤ) := by
  have h1 : l * ((t + l - 1) / l) ≤ t + l - 1 := Nat.mul_div_le _ _
  have h2 : t + l - 1 < l * ((t + l - 1) / l + 1) := Nat.lt_mul_div_succ _ (by omega)
  rw [Nat.mul_add, Nat.mul_one] at h2
  generalize hk : (t + l - 1) / l = k at h1 h2
  generalize hm : l * k = m at h1 h2
  have hlq : (0 : ℚ) < (l : ℚ) := by exact_mod_cast hl
  have hmq : ((l : ℚ) * (k : ℚ)) = (m : ℚ) := by exact_mod_cast hm
  have h3 : (t : ℚ) ≤ (m : ℚ) := by
    have : t ≤ m := by omega
    exact_mod_cast this
  have h4 : (m : ℚ) < (t : ℚ) + (l : ℚ) := by
    have : m < t + l := by omega
    exact_mod_cast this
  unfold mathCeil
  rw [Int.ceil_eq_iff]
  push_cast
  constructor
  · rw [lt_div_iff₀ hlq]
    nlinarith
  · rw [div_le_iff₀ hlq]
    nlinarith

theorem lt_natCeilDiv_iff (page t l : Nat) (hl : 1 ≤ l) :
    page < (t + l - 1) / l ↔ page * l < t := by
  have h : page < (t + l - 1) / l ↔ (page + 1) * l ≤ t + l - 1 :=
    Nat.le_div_iff_mul_le (by omega)
  rw [h, Nat.add_mul, Nat.one_mul]
  generalize page * l = m
  omega

/-- The answer of `GET /` to a query that runs, for `page ≥ 1` and `limit ≥ 1`. -/
theorem listRecords_ok (regexI : String → Option (String → Bool))
    (sortStage : String → Bool → List LendingRecord → List LendingRecord)
    (q : ListQuery) (db : Store) (matching : List LendingRecord) (page limit : Nat)
    (hm : listMatching regexI q db = some matching) (hp : q.page = some page)
    (hl : q.limit = some limit) (hpage : 1 ≤ page) (hlimit : 1 ≤ limit) :
    listRecords regexI sortStage q db
      = .ok { records :=
                ((sortStage (q.sortBy.getD "createdAt")
                    (decide (q.sortOrder.getD "desc" = "desc")) matching).drop
                  ((page - 1) * limit)).take limit
              totalPages := some (((matching.length + limit - 1) / limit : ℕ) : ℤ)
              currentPage := page
              total := matching.length
              hasNextPage := decide (page < (matching.length + limit - 1) / limit)
              hasPrevPage := decide (page > 1) } := by
  have hskip : ¬ (((page : ℤ) - 1) * (limit : ℤ) < 0) := by
    have h1 : (0 : ℤ) ≤ (page : ℤ) - 1 := by omega
    have h2 : (0 : ℤ) ≤ (limit : ℤ) := by omega
    exact not_lt.mpr (mul_nonneg h1 h2)
  have htoNat : (((page : ℤ) - 1) * (limit : ℤ)).toNat = (page - 1) * limit := by
    have h1 : ((page : ℤ) - 1) = ((page - 1 : ℕ) : ℤ) := by omega
    rw [h1, ← Nat.cast_mul, Int.toNat_natCast]
  have hl0 : limit ≠ 0 := by omega
  have hnext : decide ((page : ℤ) < (((matching.length + limit - 1) / limit : ℕ) : ℤ))
      = decide (page < (matching.length + limit - 1) / limit) := by
    simp only [Nat.cast_lt]
  simp only [listRecords, hm, hp, hl, Option.getD_some, hskip, if_false, htoNat, hl0,
    mathCeil_natDiv _ _ hlimit, hnext]

/-- C22: for `page ≥ 1` and `limit ≥ 1`, a list request whose query runs returns the slice of
at most `limit` records of the sorted matching set from offset `(page - 1) * limit`, the full
matching count as `total`, `totalPages = ceil(total / limit)`,
`hasNextPage = (page < totalPages)` and `hasPrevPage = (page > 1)`. -/
theorem C22_list_page (regexI : String → Option (String → Bool))
    (sortStage : String → Bool → List LendingRecord → List LendingRecord)
    (q : ListQuery) (db : Store) (matching : List LendingRecord) (page limit : Nat)
    (hm : listMatching regexI q db = some matching) (hp : q.page = some page)
    (hl : q.limit = some limit) (hpage : 1 ≤ page) (hlimit : 1 ≤ limit) :
    ∃ body, listRecords regexI sortStage q db = .ok body ∧
      body.records
        = ((sortStage (q.sortBy.getD "createdAt")
              (decide (q.sortOrder.getD "desc" = "desc")) matching).drop
            ((page - 1) * limit)).take limit ∧
      body.records.length ≤ limit ∧
      body.total = matching.length ∧
      body.totalPages = some ⌈(matching.length : ℚ) / (limit : ℚ)⌉ ∧
      (∀ pages : ℤ, body.totalPages = some pages →
        body.hasNextPage = decide ((page : ℤ) < pages)) ∧
      body.hasPrevPage = decide (page > 1) ∧
      body.currentPage = page := by
  refine ⟨_, listRecords_ok regexI sortStage q db matching page limit hm hp hl hpage hlimit,
    rfl, ?_, rfl, ?_, ?_, rfl, rfl⟩
  · simp only [List.length_take]
    exact Nat.min_le_left _ _
  · have := mathCeil_natDiv matching.length limit hlimit
    unfold mathCeil at this
    rw [this]
  · intro pages hpages
    simp only [Option.some.injEq] at hpages
    subst hpages
    simp only [Nat.cast_lt]

/-- Witness for C22: the second page of pages of one record, over the two sample records. -/
theorem C22_list_page_witness :
    ∃ body, listRecords sampleRegexI sampleSort (onePerPageQuery 2)
        [sampleRecord, sampleCompleted] = .ok body ∧
      body.records = [sampleCompleted] ∧ body.total = 2 ∧ body.hasPrevPage = true :=
  (C22_list_page sampleRegexI sampleSort (onePerPageQuery 2) [sampleRecord, sampleCompleted]
    [sampleRecord, sampleCompleted] 2 1 (by decide) rfl rfl (by decide) (by decide)).elim
    (fun body h => ⟨body, h.1, h.2.1, h.2.2.2.1, h.2.2.2.2.2.2.1⟩)

theorem flatMap_range_slices (xs : List LendingRecord) (l k : Nat) :
    (List.range k).flatMap (fun i => (xs.drop (i * l)).take l) = xs.take (k * l) := by
  induction k with
  | zero => simp
  | succ k ih =>
      rw [List.range_succ, List.flatMap_append, ih, List.flatMap_singleton, Nat.succ_mul,
        List.take_add]

theorem pageRecords_eq (regexI : String → Option (String → Bool))
    (sortStage : String → Bool → List LendingRecord → List LendingRecord)
    (q : ListQuery) (db : Store) (matching : List LendingRecord) (limit i : Nat)
    (hm : listMatching regexI q db = some matching) (hl : q.limit = some limit)
    (hlimit : 1 ≤ limit) :
    pageRecords regexI sortStage { q with page := some (i + 1) } db
      = ((sortStage (q.sortBy.getD "createdAt")
            (decide (q.sortOrder.getD "desc" = "desc")) matching).drop (i * limit)).take
          limit := by
  have hm1 : listMatching regexI { q with page := some (i + 1) } db = some matching := hm
  have h := listRecords_ok regexI sortStage { q with page := some (i + 1) } db matching
    (i + 1) limit hm1 rfl hl (by omega) hlimit
  simp only [pageRecords, h, Nat.add_sub_cancel]

/-- C29: for `page ≥ 1` and `limit ≥ 1`, `hasNextPage` is true exactly when
`page * limit < total`; and the pages 1 to `totalPages` of the same query, one after the
other, are the sorted matching set, so that they hold every matching record exactly once
when the sort of the database permutes its input. -/
theorem C29_pages_cover (regexI : String → Option (String → Bool))
    (sortStage : String → Bool → List LendingRecord → List LendingRecord)
    (q : ListQuery) (db : Store) (matching : List LendingRecord) (page limit : Nat)
    (hm : listMatching regexI q db = some matching) (hp : q.page = some page)
    (hl : q.limit = some limit) (hpage : 1 ≤ page) (hlimit : 1 ≤ limit)
    (hsort : ∀ docs, (sortStage (q.sortBy.getD "createdAt")
      (decide (q.sortOrder.getD "desc" = "desc")) docs).Perm docs) :
    ∃ body, listRecords regexI sortStage q db = .ok body ∧
      (body.hasNextPage = true ↔ page * limit < body.total) ∧
      body.total = matching.length ∧
      ∃ pages : Nat, body.totalPages = some (pages : ℤ) ∧
        (List.range pages).flatMap
            (fun i => pageRecords regexI sortStage { q with page := some (i + 1) } db)
          = sortStage (q.sortBy.getD "createdAt")
              (decide (q.sortOrder.getD "desc" = "desc")) matching ∧
        ((List.range pages).flatMap
            (fun i => pageRecords regexI sortStage { q with page := some (i + 1) } db)).Perm
          matching := by
  have hcover : (List.range ((matching.length + limit - 1) / limit)).flatMap
      (fun i => pageRecords regexI sortStage { q with page := some (i + 1) } db)
      = sortStage (q.sortBy.getD "createdAt")
          (decide (q.sortOrder.getD "desc" = "desc")) matching := by
    have hfun : (fun i => pageRecords regexI sortStage { q with page := some (i + 1) } db)
        = fun i => ((sortStage (q.sortBy.getD "createdAt")
            (decide (q.sortOrder.getD "desc" = "desc")) matching).drop (i * limit)).take
          limit := by
      funext i
      exact pageRecords_eq regexI sortStage q db matching limit i hm hl hlimit
    rw [hfun, flatMap_range_slices]
    apply List.take_of_length_le
    rw [(hsort matching).length_eq]
    have h2 : matching.length + limit - 1
        < limit * ((matching.length + limit - 1) / limit + 1) :=
      Nat.lt_mul_div_succ _ (by omega)
    rw [Nat.mul_add, Nat.mul_one, Nat.mul_comm] at h2
    generalize (matching.length + limit - 1) / limit * limit = m at h2 ⊢
    omega
  refine ⟨_, listRecords_ok regexI sortStage q db matching page limit hm hp hl hpage hlimit,
    ?_, rfl, (matching.length + limit - 1) / limit, rfl, hcover, ?_⟩
  · simp only [decide_eq_true_eq]
    exact lt_natCeilDiv_iff page matching.length limit hlimit
  · rw [hcover]
    exact hsort matching

/-- Witness for C29: pages of one record over the two sample records. -/
theorem C29_pages_cover_witness :
    ∃ body, listRecords sampleRegexI sampleSort (onePerPageQuery 1)
        [sampleRecord, sampleCompleted] = .ok body ∧
      (body.hasNextPage = true ↔ 1 * 1 < body.total) ∧ body.total = 2 :=
  (C29_pages_cover sampleRegexI sampleSort (onePerPageQuery 1) [sampleRecord, sampleCompleted]
    [sampleRecord, sampleCompleted] 1 1 (by decide) rfl rfl (by decide) (by decide)
    (fun docs => List.Perm.refl docs)).elim
    (fun body h => ⟨body, h.1, h.2.1, h.2.2.1⟩)

/-! ### The CSV export -/

theorem sampleIsoDay_example : sampleIsoDay (dateUTC 2025 1 15) = "2025-01-15" := by decide

theorem csvLine_sampleRecord :
    String.mk (csvLine (csvCells sampleShowNumber sampleIsoDay sampleRecord))
      = "Asha,50000,12,2025-01-15,2026-01-15,6000,56000,Active," := by decide

theorem splitOnChar_of_not_mem (sep : Char) (x : List Char) (h : sep ∉ x) :
    splitOnChar sep x = [x] := by
  induction x with
  | nil => rfl
  | cons c cs ih =>
      have hc : c ≠ sep := fun hc => h (hc ▸ List.mem_cons_self _ _)
      have hcs : sep ∉ cs := fun hm => h (List.mem_cons_of_mem _ hm)
      simp only [splitOnChar, hc, if_false, ih hcs]

theorem splitOnChar_append (sep : Char) (x rest : List Char) (h : sep ∉ x) :
    splitOnChar sep (x ++ sep :: rest) = x :: splitOnChar sep rest := by
  induction x with
  | nil => simp [splitOnChar]
  | cons c cs ih =>
      have hc : c ≠ sep := fun hc => h (hc ▸ List.mem_cons_self _ _)
      have hcs : sep ∉ cs := fun hm => h (List.mem_cons_of_mem _ hm)
      have h1 := ih hcs
      show splitOnChar sep (c :: (cs ++ sep :: rest)) = _
      rw [splitOnChar, if_neg hc, h1]

theorem splitOnChar_joinChars (sep : Char) (segs : List (List Char)) (hne : segs ≠ [])
    (h : ∀ seg ∈ segs, sep ∉ seg) : splitOnChar sep (joinChars sep segs) = segs := by
  induction segs with
  | nil => exact absurd rfl hne
  | cons x rest ih =>
      cases rest with
      | nil => exact splitOnChar_of_not_mem sep x (h x (List.mem_cons_self _ _))
      | cons y rest =>
          have hx := h x (List.mem_cons_self _ _)
          have hrest : ∀ seg ∈ y :: rest, sep ∉ seg :=
            fun seg hs => h seg (List.mem_cons_of_mem _ hs)
          simp only [joinChars]
          rw [splitOnChar_append sep x _ hx, ih (List.cons_ne_nil _ _) hrest]

theorem mem_joinChars (sep c : Char) (segs : List (List Char)) (h : c ∈ joinChars sep segs) :
    c = sep ∨ ∃ seg ∈ segs, c ∈ seg := by
  induction segs with
  | nil => simp [joinChars] at h
  | cons x rest ih =>
      cases rest with
      | nil => exact Or.inr ⟨x, List.mem_cons_self _ _, h⟩
      | cons y rest =>
          simp only [joinChars, List.mem_append, List.mem_cons] at h
          rcases h with h | h | h
          · exact Or.inr ⟨x, List.mem_cons_self _ _, h⟩
          · exact Or.inl h
          · rcases ih h with h | ⟨seg, hs, hc⟩
            · exact Or.inl h
            · exact Or.inr ⟨seg, List.mem_cons_of_mem _ hs, hc⟩

/-- A row whose cells hold no comma reads back as its cells. -/
theorem splitOnChar_csvLine (cells : List String) (hne : cells ≠ [])
    (h : ∀ cell ∈ cells, ',' ∉ cell.data) :
    splitOnChar ',' (csvLine cells) = cells.map String.data := by
  unfold csvLine
  apply splitOnChar_joinChars
  · simpa using hne
  · intro seg hs
    obtain ⟨cell, hc, rfl⟩ := List.mem_map.mp hs
    exact h cell hc

/-- A row whose cells hold no newline holds no newline. -/
theorem newline_not_mem_csvLine (cells : List String) (h : ∀ cell ∈ cells, '\n' ∉ cell.data) :
    '\n' ∉ csvLine cells := by
  intro hm
  rcases mem_joinChars ',' '\n' _ hm with hc | ⟨seg, hs, hc⟩
  · exact absurd hc (by decide)
  · obtain ⟨cell, hcell, rfl⟩ := List.mem_map.mp hs
    exact h cell hcell hc

/-- C27 (counterexample): the export of the selected record named `Rao, A` has the header row
and one row for the record, and that row splits on commas into ten fields. -/
theorem C27_comma_in_name_adds_a_field :
    downloadRecords sampleShowNumber sampleIsoDay (some [3]) (some "csv")
        [sampleRecord, sampleCommaRecord]
      = .csv ("Name,Amount,Rate (%),Start Date,Renewal Date,Interest,Total,Status,Notes\n" ++
          "Rao, A,50000,12,2025-01-15,2026-01-15,6000,56000,Active,") ∧
    splitOnChar ',' (csvLine (csvCells sampleShowNumber sampleIsoDay sampleCommaRecord))
      = ["Rao".data, " A".data, "50000".data, "12".data, "2025-01-15".data,
         "2026-01-15".data, "6000".data, "56000".data, "Active".data, "".data] ∧
    (splitOnChar ',' (csvLine (csvCells sampleShowNumber sampleIsoDay
      sampleCommaRecord))).length = 10 := by
  decide

/-- C27 (amended): for a non-empty selection, the CSV export is the header row followed by one
row per stored record of the selection, and every row splits on commas into exactly its nine
fields, provided that no field of a selected record holds a comma or a newline: the fields are
written as they are, without quotes. -/
theorem C27_csv_rows (showNumber : ℚ → String) (isoDay : ℤ → String) (ids : List Nat)
    (db : Store) (hids : ids ≠ [])
    (hclean : ∀ r ∈ db, r.id ∈ ids → ∀ cell ∈ csvCells showNumber isoDay r,
      ',' ∉ cell.data ∧ '\n' ∉ cell.data) :
    ∃ text, downloadRecords showNumber isoDay (some ids) (some "csv") db = .csv text ∧
      splitOnChar '\n' text.data
        = csvLine csvHeader ::
            (db.filter (fun r => decide (r.id ∈ ids))).map
              (fun r => csvLine (csvCells showNumber isoDay r)) ∧
      splitOnChar ',' (csvLine csvHeader) = csvHeader.map String.data ∧
      ∀ r ∈ db.filter (fun r => decide (r.id ∈ ids)),
        splitOnChar ',' (csvLine (csvCells showNumber isoDay r))
          = (csvCells showNumber isoDay r).map String.data ∧
        (splitOnChar ',' (csvLine (csvCells showNumber isoDay r))).length = 9 := by
  have hlen : ¬ ids.length = 0 := by
    intro h
    exact hids (List.length_eq_zero.mp h)
  have hsel : ∀ r ∈ db.filter (fun r => decide (r.id ∈ ids)),
      ∀ cell ∈ csvCells showNumber isoDay r, ',' ∉ cell.data ∧ '\n' ∉ cell.data := by
    intro r hr
    obtain ⟨hdb, hid⟩ := List.mem_filter.mp hr
    exact hclean r hdb (by simpa using hid)
  refine ⟨csvText showNumber isoDay (db.filter (fun r => decide (r.id ∈ ids))),
    by simp [downloadRecords, hlen], ?_, by decide, ?_⟩
  · simp only [csvText]
    apply splitOnChar_joinChars _ _ (List.cons_ne_nil _ _)
    intro seg hs
    rcases List.mem_cons.mp hs with hs | hs
    · rw [hs]; decide
    · obtain ⟨r, hr, rfl⟩ := List.mem_map.mp hs
      exact newline_not_mem_csvLine _ (fun cell hc => (hsel r hr cell hc).2)
  · intro r hr
    have h := splitOnChar_csvLine (csvCells showNumber isoDay r) (by simp [csvCells])
      (fun cell hc => (hsel r hr cell hc).1)
    refine ⟨h, ?_⟩
    rw [h]
    simp [csvCells]

/-- Witness for C27 (amended): the export of the sample record. -/
theorem C27_csv_rows_witness :
    ∃ text, downloadRecords sampleShowNumber sampleIsoDay (some [1]) (some "csv")
        [sampleRecord, sampleCommaRecord] = .csv text ∧
      splitOnChar '\n' text.data
        = [csvLine csvHeader, csvLine (csvCells sampleShowNumber sampleIsoDay sampleRecord)] :=
  (C27_csv_rows sampleShowNumber sampleIsoDay [1] [sampleRecord, sampleCommaRecord]
    (by decide) (by decide)).elim (fun text h => ⟨text, h.1, h.2.1⟩)

/-! ### The user objects of the responses -/

theorem hidesSecrets_selectPublic (u : User) : hidesSecrets (selectPublic u) :=
  ⟨rfl, rfl, rfl, rfl⟩

/-- The user object of a successful login, register or verify response is made of the id,
username, email, phone, status and admin flag of a user. -/
theorem hidesSecrets_publicFields (u : User) : hidesSecrets (publicFields u).view :=
  ⟨rfl, rfl, rfl, rfl⟩

theorem createUser_user (hashPassword : String → String) (schemaOk : User → Bool)
    (b : CreateUserBody) (users : List User) (v : UserView)
    (h : (createUser hashPassword schemaOk b users).1.user = some v) :
    ∃ u, v = selectPublic u := by
  unfold createUser at h
  simp only at h
  repeat' split at h
  all_goals first
    | (simp [userPlain, authPlain] at h; done)
    | (simp only [Option.map_eq_some'] at h; obtain ⟨u, -, hu⟩ := h; exact ⟨u, hu.symm⟩)

theorem updateUser_user (updateOk : UserUpdateData → Bool) (id : Nat) (b : UpdateUserBody)
    (users : List User) (v : UserView)
    (h : (updateUser updateOk id b users).1.user = some v) : ∃ u, v = selectPublic u := by
  unfold updateUser at h
  simp only at h
  repeat' split at h
  all_goals first
    | (simp [userPlain, authPlain] at h; done)
    | (simp only [Option.some.injEq] at h; exact ⟨_, h.symm⟩)

theorem registerRoute_user (jwtSign : Decoded → String → String)
    (hashPassword : String → String) (schemaOk : User → Bool) (jwtSecret : Option String)
    (b : CreateUserBody) (users : List User) (p : PublicUser)
    (h : (registerRoute jwtSign hashPassword schemaOk jwtSecret b users).1.user = some p) :
    ∃ u, p = publicFields u := by
  unfold registerRoute at h
  simp only at h
  repeat' split at h
  all_goals first
    | (simp [userPlain, authPlain] at h; done)
    | (simp only [Option.some.injEq] at h; exact ⟨_, h.symm⟩)

theorem loginRoute_user (jwtSign : Decoded → String → String)
    (bcryptCompare : String → String → Bool) (jwtSecret : Option String) (users : List User)
    (b : LoginBody) (p : PublicUser)
    (h : (loginRoute jwtSign bcryptCompare jwtSecret users b).user = some p) :
    ∃ u, p = publicFields u := by
  unfold loginRoute at h
  simp only at h
  repeat' split at h
  all_goals first
    | (simp [userPlain, authPlain] at h; done)
    | (simp only [Option.some.injEq] at h; exact ⟨_, h.symm⟩)

theorem verifyRoute_user (jwtVerify : Option String → String → Option Decoded)
    (jwtSecret : Option String) (users : List User) (authorization : Option String)
    (p : PublicUser)
    (h : (verifyRoute jwtVerify jwtSecret users authorization).user = some p) :
    ∃ u, p = publicFields u := by
  unfold verifyRoute at h
  repeat' split at h
  all_goals first
    | (simp [userPlain, authPlain] at h; done)
    | (simp only [Option.some.injEq] at h; exact ⟨_, h.symm⟩)

theorem loginRoute_token (jwtSign : Decoded → String → String)
    (bcryptCompare : String → String → Bool) (jwtSecret : Option String) (users : List User)
    (b : LoginBody) (t : String)
    (h : (loginRoute jwtSign bcryptCompare jwtSecret users b).token = some t) :
    ∃ u : User, t = jwtSign ⟨some u.id, some u.email, some u.isAdmin⟩
      (jwtSecretOrDefault jwtSecret) := by
  unfold loginRoute at h
  simp only at h
  repeat' split at h
  all_goals first
    | (simp [userPlain, authPlain] at h; done)
    | (simp only [Option.some.injEq] at h; exact ⟨_, h.symm⟩)

theorem listUsers_views (regexI : String → Option (String → Bool))
    (sortStage : String → Bool → List User → List User) (q : UserListQuery)
    (users : List User) (views : List UserView)
    (h : listUsers regexI sortStage q users = some views) :
    ∀ v ∈ views, ∃ u, v = selectPublic u := by
  unfold listUsers at h
  simp only at h
  repeat' split at h
  all_goals first
    | (simp at h; done)
    | (simp only [Option.some.injEq] at h
       subst h
       intro v hv
       obtain ⟨u, -, hu⟩ := List.mem_map.mp hv
       exact ⟨u, hu.symm⟩)

theorem getUser_user (id : Nat) (users : List User) (v : UserView)
    (h : (getUser id users).user = some v) : ∃ u, v = selectPublic u := by
  unfold getUser at h
  split at h
  · simp [userPlain] at h
  · simp only [Option.some.injEq] at h
    exact ⟨_, h.symm⟩

/-- C24: the user objects in the responses of the user list, get user, create user and update
user routes are documents projected without the password and the three password-reset fields;
the user objects of register, login and verify-token are made of the id, username, email,
phone, status and admin flag of a user, and the payload of the login token of the id, email
and admin flag. None carries the password hash or a password-reset field. -/
theorem C24_no_secret_in_responses (jwtSign : Decoded → String → String)
    (jwtVerify : Option String → String → Option Decoded)
    (bcryptCompare : String → String → Bool) (hashPassword : String → String)
    (schemaOk : User → Bool) (updateOk : UserUpdateData → Bool)
    (regexI : String → Option (String → Bool))
    (sortStage : String → Bool → List User → List User) (jwtSecret : Option String)
    (users : List User) :
    (∀ q views, listUsers regexI sortStage q users = some views →
      ∀ v ∈ views, hidesSecrets v) ∧
    (∀ id v, (getUser id users).user = some v → hidesSecrets v) ∧
    (∀ b v, (createUser hashPassword schemaOk b users).1.user = some v → hidesSecrets v) ∧
    (∀ id b v, (updateUser updateOk id b users).1.user = some v → hidesSecrets v) ∧
    (∀ b p, (registerRoute jwtSign hashPassword schemaOk jwtSecret b users).1.user = some p →
      (∃ u, p = publicFields u) ∧ hidesSecrets p.view) ∧
    (∀ b p, (loginRoute jwtSign bcryptCompare jwtSecret users b).user = some p →
      (∃ u, p = publicFields u) ∧ hidesSecrets p.view) ∧
    (∀ b t, (loginRoute jwtSign bcryptCompare jwtSecret users b).token = some t →
      ∃ u : User, t = jwtSign ⟨some u.id, some u.email, some u.isAdmin⟩
        (jwtSecretOrDefault jwtSecret)) ∧
    (∀ authorization p, (verifyRoute jwtVerify jwtSecret users authorization).user = some p →
      (∃ u, p = publicFields u) ∧ hidesSecrets p.view) := by
  refine ⟨?_, ?_, ?_, ?_, ?_, ?_, ?_, ?_⟩
  · intro q views h v hv
    obtain ⟨u, rfl⟩ := listUsers_views regexI sortStage q users views h v hv
    exact hidesSecrets_selectPublic u
  · intro id v h
    obtain ⟨u, rfl⟩ := getUser_user id users v h
    exact hidesSecrets_selectPublic u
  · intro b v h
    obtain ⟨u, rfl⟩ := createUser_user hashPassword schemaOk b users v h
    exact hidesSecrets_selectPublic u
  · intro id b v h
    obtain ⟨u, rfl⟩ := updateUser_user updateOk id b users v h
    exact hidesSecrets_selectPublic u
  · intro b p h
    obtain ⟨u, rfl⟩ := registerRoute_user jwtSign hashPassword schemaOk jwtSecret b users p h
    exact ⟨⟨u, rfl⟩, hidesSecrets_publicFields u⟩
  · intro b p h
    obtain ⟨u, rfl⟩ := loginRoute_user jwtSign bcryptCompare jwtSecret users b p h
    exact ⟨⟨u, rfl⟩, hidesSecrets_publicFields u⟩
  · intro b t h
    exact loginRoute_token jwtSign bcryptCompare jwtSecret users b t h
  · intro authorization p h
    obtain ⟨u, rfl⟩ := verifyRoute_user jwtVerify jwtSecret users authorization p h
    exact ⟨⟨u, rfl⟩, hidesSecrets_publicFields u⟩

/-- Witness for C24: the response of get user for the active sample user. -/
theorem C24_no_secret_in_responses_witness :
    (getUser 7 sampleUsers).user = some (selectPublic sampleUser) ∧
    hidesSecrets (selectPublic sampleUser) :=
  ⟨by decide,
    (C24_no_secret_in_responses sampleSign sampleVerify sampleCompare sampleHash
      sampleSchemaOk sampleUpdateOk sampleRegexI (fun _ _ l => l) none sampleUsers).2.1
      7 (selectPublic sampleUser) (by decide)⟩

/-! ### Verify-token against the auth middleware -/

/-- What the middleware lets through, verify-token accepts, when `JWT_SECRET` is set. -/
theorem verifyRoute_of_authMiddleware_next
    (jwtVerify : Option String → String → Option Decoded) (k : String) (users : List User)
    (authorization : Option String) (d : Decoded) (hk : k ≠ "")
    (h : authMiddleware jwtVerify (some k) users authorization = .next d) :
    (verifyRoute jwtVerify (some k) users authorization).status = 200 := by
  unfold authMiddleware at h
  split at h
  · cases h
  · rename_i token htok
    split_ifs at h with hne
    split at h
    · cases h
    · rename_i decoded hdec
      split at h
      · cases h
      · rename_i user hu
        simp [verifyRoute, htok, hne, jwtSecretOrDefault, hk, hdec, hu]

/-- C30: with `JWT_SECRET` set to `s3cret`, the token of the inactive sample user gets 200
`Token valid` and the public fields of the user from verify-token, and 401 from the auth
middleware; with `JWT_SECRET` unset, the login token of the active sample user gets 200 from
verify-token and 401 from the middleware. -/
theorem C30_verify_and_gate_disagree :
    sampleInactiveUser.status = "Inactive" ∧
    verifyRoute sampleVerifyBoth (some "s3cret") sampleUsers
        (bearerHeader (sampleSign sampleInactivePayload "s3cret"))
      = { status := 200, message := "Token valid", errors := [], token := none,
          user := some (publicFields sampleInactiveUser) } ∧
    authMiddleware sampleVerifyBoth (some "s3cret") sampleUsers
        (bearerHeader (sampleSign sampleInactivePayload "s3cret"))
      = .respond 401 "Token is not valid" ∧
    (verifyRoute sampleVerifyBoth none sampleUsers
        (bearerHeader (sampleSign samplePayload "your-secret-key"))).status = 200 ∧
    authMiddleware sampleVerifyBoth none sampleUsers
        (bearerHeader (sampleSign samplePayload "your-secret-key"))
      = .respond 401 "Token is not valid" := by
  decide

/-! ### The unique fields of the users -/

theorem le_foldr_max (l : List Nat) : ∀ n ∈ l, n ≤ l.foldr max 0 := by
  induction l with
  | nil => intro n hn; simp at hn
  | cons x xs ih =>
      intro n hn
      simp only [List.foldr_cons]
      rcases List.mem_cons.mp hn with hn | hn
      · rw [hn]; exact Nat.le_max_left _ _
      · exact Nat.le_trans (ih n hn) (Nat.le_max_right _ _)

theorem lt_freshUserId (users : List User) : ∀ u ∈ users, u.id < freshUserId users := by
  intro u hu
  have h := le_foldr_max (users.map (fun u => u.id)) u.id (List.mem_map_of_mem _ hu)
  unfold freshUserId
  omega

theorem nodup_map_concat {β : Type} (f : User → β) (l : List User) (x : User)
    (h : (l.map f).Nodup) (hx : ∀ y ∈ l, f y ≠ f x) : ((l ++ [x]).map f).Nodup := by
  rw [List.map_append, List.map_singleton]
  refine List.Nodup.append h (List.nodup_singleton _) ?_
  intro b hb hb1
  rw [List.mem_singleton] at hb1
  obtain ⟨y, hy, rfl⟩ := List.mem_map.mp hb
  exact hx y hy hb1

theorem findDuplicate_none (users : List User) (email username phone : String)
    (h : findDuplicate users email username phone = none) :
    ∀ u ∈ users, u.email ≠ email ∧ u.username ≠ username ∧ u.phone ≠ phone := by
  intro u hu
  have := List.find?_eq_none.mp h u hu
  simpa [not_or, and_assoc] using this

theorem findDuplicate_some (users : List User) (email username phone : String)
    (h : ∃ u ∈ users, u.email = email ∨ u.username = username ∨ u.phone = phone) :
    ∃ d, findDuplicate users email username phone = some d := by
  cases hf : findDuplicate users email username phone with
  | some d => exact ⟨d, rfl⟩
  | none =>
      obtain ⟨u, hu, hc⟩ := h
      obtain ⟨h1, h2, h3⟩ := findDuplicate_none users email username phone hf u hu
      rcases hc with hc | hc | hc
      · exact absurd hc h1
      · exact absurd hc h2
      · exact absurd hc h3

/-- A user whose username, email and phone no stored user has, stored under a fresh id, keeps
the stored users distinct. -/
theorem usersDistinct_append (users : List User) (u : User) (h : UsersDistinct users)
    (hid : u.id = freshUserId users)
    (hnew : ∀ y ∈ users, y.email ≠ u.email ∧ y.username ≠ u.username ∧ y.phone ≠ u.phone) :
    UsersDistinct (users ++ [u]) := by
  obtain ⟨h1, h2, h3, h4⟩ := h
  refine ⟨nodup_map_concat _ users u h1 ?_, nodup_map_concat _ users u h2 ?_,
    nodup_map_concat _ users u h3 ?_, nodup_map_concat _ users u h4 ?_⟩
  · intro y hy
    have := lt_freshUserId users y hy
    show y.id ≠ u.id
    omega
  · exact fun y hy => (hnew y hy).2.1
  · exact fun y hy => (hnew y hy).1
  · exact fun y hy => (hnew y hy).2.2

/-- The users after `POST /` of `routes/users.js`: as they were, or with one more user whose
username, email and phone no user had. -/
theorem createUser_store (hashPassword : String → String) (schemaOk : User → Bool)
    (b : CreateUserBody) (users : List User) :
    (createUser hashPassword schemaOk b users).2 = users ∨
    ∃ u, (createUser hashPassword schemaOk b users).2 = users ++ [u] ∧
      u.id = freshUserId users ∧
      ∀ y ∈ users, y.email ≠ u.email ∧ y.username ≠ u.username ∧ y.phone ≠ u.phone := by
  unfold createUser
  simp only
  split_ifs with he
  · exact Or.inl rfl
  · cases hem : b.email with
    | missing => exact Or.inl rfl
    | malformed => exact Or.inl rfl
    | value email =>
        simp only
        cases hd : findDuplicate users email (jsTrim (b.username.getD "")) (b.phone.getD "") with
        | some d => exact Or.inl rfl
        | none =>
            simp only [saveUser]
            split_ifs
            · exact Or.inr ⟨_, rfl, rfl, findDuplicate_none users _ _ _ hd⟩
            · exact Or.inl rfl

/-- The users after `POST /register`: as they were, or with one more user whose username, email
and phone no user had. -/
theorem registerRoute_store (jwtSign : Decoded → String → String)
    (hashPassword : String → String) (schemaOk : User → Bool) (jwtSecret : Option String)
    (b : CreateUserBody) (users : List User) :
    (registerRoute jwtSign hashPassword schemaOk jwtSecret b users).2 = users ∨
    ∃ u, (registerRoute jwtSign hashPassword schemaOk jwtSecret b users).2 = users ++ [u] ∧
      u.id = freshUserId users ∧
      ∀ y ∈ users, y.email ≠ u.email ∧ y.username ≠ u.username ∧ y.phone ≠ u.phone := by
  unfold registerRoute
  simp only
  split_ifs with he
  · exact Or.inl rfl
  · cases hem : b.email with
    | missing => exact Or.inl rfl
    | malformed => exact Or.inl rfl
    | value email =>
        simp only
        cases hd : findDuplicate users email (jsTrim (b.username.getD "")) (b.phone.getD "") with
        | some d => exact Or.inl rfl
        | none =>
            simp only [saveUser]
            split_ifs
            · exact Or.inr ⟨_, rfl, rfl, findDuplicate_none users _ _ _ hd⟩
            · exact Or.inl rfl

theorem mem_updateFirstUser (id : Nat) (g : User → User) (l : List User) (z : User)
    (h : z ∈ updateFirstUser id g l) : z ∈ l ∨ ∃ r ∈ l, r.id = id ∧ z = g r := by
  induction l with
  | nil => simp [updateFirstUser] at h
  | cons x xs ih =>
      unfold updateFirstUser at h
      split_ifs at h with hx
      · rcases List.mem_cons.mp h with h | h
        · exact Or.inr ⟨x, List.mem_cons_self _ _, by simpa using hx, h⟩
        · exact Or.inl (List.mem_cons_of_mem _ h)
      · rcases List.mem_cons.mp h with h | h
        · exact Or.inl (h ▸ List.mem_cons_self _ _)
        · rcases ih h with h | ⟨r, hr, hid, h⟩
          · exact Or.inl (List.mem_cons_of_mem _ h)
          · exact Or.inr ⟨r, List.mem_cons_of_mem _ hr, hid, h⟩

theorem nodup_map_updateFirstUser {β : Type} (f : User → β) (g : User → User) (id : Nat)
    (l : List User) (hid : (l.map (fun u => u.id)).Nodup) (hf : (l.map f).Nodup)
    (hg : ∀ x ∈ l, x.id = id → ∀ y ∈ l, y.id ≠ id → f (g x) ≠ f y) :
    ((updateFirstUser id g l).map f).Nodup := by
  induction l with
  | nil => simp [updateFirstUser]
  | cons x xs ih =>
      rw [List.map_cons, List.nodup_cons] at hid hf
      unfold updateFirstUser
      split_ifs with hx
      · have hxid : x.id = id := by simpa using hx
        rw [List.map_cons, List.nodup_cons]
        refine ⟨?_, hf.2⟩
        intro hm
        obtain ⟨y, hy, hfy⟩ := List.mem_map.mp hm
        have hyid : y.id ≠ id := by
          intro hc
          exact hid.1 (List.mem_map.mpr ⟨y, hy, by rw [hc, hxid]⟩)
        exact hg x (List.mem_cons_self _ _) hxid y (List.mem_cons_of_mem _ hy) hyid hfy.symm
      · have hxid : x.id ≠ id := by simpa using hx
        rw [List.map_cons, List.nodup_cons]
        refine ⟨?_, ih hid.2 hf.2 (fun r hr hrid y hy hyid =>
          hg r (List.mem_cons_of_mem _ hr) hrid y (List.mem_cons_of_mem _ hy) hyid)⟩
        intro hm
        obtain ⟨z, hz, hfz⟩ := List.mem_map.mp hm
        rcases mem_updateFirstUser id g xs z hz with hz | ⟨r, hr, hrid, hz⟩
        · exact hf.1 (List.mem_map.mpr ⟨z, hz, hfz⟩)
        · rw [hz] at hfz
          exact hg r (List.mem_cons_of_mem _ hr) hrid x (List.mem_cons_self _ _) hxid hfz

theorem findConflict_none (users : List User) (id : Nat) (u : UserUpdateData)
    (h : findConflict users id u = none) :
    ∀ y ∈ users, y.id ≠ id →
      u.email ≠ some y.email ∧ u.username ≠ some y.username ∧ u.phone ≠ some y.phone := by
  intro y hy hid
  have := List.find?_eq_none.mp h y hy
  simpa [hid, not_or, and_assoc] using this

theorem findConflict_some (users : List User) (id : Nat) (u : UserUpdateData)
    (h : ∃ y ∈ users, y.id ≠ id ∧
      (u.email = some y.email ∨ u.username = some y.username ∨ u.phone = some y.phone)) :
    ∃ d, findConflict users id u = some d := by
  cases hf : findConflict users id u with
  | some d => exact ⟨d, rfl⟩
  | none =>
      obtain ⟨y, hy, hid, hc⟩ := h
      obtain ⟨h1, h2, h3⟩ := findConflict_none users id u hf y hy hid
      rcases hc with hc | hc | hc
      · exact absurd hc h1
      · exact absurd hc h2
      · exact absurd hc h3

/-- The users after `PUT /:id` of `routes/users.js`: as they were, or with the `$set` applied
to the user with the id, no other user having a unique value that is being set. -/
theorem updateUser_store (updateOk : UserUpdateData → Bool) (id : Nat) (b : UpdateUserBody)
    (users : List User) :
    (updateUser updateOk id b users).2 = users ∨
    ((updateUser updateOk id b users).2
        = updateFirstUser id (applyUserUpdate (buildUserUpdateData b)) users ∧
      ∀ y ∈ users, y.id ≠ id →
        (buildUserUpdateData b).email ≠ some y.email ∧
        (buildUserUpdateData b).username ≠ some y.username ∧
        (buildUserUpdateData b).phone ≠ some y.phone) := by
  have hnone : (¬ ((buildUserUpdateData b).email.isSome ||
      (buildUserUpdateData b).username.isSome || (buildUserUpdateData b).phone.isSome) = true) →
      ∀ y ∈ users, y.id ≠ id →
        (buildUserUpdateData b).email ≠ some y.email ∧
        (buildUserUpdateData b).username ≠ some y.username ∧
        (buildUserUpdateData b).phone ≠ some y.phone := by
    intro hany y _ _
    simp only [Bool.or_eq_true, Option.isSome_iff_exists, not_or, not_exists] at hany
    exact ⟨fun hc => hany.1.1 _ hc, fun hc => hany.1.2 _ hc, fun hc => hany.2 _ hc⟩
  unfold updateUser
  simp only
  by_cases he : validateUpdateUser b ≠ []
  · rw [if_pos he]
    exact Or.inl rfl
  · rw [if_neg he]
    by_cases hok : updateOk (buildUserUpdateData b) = true
    · cases hfind : users.find? (fun u => u.id == id) with
      | none =>
          left
          by_cases hany : ((buildUserUpdateData b).email.isSome ||
              (buildUserUpdateData b).username.isSome ||
              (buildUserUpdateData b).phone.isSome) = true
          · cases hc : findConflict users id (buildUserUpdateData b) <;>
              simp [hany, hc, hok, hfind]
          · simp [hany, hok, hfind]
      | some u =>
          by_cases hany : ((buildUserUpdateData b).email.isSome ||
              (buildUserUpdateData b).username.isSome ||
              (buildUserUpdateData b).phone.isSome) = true
          · cases hc : findConflict users id (buildUserUpdateData b) with
            | some d =>
                left
                simp [hany, hc]
            | none =>
                right
                refine ⟨?_, findConflict_none users id _ hc⟩
                simp [hany, hc, hok, hfind]
          · right
            refine ⟨?_, hnone hany⟩
            simp [hany, hok, hfind]
    · left
      by_cases hany : ((buildUserUpdateData b).email.isSome ||
          (buildUserUpdateData b).username.isSome ||
          (buildUserUpdateData b).phone.isSome) = true
      · cases hc : findConflict users id (buildUserUpdateData b) <;>
          simp [hany, hc, hok]
      · simp [hany, hok]

theorem eq_of_map_nodup {β : Type} (f : User → β) (l : List User) (h : (l.map f).Nodup)
    (x y : User) (hx : x ∈ l) (hy : y ∈ l) (hxy : f x = f y) : x = y :=
  List.inj_on_of_nodup_map h hx hy hxy

/-- An update keeps the stored users distinct. -/
theorem usersDistinct_updateFirstUser (users : List User) (id : Nat) (u : UserUpdateData)
    (h : UsersDistinct users)
    (hfree : ∀ y ∈ users, y.id ≠ id →
      u.email ≠ some y.email ∧ u.username ≠ some y.username ∧ u.phone ≠ some y.phone) :
    UsersDistinct (updateFirstUser id (applyUserUpdate u) users) := by
  obtain ⟨h1, h2, h3, h4⟩ := h
  refine ⟨nodup_map_updateFirstUser _ _ id users h1 h1 ?_,
    nodup_map_updateFirstUser _ _ id users h1 h2 ?_,
    nodup_map_updateFirstUser _ _ id users h1 h3 ?_,
    nodup_map_updateFirstUser _ _ id users h1 h4 ?_⟩
  · intro x _ hxid y _ hyid hc
    simp only [applyUserUpdate] at hc
    exact hyid (by rw [← hc, hxid])
  · intro x hx hxid y hy hyid hc
    simp only [applyUserUpdate] at hc
    cases hu : u.username with
    | some n =>
        rw [hu] at hc
        exact (hfree y hy hyid).2.1 (by rw [hu]; exact congrArg some hc)
    | none =>
        rw [hu] at hc
        have := eq_of_map_nodup _ users h2 x y hx hy hc
        exact hyid (by rw [← this, hxid])
  · intro x hx hxid y hy hyid hc
    simp only [applyUserUpdate] at hc
    cases hu : u.email with
    | some n =>
        rw [hu] at hc
        exact (hfree y hy hyid).1 (by rw [hu]; exact congrArg some hc)
    | none =>
        rw [hu] at hc
        have := eq_of_map_nodup _ users h3 x y hx hy hc
        exact hyid (by rw [← this, hxid])
  · intro x hx hxid y hy hyid hc
    simp only [applyUserUpdate] at hc
    cases hu : u.phone with
    | some n =>
        rw [hu] at hc
        exact (hfree y hy hyid).2.2 (by rw [hu]; exact congrArg some hc)
    | none =>
        rw [hu] at hc
        have := eq_of_map_nodup _ users h4 x y hx hy hc
        exact hyid (by rw [← this, hxid])

theorem createUser_distinct (hashPassword : String → String) (schemaOk : User → Bool)
    (b : CreateUserBody) (users : List User) (h : UsersDistinct users) :
    UsersDistinct (createUser hashPassword schemaOk b users).2 := by
  rcases createUser_store hashPassword schemaOk b users with hs | ⟨u, hs, hid, hnew⟩
  · rw [hs]; exact h
  · rw [hs]; exact usersDistinct_append users u h hid hnew

theorem registerRoute_distinct (jwtSign : Decoded → String → String)
    (hashPassword : String → String) (schemaOk : User → Bool) (jwtSecret : Option String)
    (b : CreateUserBody) (users : List User) (h : UsersDistinct users) :
    UsersDistinct (registerRoute jwtSign hashPassword schemaOk jwtSecret b users).2 := by
  rcases registerRoute_store jwtSign hashPassword schemaOk jwtSecret b users with
    hs | ⟨u, hs, hid, hnew⟩
  · rw [hs]; exact h
  · rw [hs]; exact usersDistinct_append users u h hid hnew

theorem updateUser_distinct (updateOk : UserUpdateData → Bool) (id : Nat)
    (b : UpdateUserBody) (users : List User) (h : UsersDistinct users) :
    UsersDistinct (updateUser updateOk id b users).2 := by
  rcases updateUser_store updateOk id b users with hs | ⟨hs, hfree⟩
  · rw [hs]; exact h
  · rw [hs]; exact usersDistinct_updateFirstUser users id _ h hfree

theorem serveUsers_distinct (jwtSign : Decoded → String → String)
    (hashPassword : String → String) (schemaOk : User → Bool)
    (updateOk : UserUpdateData → Bool) (jwtSecret : Option String) (reqs : List UserRequest) :
    ∀ users, UsersDistinct users →
      UsersDistinct (serveUsers jwtSign hashPassword schemaOk updateOk jwtSecret users reqs) := by
  induction reqs with
  | nil => intro users h; exact h
  | cons q qs ih =>
      intro users h
      simp only [serveUsers, List.foldl_cons]
      apply ih
      cases q with
      | create body => exact createUser_distinct hashPassword schemaOk body users h
      | register body =>
          exact registerRoute_distinct jwtSign hashPassword schemaOk jwtSecret body users h
      | update id body => exact updateUser_distinct updateOk id body users h

theorem createUser_duplicate (hashPassword : String → String) (schemaOk : User → Bool)
    (b : CreateUserBody) (users : List User) (email : String) (hem : b.email = .value email)
    (hdup : ∃ u ∈ users, u.email = email ∨ u.username = jsTrim (b.username.getD "") ∨
      u.phone = b.phone.getD "") :
    (createUser hashPassword schemaOk b users).1.status = 400 ∧
    (createUser hashPassword schemaOk b users).2 = users := by
  obtain ⟨d, hd⟩ := findDuplicate_some users _ _ _ hdup
  by_cases hval : validateCreateUser b = []
  · simp [createUser, hval, hem, hd, userPlain]
  · simp [createUser, hval]

theorem registerRoute_duplicate (jwtSign : Decoded → String → String)
    (hashPassword : String → String) (schemaOk : User → Bool) (jwtSecret : Option String)
    (b : CreateUserBody) (users : List User) (email : String) (hem : b.email = .value email)
    (hdup : ∃ u ∈ users, u.email = email ∨ u.username = jsTrim (b.username.getD "") ∨
      u.phone = b.phone.getD "") :
    (registerRoute jwtSign hashPassword schemaOk jwtSecret b users).1.status = 400 ∧
    (registerRoute jwtSign hashPassword schemaOk jwtSecret b users).2 = users := by
  obtain ⟨d, hd⟩ := findDuplicate_some users _ _ _ hdup
  by_cases hval : validateRegister b = []
  · simp [registerRoute, hval, hem, hd, authPlain]
  · simp [registerRoute, hval]

theorem updateUser_duplicate (updateOk : UserUpdateData → Bool) (id : Nat)
    (b : UpdateUserBody) (users : List User)
    (hdup : ∃ y ∈ users, y.id ≠ id ∧
      ((buildUserUpdateData b).email = some y.email ∨
       (buildUserUpdateData b).username = some y.username ∨
       (buildUserUpdateData b).phone = some y.phone)) :
    (updateUser updateOk id b users).1.status = 400 ∧
    (updateUser updateOk id b users).2 = users := by
  obtain ⟨d, hd⟩ := findConflict_some users id _ hdup
  have hany : ((buildUserUpdateData b).email.isSome ||
      (buildUserUpdateData b).username.isSome ||
      (buildUserUpdateData b).phone.isSome) = true := by
    obtain ⟨y, -, -, hc | hc | hc⟩ := hdup <;> simp [hc]
  by_cases hval : validateUpdateUser b = []
  · simp [updateUser, hval, hany, hd, userPlain]
  · simp [updateUser, hval]

theorem updateUser_own_values (updateOk : UserUpdateData → Bool) (b : UpdateUserBody)
    (users : List User) (u : User) (h : UsersDistinct users) (hu : u ∈ users)
    (hval : validateUpdateUser b = []) (hok : updateOk (buildUserUpdateData b) = true)
    (hemail : (buildUserUpdateData b).email = none ∨
      (buildUserUpdateData b).email = some u.email)
    (hname : (buildUserUpdateData b).username = none ∨
      (buildUserUpdateData b).username = some u.username)
    (hphone : (buildUserUpdateData b).phone = none ∨
      (buildUserUpdateData b).phone = some u.phone) :
    (updateUser updateOk u.id b users).1.status = 200 := by
  obtain ⟨h1, h2, h3, h4⟩ := h
  have hconf : findConflict users u.id (buildUserUpdateData b) = none := by
    cases hc : findConflict users u.id (buildUserUpdateData b) with
    | none => rfl
    | some d =>
        exfalso
        have hd := List.mem_of_find?_eq_some hc
        have hp := List.find?_some hc
        simp only [Bool.and_eq_true, bne_iff_ne, ne_eq, Bool.or_eq_true, beq_iff_eq] at hp
        obtain ⟨hid, hm⟩ := hp
        rcases hm with (hm | hm) | hm
        · rcases hemail with he | he
          · rw [he] at hm; cases hm
          · rw [he] at hm
            have := eq_of_map_nodup _ users h3 u d hu hd (Option.some.inj hm)
            exact hid (by rw [this])
        · rcases hname with he | he
          · rw [he] at hm; cases hm
          · rw [he] at hm
            have := eq_of_map_nodup _ users h2 u d hu hd (Option.some.inj hm)
            exact hid (by rw [this])
        · rcases hphone with he | he
          · rw [he] at hm; cases hm
          · rw [he] at hm
            have := eq_of_map_nodup _ users h4 u d hu hd (Option.some.inj hm)
            exact hid (by rw [this])
  have hfind : ∃ x, users.find? (fun x => x.id == u.id) = some x := by
    cases hf : users.find? (fun x => x.id == u.id) with
    | some x => exact ⟨x, rfl⟩
    | none =>
        have := List.find?_eq_none.mp hf u hu
        simp at this
  obtain ⟨x, hx⟩ := hfind
  by_cases hany : ((buildUserUpdateData b).email.isSome ||
      (buildUserUpdateData b).username.isSome ||
      (buildUserUpdateData b).phone.isSome) = true
  · simp [updateUser, hval, hany, hconf, hok, hx]
  · simp [updateUser, hval, hany, hok, hx]

/-- C25: from a store whose users have pairwise distinct ids, usernames, emails and phones,
every sequence of create-user, register and update-user requests leads to such a store. A
create or register request whose email, username or phone a stored user has, and an update
that sets an email, username or phone that another stored user has, are answered 400 and leave
the store as it is; a valid update that re-submits the own email, username and phone of the
user it updates is answered 200. -/
theorem C25_unique_fields_preserved (jwtSign : Decoded → String → String)
    (hashPassword : String → String) (schemaOk : User → Bool)
    (updateOk : UserUpdateData → Bool) (jwtSecret : Option String) (users : List User)
    (h : UsersDistinct users) :
    (∀ reqs,
      UsersDistinct (serveUsers jwtSign hashPassword schemaOk updateOk jwtSecret users reqs)) ∧
    (∀ b email, b.email = .value email →
      (∃ u ∈ users, u.email = email ∨ u.username = jsTrim (b.username.getD "") ∨
        u.phone = b.phone.getD "") →
      ((createUser hashPassword schemaOk b users).1.status = 400 ∧
        (createUser hashPassword schemaOk b users).2 = users) ∧
      ((registerRoute jwtSign hashPassword schemaOk jwtSecret b users).1.status = 400 ∧
        (registerRoute jwtSign hashPassword schemaOk jwtSecret b users).2 = users)) ∧
    (∀ id b,
      (∃ y ∈ users, y.id ≠ id ∧
        ((buildUserUpdateData b).email = some y.email ∨
         (buildUserUpdateData b).username = some y.username ∨
         (buildUserUpdateData b).phone = some y.phone)) →
      (updateUser updateOk id b users).1.status = 400 ∧
      (updateUser updateOk id b users).2 = users) ∧
    (∀ u ∈ users, ∀ b, validateUpdateUser b = [] →
      updateOk (buildUserUpdateData b) = true →
      ((buildUserUpdateData b).email = none ∨ (buildUserUpdateData b).email = some u.email) →
      ((buildUserUpdateData b).username = none ∨
        (buildUserUpdateData b).username = some u.username) →
      ((buildUserUpdateData b).phone = none ∨ (buildUserUpdateData b).phone = some u.phone) →
      (updateUser updateOk u.id b users).1.status = 200) :=
  ⟨fun reqs =>
      serveUsers_distinct jwtSign hashPassword schemaOk updateOk jwtSecret reqs users h,
    fun b email hem hdup =>
      ⟨createUser_duplicate hashPassword schemaOk b users email hem hdup,
        registerRoute_duplicate jwtSign hashPassword schemaOk jwtSecret b users email hem hdup⟩,
    fun id b hdup => updateUser_duplicate updateOk id b users hdup,
    fun u hu b hval hok he hn hp =>
      updateUser_own_values updateOk b users u h hu hval hok he hn hp⟩

/-- Witness for C25: on the two sample users, a create request that reuses the phone of the
active user is answered 400, an update of the active user with its own username, email and
phone is answered 200, and the store after a create and that update is still distinct. -/
theorem C25_unique_fields_preserved_witness :
    UsersDistinct sampleUsers ∧
    (createUser sampleHash sampleSchemaOk sampleDuplicatePhoneBody sampleUsers).1.status = 400 ∧
    (updateUser sampleUpdateOk sampleUser.id sampleOwnValuesBody sampleUsers).1.status = 200 ∧
    UsersDistinct (serveUsers sampleSign sampleHash sampleSchemaOk sampleUpdateOk none
      sampleUsers [.create sampleNewUserBody, .update 7 sampleOwnValuesBody]) :=
  let h := C25_unique_fields_preserved sampleSign sampleHash sampleSchemaOk sampleUpdateOk none
    sampleUsers (by unfold UsersDistinct; decide)
  ⟨by unfold UsersDistinct; decide,
    (h.2.1 sampleDuplicatePhoneBody "meera@example.com" rfl
      ⟨sampleUser, by decide, Or.inr (Or.inr (by decide))⟩).1.1,
    h.2.2.2 sampleUser (by decide) sampleOwnValuesBody (by decide) rfl
      (Or.inr (by decide)) (Or.inr (by decide)) (Or.inr (by decide)),
    h.1 _⟩

end JagadaleFarms
